import Mathlib

/-!
Verification development for the OpenReader query planner
(subsquid/openreader).  The TypeScript sources are shallowly embedded:
pure functions become Lean functions, the mutable builder state
(parameter vector, alias set, join set) is threaded explicitly, JS
exceptions become `Except`, and JS values (where-inputs, query
parameters, JSON) become the inductive `Value` below.  JS numbers are
modelled as exact decimal pairs `mant * 10 ^ exp10`; IEEE-754
saturation/rounding at extreme magnitudes is outside the model.
-/

namespace OpenReader

/-- Model of a JS number as an exact decimal `mant * 10 ^ exp10`
(sufficient for the integer and short-decimal values the planner
handles; NaN/Infinity are not representable). -/
structure JsNum where
  mant : Int
  exp10 : Int
deriving DecidableEq, Repr

/-- Truthiness of a JS number (`0` is falsy, everything else truthy). -/
def JsNum.truthy (n : JsNum) : Bool := n.mant != 0

/-- Whole JS number from an integer. -/
def JsNum.ofInt (i : Int) : JsNum := ⟨i, 0⟩

/-- Model of a JS/JSON value as handled by the resolver layer. -/
inductive Value where
  | vnull
  | vbool (b : Bool)
  | vnum (n : JsNum)
  | vstr (s : String)
  | varr (items : List Value)
  | vobj (fields : List (String × Value))
deriving Repr

mutual

def Value.beq : Value → Value → Bool
  | .vnull, .vnull => true
  | .vbool a, .vbool b => a == b
  | .vnum a, .vnum b => a == b
  | .vstr a, .vstr b => a == b
  | .varr a, .varr b => Value.beqList a b
  | .vobj a, .vobj b => Value.beqFields a b
  | _, _ => false

def Value.beqList : List Value → List Value → Bool
  | [], [] => true
  | x :: xs, y :: ys => Value.beq x y && Value.beqList xs ys
  | _, _ => false

def Value.beqFields : List (String × Value) → List (String × Value) → Bool
  | [], [] => true
  | (k₁, v₁) :: xs, (k₂, v₂) :: ys => k₁ == k₂ && Value.beq v₁ v₂ && Value.beqFields xs ys
  | _, _ => false

end

mutual

theorem Value.beq_iff_eq : ∀ a b : Value, Value.beq a b = true ↔ a = b
  | .vnull, .vnull => by simp [Value.beq]
  | .vbool _, .vbool _ => by simp [Value.beq]
  | .vnum _, .vnum _ => by simp [Value.beq]
  | .vstr _, .vstr _ => by simp [Value.beq]
  | .varr x, .varr y => by simp [Value.beq, Value.beqList_iff_eq x y]
  | .vobj x, .vobj y => by simp [Value.beq, Value.beqFields_iff_eq x y]
  | .vnull, .vbool _ | .vnull, .vnum _ | .vnull, .vstr _ | .vnull, .varr _ | .vnull, .vobj _
  | .vbool _, .vnull | .vbool _, .vnum _ | .vbool _, .vstr _ | .vbool _, .varr _
  | .vbool _, .vobj _
  | .vnum _, .vnull | .vnum _, .vbool _ | .vnum _, .vstr _ | .vnum _, .varr _ | .vnum _, .vobj _
  | .vstr _, .vnull | .vstr _, .vbool _ | .vstr _, .vnum _ | .vstr _, .varr _ | .vstr _, .vobj _
  | .varr _, .vnull | .varr _, .vbool _ | .varr _, .vnum _ | .varr _, .vstr _ | .varr _, .vobj _
  | .vobj _, .vnull | .vobj _, .vbool _ | .vobj _, .vnum _ | .vobj _, .vstr _
  | .vobj _, .varr _ => by simp [Value.beq]

theorem Value.beqList_iff_eq : ∀ xs ys : List Value, Value.beqList xs ys = true ↔ xs = ys
  | [], [] => by simp [Value.beqList]
  | x :: xs, y :: ys => by simp [Value.beqList, Value.beq_iff_eq x y, Value.beqList_iff_eq xs ys]
  | [], _ :: _ => by simp [Value.beqList]
  | _ :: _, [] => by simp [Value.beqList]

theorem Value.beqFields_iff_eq :
    ∀ xs ys : List (String × Value), Value.beqFields xs ys = true ↔ xs = ys
  | [], [] => by simp [Value.beqFields]
  | (k₁, v₁) :: xs, (k₂, v₂) :: ys => by
    simp [Value.beqFields, Value.beq_iff_eq v₁ v₂, Value.beqFields_iff_eq xs ys,
      Prod.ext_iff, and_assoc]
  | [], _ :: _ => by simp [Value.beqFields]
  | _ :: _, [] => by simp [Value.beqFields]

end

instance : DecidableEq Value := fun a b =>
  decidable_of_iff (Value.beq a b = true) (Value.beq_iff_eq a b)

instance {ε α : Type} [DecidableEq ε] [DecidableEq α] : DecidableEq (Except ε α) := fun a b =>
  match a, b with
  | .ok x, .ok y => decidable_of_iff (x = y) (by simp)
  | .error x, .error y => decidable_of_iff (x = y) (by simp)
  | .ok _, .error _ => isFalse (by simp)
  | .error _, .ok _ => isFalse (by simp)

/-- Truthiness of a JS value. -/
def Value.truthy : Value → Bool
  | .vnull => false
  | .vbool b => b
  | .vnum n => n.truthy
  | .vstr s => s != ""
  | .varr _ => true
  | .vobj _ => true

/-! Decimal rendering of naturals, as JS `Number.prototype.toString`
produces for the small integer counters and parameter indices the
builder generates.  The accumulator-free form keeps kernel evaluation
structural (the first argument is fuel, always called with enough). -/

def natToDecCore : Nat → Nat → List Char
  | 0, _ => []
  | _ + 1, 0 => []
  | fuel + 1, n + 1 => natToDecCore fuel ((n + 1) / 10) ++ [Nat.digitChar ((n + 1) % 10)]

/-- Decimal string of a natural number. -/
def natToDec (n : Nat) : String :=
  if n = 0 then "0" else String.mk (natToDecCore n n)

/-- Numeric value of a list of decimal digit characters. -/
def decDigitsVal (cs : List Char) : Nat :=
  cs.foldl (fun acc c => 10 * acc + (c.toNat - 48)) 0

theorem decDigitsVal_append_one (cs : List Char) (c : Char) :
    decDigitsVal (cs ++ [c]) = 10 * decDigitsVal cs + (c.toNat - 48) := by
  simp [decDigitsVal, List.foldl_append]

theorem digitChar_toNat (k : Nat) (h : k < 10) : (Nat.digitChar k).toNat = 48 + k := by
  interval_cases k <;> rfl

theorem digitChar_isDigit (k : Nat) (h : k < 10) :
    48 ≤ (Nat.digitChar k).toNat ∧ (Nat.digitChar k).toNat ≤ 57 := by
  interval_cases k <;> exact ⟨by decide, by decide⟩

theorem natToDecCore_spec :
    ∀ fuel n, 0 < n → n ≤ fuel →
      decDigitsVal (natToDecCore fuel n) = n ∧ natToDecCore fuel n ≠ [] ∧
      ∀ c ∈ natToDecCore fuel n, 48 ≤ c.toNat ∧ c.toNat ≤ 57 := by
  intro fuel
  induction fuel with
  | zero => intro n h1 h2; omega
  | succ f ih =>
    intro n h1 h2
    match n, h1 with
    | n + 1, _ =>
      simp only [natToDecCore]
      have hm : (n + 1) % 10 < 10 := Nat.mod_lt _ (by omega)
      by_cases hq : (n + 1) / 10 = 0
      · have h10 : n + 1 < 10 := by omega
        have : natToDecCore f ((n + 1) / 10) = [] := by
          rw [hq]; cases f <;> rfl
        rw [this]
        refine ⟨?_, by simp, ?_⟩
        · have hd := digitChar_toNat ((n + 1) % 10) hm
          simp [decDigitsVal, hd]
          omega
        · intro c hc
          simp at hc
          subst hc
          exact digitChar_isDigit _ hm
      · have hle : (n + 1) / 10 ≤ f := by
          have := Nat.div_lt_self (show 0 < n + 1 by omega) (show 1 < 10 by omega)
          omega
        obtain ⟨hval, hne, hdig⟩ := ih ((n + 1) / 10) (Nat.pos_of_ne_zero hq) hle
        refine ⟨?_, by simp, ?_⟩
        · rw [decDigitsVal_append_one, hval, digitChar_toNat _ hm]
          omega
        · intro c hc
          rcases List.mem_append.mp hc with h | h
          · exact hdig c h
          · simp at h; subst h; exact digitChar_isDigit _ hm

theorem decDigitsVal_natToDec (n : Nat) : decDigitsVal (natToDec n).data = n := by
  by_cases h : n = 0
  · subst h; rfl
  · have := natToDecCore_spec n n (Nat.pos_of_ne_zero h) (le_refl n)
    simp [natToDec, h]
    exact this.1

theorem natToDec_inj {a b : Nat} (h : natToDec a = natToDec b) : a = b := by
  have := decDigitsVal_natToDec a
  rw [h, decDigitsVal_natToDec] at this
  omega

theorem natToDec_digits (n : Nat) : ∀ c ∈ (natToDec n).data, 48 ≤ c.toNat ∧ c.toNat ≤ 57 := by
  by_cases h : n = 0
  · subst h; intro c hc; simp [natToDec] at hc; subst hc; exact ⟨by decide, by decide⟩
  · have := natToDecCore_spec n n (Nat.pos_of_ne_zero h) (le_refl n)
    simpa [natToDec, h] using this.2.2

theorem natToDec_no_underscore (n : Nat) : '_' ∉ (natToDec n).data := by
  intro hc
  exact absurd (natToDec_digits n '_' hc) (by decide)

theorem natToDec_ne_empty (n : Nat) : natToDec n ≠ "" := by
  by_cases h : n = 0
  · subst h; decide
  · have := natToDecCore_spec n n (Nat.pos_of_ne_zero h) (le_refl n)
    simp [natToDec, h]
    intro heq
    exact this.2.1 (by simpa [String.ext_iff] using heq)

/-! JS operational helpers shared by the embeddings: truthiness,
`for (let key in x)` enumeration and member access.  Note on `for..in`:
JS enumerates integer-like object keys first; the GraphQL layer never
produces such keys on input objects, so insertion order is used here.
Strings and arrays enumerate their index keys. -/

/-- Keys visited by a JS `for (let key in x)` loop. -/
def jsOwnKeys : Value → List String
  | .vobj kvs => kvs.map Prod.fst
  | .vstr s => (List.range s.length).map natToDec
  | .varr xs => (List.range xs.length).map natToDec
  | _ => []

/-- Entries (key, value) visited by a JS `for..in` loop together with
the member read `x[key]`. -/
def jsOwnEntries : Value → List (String × Value)
  | .vobj kvs => kvs
  | .vstr s => s.data.enum.map (fun p => (natToDec p.1, Value.vstr (String.mk [p.2])))
  | .varr xs => xs.enum.map (fun p => (natToDec p.1, p.2))
  | _ => []

/-- JS member access `x.name` for a non-index member name, `none` when
the member is absent (`undefined`).  Only called on non-null values. -/
def Value.getProp : Value → String → Option Value
  | .vobj kvs, k => kvs.lookup k
  | _, _ => none

/-- Bool test whether `pat` occurs as a substring of `s`. -/
def strHas (s pat : String) : Bool :=
  s.data.tails.any (fun t => pat.data.isPrefixOf t)

/-! Embedding of `src/util.ts` (current version) plus the library
helpers it re-exports.  `snakeCase` delegates to `underscore` of the
`inflected` npm package; that library function is modelled here as the
usual lowerCamelCase/UpperCamelCase to snake_case conversion. -/

/-- Modelled library function (`underscore` from the `inflected`
package): insert `_` before an upper-case letter that follows a
lower-case letter or digit, then lower-case everything. -/
def snakeCase (name : String) : String :=
  let step := fun (acc : List Char × Bool) (c : Char) =>
    let (out, prevLower) := acc
    if c.isUpper then
      (out ++ (if prevLower then ['_', c.toLower] else [c.toLower]), false)
    else
      (out ++ [c], c.isLower || c.isDigit)
  String.mk (name.data.foldl step ([], false)).1

def toColumn (gqlFieldName : String) : String := snakeCase gqlFieldName

def toFkColumn (gqlFieldName : String) : String := snakeCase gqlFieldName ++ "_id"

def toTable (entityName : String) : String := snakeCase entityName

/-- JS `Array.isArray(item) ? item : [item]` on a modelled value. -/
def ensureArray : Value → List Value
  | .varr xs => xs
  | v => [v]

/-- Modelled library function (`escapeIdentifier` of the `pg` driver):
double-quote the name, doubling any embedded double quote. -/
def quoteIdent (name : String) : String :=
  "\"" ++ String.mk (name.data.foldl
    (fun acc c => if c = '"' then acc ++ ['"', '"'] else acc ++ [c]) []) ++ "\""

/-! Embedding of `src/scalars.ts` (current version): per-scalar SQL
cast helpers and the JSON extraction helpers. -/

structure ScalarCasts where
  fromStringCast : String → String
  toStringCast : String → String
  fromStringArrayCast : String → String
  toStringArrayCast : String → String

def scalarsLookup : String → Option ScalarCasts
  | "BigInt" => some {
      fromStringCast := fun exp => "(" ++ exp ++ ")::numeric"
      toStringCast := fun exp => "(" ++ exp ++ ")::text"
      fromStringArrayCast := fun exp => "(" ++ exp ++ ")::numeric[]"
      toStringArrayCast := fun exp => "(" ++ exp ++ ")::text[]" }
  | "DateTime" => some {
      fromStringCast := fun exp => "(" ++ exp ++ ")::timestamptz"
      toStringCast := fun exp => exp
      fromStringArrayCast := fun exp => "(" ++ exp ++ ")::timestamptz[]"
      toStringArrayCast := fun exp => exp }
  | "Bytes" => some {
      fromStringCast := fun exp => "decode(substr(" ++ exp ++ ", 3), 'hex')"
      toStringCast := fun exp => "'0x' || encode(" ++ exp ++ ", 'hex')"
      fromStringArrayCast := fun exp =>
        "array(select decode(substr(i, 3), 'hex') from unnest((" ++ exp ++ ")::text[]) as i)"
      toStringArrayCast := fun exp =>
        "array(select '0x' || encode(i, 'hex') from unnest(" ++ exp ++ ") as i)" }
  | _ => none

def toTransportCast (scalarType sqlExp : String) : String :=
  match scalarsLookup scalarType with
  | some s => s.toStringCast sqlExp
  | none => sqlExp

def fromTransportCast (scalarType sqlExp : String) : String :=
  match scalarsLookup scalarType with
  | some s => s.fromStringCast sqlExp
  | none => sqlExp

def toTransportArrayCast (scalarType sqlExp : String) : String :=
  match scalarsLookup scalarType with
  | some s => s.toStringArrayCast sqlExp
  | none => sqlExp

def fromTransportArrayCast (scalarType sqlExp : String) : String :=
  match scalarsLookup scalarType with
  | some s => s.fromStringArrayCast sqlExp
  | none => sqlExp

/-- Embedding of `fromJsonCast` (src/scalars.ts lines 238-247). -/
def fromJsonCast (scalarType objSqlExp prop : String) : String :=
  match scalarType with
  | "Int" => "(" ++ objSqlExp ++ "->>'" ++ prop ++ "')::integer"
  | "Float" => "(" ++ objSqlExp ++ "->>'" ++ prop ++ "')::numeric"
  | _ => fromTransportCast scalarType (objSqlExp ++ "->>'" ++ prop ++ "'")

/-- Embedding of `fromJsonToTransportCast` (src/scalars.ts lines 250-259). -/
def fromJsonToTransportCast (scalarType objSqlExp prop : String) : String :=
  match scalarType with
  | "Int" => "(" ++ objSqlExp ++ "->'" ++ prop ++ "')::integer"
  | "Float" => "(" ++ objSqlExp ++ "->'" ++ prop ++ "')::numeric"
  | _ => objSqlExp ++ "->>'" ++ prop ++ "'"

/-! Embedding of `src/where.ts` as present in the tree (the version
whose `parseWhereField` maps endings directly to SQL operators).
`OPS_REGEX = ^(.*)_(e1|e2|...)$` with a greedy `(.*)` succeeds on the
split with the longest field part, i.e. with the shortest member of
`ENDINGS` that closes the key after an underscore; `opsRegexExec`
computes exactly that split. -/

def ENDINGS : List String :=
  ["not", "gt", "gte", "lt", "lte", "in", "not_in", "contains", "not_contains",
   "starts_with", "not_starts_with", "ends_with", "not_ends_with"]

def opsRegexExec (field : String) : Option (String × String) :=
  match ENDINGS.filter (fun e => ("_" ++ e).data.isSuffixOf field.data) with
  | [] => none
  | e :: es =>
    let best := es.foldl (fun acc x => if x.length < acc.length then x else acc) e
    some (String.mk (field.data.take (field.data.length - (best.length + 1))), best)

def endingToOperator (ending : String) : Except String String :=
  match ending with
  | "not" => .ok "!="
  | "gt" => .ok ">"
  | "gte" => .ok ">="
  | "lt" => .ok "<"
  | "lte" => .ok "<="
  | "in" => .ok "IN"
  | "not_in" => .ok "NOT IN"
  | _ => .error ("Unsupported operator: " ++ ending)

structure WhereField where
  op : String
  field : String
deriving DecidableEq, Repr

/-- Embedding of `parseWhereField` (src/where.ts lines 44-51). -/
def parseWhereField (field : String) : Except String WhereField :=
  match opsRegexExec field with
  | none => .ok ⟨"=", field⟩
  | some (f, e) =>
    match endingToOperator e with
    | .ok op => .ok ⟨op, f⟩
    | .error msg => .error msg

/-- JS `list.some(f)` with exception propagation and short-circuit. -/
def jsSomeE (f : Value → Except String Bool) : List Value → Except String Bool
  | [] => .ok false
  | x :: xs =>
    match f x with
    | .error e => .error e
    | .ok true => .ok true
    | .ok false => jsSomeE f xs

/-- Embedding of `hasConditions` (src/where.ts lines 54-68), shared by
both where-module generations.  The fuel argument only bounds the
nesting depth of `AND`/`OR` arrays; every call site below passes
enough. -/
def hasConditionsF : Nat → Value → Except String Bool
  | 0, _ => .error "fuel"
  | fuel + 1, w =>
    if w = .vnull then .ok false
    else if (jsOwnKeys w).any (fun k => k != "AND" && k != "OR") then .ok true
    else
      let andStep : Except String Bool :=
        match w.getProp "AND" with
        | some a =>
          if a.truthy then
            match a with
            | .varr xs => jsSomeE (hasConditionsF fuel) xs
            | _ => .error "TypeError: where.AND.some is not a function"
          else .ok false
        | none => .ok false
      match andStep with
      | .error e => .error e
      | .ok true => .ok true
      | .ok false =>
        match w.getProp "OR" with
        | some o =>
          if o.truthy then
            match o with
            | .varr xs => jsSomeE (hasConditionsF fuel) xs
            | _ => .error "TypeError: where.OR.some is not a function"
          else .ok false
        | none => .ok false

/-! Embedding of `AliasSet` (src/queryBuilder.ts lines 732-743).  The
`Record<string, number>` becomes an association list; `add` mirrors the
JS truthiness test on the stored counter. -/

/-- JS object property assignment `o[k] = v` on an association list:
replace in place when the key exists (JS keeps the original insertion
position), append otherwise. -/
def setKey {α : Type} : List (String × α) → String → α → List (String × α)
  | [], k, v => [(k, v)]
  | (k', v') :: rest, k, v =>
    if k' = k then (k, v) :: rest else (k', v') :: setKey rest k v

def setAssoc (xs : List (String × Nat)) (k : String) (v : Nat) : List (String × Nat) :=
  setKey xs k v

/-- Embedding of `AliasSet.add`. -/
def aliasAdd (aliases : List (String × Nat)) (name : String) : String × List (String × Nat) :=
  match aliases.lookup name with
  | some c =>
    if c = 0 then (name, setAssoc aliases name 1)
    else (name ++ "_" ++ natToDec c, setAssoc aliases name (c + 1))
  | none => (name, setAssoc aliases name 1)

/-- Repeated `AliasSet.add` over a sequence of base names, returning
the produced aliases in order together with the final state. -/
def aliasAddAll : List String → List (String × Nat) → List String × List (String × Nat)
  | [], st => ([], st)
  | n :: rest, st =>
    let (a, st') := aliasAdd st n
    let (as, st'') := aliasAddAll rest st'
    (a :: as, st'')

/-! Correctness development for the alias allocator. -/

/-- Alias the allocator hands out for the `k`-th (0-based) occurrence
of base name `b` within one planning pass. -/
def specAlias (b : String) (k : Nat) : String :=
  if k = 0 then b else b ++ "_" ++ natToDec k

/-- Aliases produced for `bs` when `processed` base names were already
added before. -/
def specOutputsGo : List String → List String → List String
  | _, [] => []
  | processed, b :: rest =>
    specAlias b (processed.count b) :: specOutputsGo (processed ++ [b]) rest

theorem lookup_setKey {α : Type} (xs : List (String × α)) (k : String) (v : α) (k' : String) :
    (setKey xs k v).lookup k' = if k' = k then some v else xs.lookup k' := by
  induction xs with
  | nil =>
    by_cases h : k' = k
    · subst h; simp [setKey, List.lookup]
    · simp [setKey, List.lookup, beq_eq_false_iff_ne.mpr h, h]
  | cons p rest ih =>
    obtain ⟨k₀, v₀⟩ := p
    by_cases h0 : k₀ = k
    · subst h0
      by_cases h : k' = k₀
      · subst h; simp [setKey, List.lookup]
      · simp [setKey, List.lookup, beq_eq_false_iff_ne.mpr h, h]
    · by_cases h : k' = k₀
      · subst h
        simp [setKey, h0, List.lookup]
      · simp [setKey, h0, List.lookup, beq_eq_false_iff_ne.mpr h, ih]

theorem lookup_setAssoc (xs : List (String × Nat)) (k : String) (v : Nat) (k' : String) :
    (setAssoc xs k v).lookup k' = if k' = k then some v else xs.lookup k' :=
  lookup_setKey xs k v k'

/-- Invariant tying the allocator state to the multiset of base names
already added. -/
def AliasInv (processed : List String) (st : List (String × Nat)) : Prop :=
  ∀ b, st.lookup b = if processed.count b = 0 then none else some (processed.count b)

theorem aliasInv_nil : AliasInv [] [] := by
  intro b; simp [List.lookup]

theorem aliasAdd_fst {processed st} (b : String) (h : AliasInv processed st) :
    (aliasAdd st b).1 = specAlias b (processed.count b) := by
  unfold aliasAdd
  rw [h b]
  by_cases hc : processed.count b = 0 <;> simp [hc, specAlias]

theorem count_append_single (processed : List String) (b b' : String) :
    (processed ++ [b]).count b' = processed.count b' + (if b' = b then 1 else 0) := by
  by_cases hb : b' = b <;> simp [List.count_append, hb]

theorem aliasAdd_inv {processed st} (b : String) (h : AliasInv processed st) :
    AliasInv (processed ++ [b]) (aliasAdd st b).2 := by
  intro b'
  rw [count_append_single]
  unfold aliasAdd
  rw [h b]
  by_cases hc : processed.count b = 0
  · simp only [hc, reduceIte]
    rw [lookup_setAssoc]
    by_cases hb : b' = b
    · subst hb; simp [hc]
    · simp [hb, h b']
  · simp only [hc, reduceIte]
    rw [lookup_setAssoc]
    by_cases hb : b' = b
    · subst hb; simp [hc]
    · simp [hb, h b']

theorem aliasAddAll_fst :
    ∀ (bs : List String) {processed st}, AliasInv processed st →
      (aliasAddAll bs st).1 = specOutputsGo processed bs := by
  intro bs
  induction bs with
  | nil => intro processed st _; rfl
  | cons b rest ih =>
    intro processed st h
    show ((aliasAdd st b).1 :: (aliasAddAll rest (aliasAdd st b).2).1, _).1 = _
    simp only [specOutputsGo]
    rw [aliasAdd_fst b h, ih (aliasAdd_inv b h)]

theorem mem_specOutputsGo :
    ∀ (bs processed : List String) (x : String), x ∈ specOutputsGo processed bs →
      ∃ b' ∈ bs, ∃ m : List String, x = specAlias b' ((processed ++ m).count b') := by
  intro bs
  induction bs with
  | nil => intro processed x hx; simp [specOutputsGo] at hx
  | cons b rest ih =>
    intro processed x hx
    rcases List.mem_cons.mp hx with hx | hx
    · exact ⟨b, by simp, [], by simpa using hx⟩
    · obtain ⟨b', hb', m', hm'⟩ := ih (processed ++ [b]) x hx
      exact ⟨b', by simp [hb'], [b] ++ m', by simpa [List.append_assoc] using hm'⟩

theorem underscore_split_inj :
    ∀ (u u' d d' : List Char), '_' ∉ d → '_' ∉ d' →
      u ++ '_' :: d = u' ++ '_' :: d' → u = u' ∧ d = d' := by
  intro u
  induction u with
  | nil =>
    intro u' d d' hd hd' h
    cases u' with
    | nil => simpa using h
    | cons c t =>
      simp at h
      obtain ⟨hc, hrest⟩ := h
      exfalso
      apply hd
      rw [hrest]
      simp
  | cons c t ih =>
    intro u' d d' hd hd' h
    cases u' with
    | nil =>
      simp at h
      obtain ⟨hc, hrest⟩ := h
      exfalso
      apply hd'
      rw [← hrest]
      simp
    | cons c' t' =>
      simp at h
      obtain ⟨hc, hrest⟩ := h
      obtain ⟨ht, hdd⟩ := ih t' d d' hd hd' hrest
      exact ⟨by rw [hc, ht], hdd⟩

theorem string_append_data (a b : String) : (a ++ b).data = a.data ++ b.data := rfl

theorem underscore_alias_inj {b b' : String} {k k' : Nat}
    (h : b ++ "_" ++ natToDec k = b' ++ "_" ++ natToDec k') : b = b' ∧ k = k' := by
  have hdata : b.data ++ '_' :: (natToDec k).data = b'.data ++ '_' :: (natToDec k').data := by
    have := congrArg String.data h
    simpa [string_append_data, List.append_assoc] using this
  obtain ⟨hb, hd⟩ := underscore_split_inj _ _ _ _
    (natToDec_no_underscore k) (natToDec_no_underscore k') hdata
  refine ⟨congrArg String.mk hb, natToDec_inj (?_ : natToDec k = natToDec k')⟩
  have h1 : natToDec k = String.mk (natToDec k).data := rfl
  rw [h1, hd]

theorem specAlias_eq_cases {b b' : String} {k k' : Nat}
    (hne1 : ∀ n, 0 < n → b ≠ b' ++ "_" ++ natToDec n)
    (hne2 : ∀ n, 0 < n → b' ≠ b ++ "_" ++ natToDec n)
    (h : specAlias b k = specAlias b' k') : b = b' ∧ k = k' := by
  unfold specAlias at h
  by_cases h0 : k = 0 <;> by_cases h0' : k' = 0 <;> simp [h0, h0'] at h
  · exact ⟨h, by omega⟩
  · exact absurd h (hne1 k' (Nat.pos_of_ne_zero h0'))
  · exact absurd h.symm (hne2 k (Nat.pos_of_ne_zero h0))
  · exact underscore_alias_inj h

theorem specOutputsGo_nodup :
    ∀ (bs : List String) (processed : List String) (pool : List String),
      (∀ b ∈ pool, ∀ b' ∈ pool, ∀ n : Nat, 0 < n → b ≠ b' ++ "_" ++ natToDec n) →
      (∀ x ∈ bs, x ∈ pool) →
      (specOutputsGo processed bs).Nodup := by
  intro bs
  induction bs with
  | nil => intro processed pool _ _; simp [specOutputsGo]
  | cons b rest ih =>
    intro processed pool hclean hsub
    refine List.nodup_cons.mpr ⟨?_, ih (processed ++ [b]) pool hclean
      (fun x hx => hsub x (by simp [hx]))⟩
    intro hmem
    obtain ⟨b', hb', m, hm⟩ := mem_specOutputsGo rest (processed ++ [b]) _ hmem
    have hbp : b ∈ pool := hsub b (by simp)
    have hbp' : b' ∈ pool := hsub b' (by simp [hb'])
    obtain ⟨hbb, hkk⟩ := specAlias_eq_cases
      (fun n hn => hclean b hbp b' hbp' n hn)
      (fun n hn => hclean b' hbp' b hbp n hn) hm
    subst hbb
    have h2 : ((processed ++ [b]) ++ m).count b = (processed ++ [b]).count b + m.count b :=
      List.count_append ..
    have h3 : (processed ++ [b]).count b = processed.count b + 1 := by
      rw [count_append_single]; simp
    omega

theorem alias_ne_of_le {b b' : String} (h : b.length ≤ b'.length + 1) :
    ∀ n : Nat, 0 < n → b ≠ b' ++ "_" ++ natToDec n := by
  intro n _ heq
  have hne : (natToDec n).length ≠ 0 := by
    intro h0
    apply natToDec_ne_empty n
    have : (natToDec n).data = [] := List.length_eq_zero.mp h0
    cases hmk : natToDec n
    simp_all
  have hlen : b.length = (b' ++ "_" ++ natToDec n).length := congrArg String.length heq
  rw [String.length_append, String.length_append] at hlen
  have h1 : "_".length = 1 := rfl
  omega

/-- C3: at the failing input `balance_not_in` the where-suffix parser of
src/where.ts returns the `IN` operator with field `balance_not` — the
greedy `(.*)` group of `OPS_REGEX` matches the shortest ending, not the
longest — and a `contains` key fails in `endingToOperator` instead of
parsing.  This contradicts the claimed longest-suffix-first behaviour. -/
theorem c3_parseWhereField_shortest_suffix :
    parseWhereField "balance_not_in" = .ok ⟨"IN", "balance_not"⟩ ∧
    parseWhereField "balance_not_in" ≠ .ok ⟨"NOT IN", "balance"⟩ ∧
    parseWhereField "wallet_contains" = .error "Unsupported operator: contains" := by
  refine ⟨by decide, by decide, by decide⟩

/-- C6 (counterexample): for the base-name sequence `a_1, a, a` the
alias allocator returns `a_1, a, a_1` — the aliases are not pairwise
distinct for every sequence of base names. -/
theorem c6_counterexample : ¬ (aliasAddAll ["a_1", "a", "a"] []).1.Nodup := by decide

/-- C6 (amended): within one planning pass the aliases returned by
`AliasSet.add` are pairwise distinct for every sequence of base names
in which no base name equals another base name extended by `_` and a
positive decimal number (true in particular for any set of base names
of equal length, and for snake_case table names that do not end in a
numeric suffix). -/
theorem c6_alias_uniqueness (bs : List String)
    (h : ∀ b ∈ bs, ∀ b' ∈ bs, ∀ n : Nat, 0 < n → b ≠ b' ++ "_" ++ natToDec n) :
    (aliasAddAll bs []).1.Nodup := by
  rw [aliasAddAll_fst bs aliasInv_nil]
  exact specOutputsGo_nodup bs [] bs h (fun x hx => hx)

/-- C6 witness: a concrete planning pass with a repeated table name. -/
theorem c6_witness : (aliasAddAll ["account", "account", "balance"] []).1.Nodup :=
  c6_alias_uniqueness _ (by
    intro b hb b' hb' n hn
    refine alias_ne_of_le ?_ n hn
    fin_cases hb <;> fin_cases hb' <;> decide)

/-- C7 (counterexample): `fromJsonCast` for `Int` emits
`(obj->>'prop')::integer` — it extracts with `->>`, not with `->` as
the claim states. -/
theorem c7_counterexample :
    fromJsonCast "Int" "obj" "prop" = "(obj->>'prop')::integer" ∧
    fromJsonCast "Int" "obj" "prop" ≠ "(obj->'prop')::integer" ∧
    strHas (fromJsonCast "Int" "obj" "prop") "->>" = true ∧
    fromJsonCast "Float" "obj" "prop" = "(obj->>'prop')::numeric" := by
  refine ⟨by decide, by decide, by decide, by decide⟩

/-- C7 (amended): the native-extraction helper `fromJsonCast` extracts
`Int` and `Float` with the text operator `->>` followed by an
`::integer` / `::numeric` cast; the `->` extraction for `Int` and
`Float` is produced by `fromJsonToTransportCast` instead. -/
theorem c7_fromJsonCasts (o p : String) :
    fromJsonCast "Int" o p = "(" ++ o ++ "->>'" ++ p ++ "')::integer" ∧
    fromJsonCast "Float" o p = "(" ++ o ++ "->>'" ++ p ++ "')::numeric" ∧
    fromJsonToTransportCast "Int" o p = "(" ++ o ++ "->'" ++ p ++ "')::integer" ∧
    fromJsonToTransportCast "Float" o p = "(" ++ o ++ "->'" ++ p ++ "')::numeric" :=
  ⟨rfl, rfl, rfl, rfl⟩

/-! Embedding of `src/transaction.ts`.  Promises are modelled by their
settled outcomes (`Except`), the pool by an oracle fixing the outcome
of `connect` and of the issued statements, and pool interaction by an
effect trace. -/

/-- Observable pool/database interaction of a `Transaction`. -/
inductive TxEffect where
  | poolConnect
  | query (client : Nat) (sql : String) (ok : Bool)
  | release (client : Nat)
deriving DecidableEq, Repr

/-- Outcomes the environment fixes for one `Transaction` run. -/
structure PoolOracle where
  connectResult : Except String Nat
  beginOk : Bool
  commitOk : Bool
deriving DecidableEq, Repr

/-- Fields of the `Transaction` class: the memoized client promise
(settled outcome once created) and the `closed` flag. -/
structure TxState where
  client : Option (Except String Nat)
  closed : Bool
deriving DecidableEq, Repr

def txSql : String := "START TRANSACTION ISOLATION LEVEL SERIALIZABLE READ ONLY"

/-- Embedding of `Transaction.startTransaction`. -/
def startTransaction (pool : PoolOracle) : Except String Nat × List TxEffect :=
  match pool.connectResult with
  | .error e => (.error e, [.poolConnect])
  | .ok c =>
    if pool.beginOk then
      (.ok c, [.poolConnect, .query c txSql true])
    else
      (.error "begin failed", [.poolConnect, .query c txSql false, .release c])

/-- Result of a `Transaction.get()` call: either a synchronous throw
or the (settled) returned promise. -/
inductive GetResult where
  | thrown (msg : String)
  | promise (outcome : Except String Nat)
deriving DecidableEq, Repr

/-- Embedding of `Transaction.get` (src/transaction.ts lines 10-19). -/
def Transaction.get (st : TxState) (pool : PoolOracle) : GetResult × TxState × List TxEffect :=
  if st.closed then (.thrown "Too late to request transaction", st, [])
  else
    match st.client with
    | some p => (.promise p, st, [])
    | none =>
      let (r, effs) := startTransaction pool
      (.promise r, { st with client := some r }, effs)

/-- Embedding of `Transaction.close` (src/transaction.ts lines 32-43):
sets `closed`, then — when a client promise exists — commits (failure
swallowed by the `catch`) and releases in the `finally`; without a
client promise it returns `Promise.resolve()` and never touches the
pool.  A rejected client promise propagates through the `.then`. -/
def Transaction.close (st : TxState) (pool : PoolOracle) :
    Except String Unit × TxState × List TxEffect :=
  let st' := { st with closed := true }
  match st.client with
  | none => (.ok (), st', [])
  | some (.ok c) => (.ok (), st', [.query c "COMMIT" pool.commitOk, .release c])
  | some (.error e) => (.error e, st', [])

/-- C10: `close()` leaves the transaction closed and `get()` on a
closed transaction throws `Too late to request transaction` without
touching pool or state; `close()` on a transaction that never acquired
a client resolves with no pool effect; and when a client was acquired,
`close()` releases it back to the pool whether the `COMMIT` succeeds
(`pool.commitOk = true`) or fails. -/
theorem c10_transaction_close (pool : PoolOracle) (st : TxState) :
    (st.closed = true → Transaction.get st pool =
      (.thrown "Too late to request transaction", st, [])) ∧
    (Transaction.close st pool).2.1.closed = true ∧
    (st.client = none →
      Transaction.close st pool = (.ok (), { st with closed := true }, [])) ∧
    (∀ c, st.client = some (.ok c) →
      TxEffect.release c ∈ (Transaction.close st pool).2.2) := by
  refine ⟨?_, ?_, ?_, ?_⟩
  · intro h; simp [Transaction.get, h]
  · match hc : st.client with
    | none => simp [Transaction.close, hc]
    | some (.ok c) => simp [Transaction.close, hc]
    | some (.error e) => simp [Transaction.close, hc]
  · intro h; simp [Transaction.close, h]
  · intro c h; simp [Transaction.close, h]

/-- C10 witness: concrete closed-transaction `get`, a close with no
client, and a close after acquisition with a failing `COMMIT`. -/
theorem c10_witness :
    Transaction.get ⟨none, true⟩ ⟨.ok 1, true, true⟩ =
      (.thrown "Too late to request transaction", ⟨none, true⟩, []) ∧
    Transaction.close ⟨none, false⟩ ⟨.ok 1, true, true⟩ = (.ok (), ⟨none, true⟩, []) ∧
    TxEffect.release 7 ∈ (Transaction.close ⟨some (.ok 7), false⟩ ⟨.ok 1, true, false⟩).2.2 :=
  ⟨(c10_transaction_close ⟨.ok 1, true, true⟩ ⟨none, true⟩).1 rfl,
   (c10_transaction_close ⟨.ok 1, true, true⟩ ⟨none, false⟩).2.2.1 rfl,
   (c10_transaction_close ⟨.ok 1, true, false⟩ ⟨some (.ok 7), false⟩).2.2.2 7 rfl⟩

/-! Embedding of `src/model.ts` (the `Model` type the current query
builder imports; the variant with `fts` queries read by
`model.tools.ts`) and of `src/model.tools.ts`. -/

mutual

inductive PropType where
  | scalar (name : String)
  | enum (name : String)
  | list (item : PropDef)
  | object (name : String)
  | union (name : String)
  | fk (foreignEntity : String)
  | listRel (entity : String) (field : String)

inductive PropDef where
  | mk (type : PropType) (nullable : Bool)

end

def PropDef.type : PropDef → PropType
  | .mk t _ => t

def PropDef.nullable : PropDef → Bool
  | .mk _ n => n

/-- Source kind tag of a property type (`list-relation` for
`listRel`), used by error messages and kind dispatch. -/
def PropType.kind : PropType → String
  | .scalar _ => "scalar"
  | .enum _ => "enum"
  | .list _ => "list"
  | .object _ => "object"
  | .union _ => "union"
  | .fk _ => "fk"
  | .listRel _ _ => "list-relation"

/-- One source of an FTS query: entity name and its indexed fields. -/
structure FtsSource where
  entity : String
  fields : List String

inductive TypeDef where
  | entity (properties : List (String × PropDef))
  | object (properties : List (String × PropDef))
  | interface (properties : List (String × PropDef))
  | union (variants : List String)
  | enum (values : List String)
  | fts (sources : List FtsSource)

abbrev Model := List (String × TypeDef)

mutual

def PropType.beq : PropType → PropType → Bool
  | .scalar a, .scalar b => a == b
  | .enum a, .enum b => a == b
  | .list a, .list b => PropDef.beq a b
  | .object a, .object b => a == b
  | .union a, .union b => a == b
  | .fk a, .fk b => a == b
  | .listRel a c, .listRel b d => a == b && c == d
  | _, _ => false

def PropDef.beq : PropDef → PropDef → Bool
  | .mk t n, .mk t' n' => PropType.beq t t' && n == n'

end

mutual

theorem propTypeBeq_iff_eq : ∀ a b : PropType, PropType.beq a b = true ↔ a = b
  | .scalar _, .scalar _ => by simp [PropType.beq]
  | .enum _, .enum _ => by simp [PropType.beq]
  | .list a, .list b => by simp [PropType.beq, propDefBeq_iff_eq a b]
  | .object _, .object _ => by simp [PropType.beq]
  | .union _, .union _ => by simp [PropType.beq]
  | .fk _, .fk _ => by simp [PropType.beq]
  | .listRel _ _, .listRel _ _ => by simp [PropType.beq]
  | .scalar _, .enum _ | .scalar _, .list _ | .scalar _, .object _ | .scalar _, .union _
  | .scalar _, .fk _ | .scalar _, .listRel _ _
  | .enum _, .scalar _ | .enum _, .list _ | .enum _, .object _ | .enum _, .union _
  | .enum _, .fk _ | .enum _, .listRel _ _
  | .list _, .scalar _ | .list _, .enum _ | .list _, .object _ | .list _, .union _
  | .list _, .fk _ | .list _, .listRel _ _
  | .object _, .scalar _ | .object _, .enum _ | .object _, .list _ | .object _, .union _
  | .object _, .fk _ | .object _, .listRel _ _
  | .union _, .scalar _ | .union _, .enum _ | .union _, .list _ | .union _, .object _
  | .union _, .fk _ | .union _, .listRel _ _
  | .fk _, .scalar _ | .fk _, .enum _ | .fk _, .list _ | .fk _, .object _ | .fk _, .union _
  | .fk _, .listRel _ _
  | .listRel _ _, .scalar _ | .listRel _ _, .enum _ | .listRel _ _, .list _
  | .listRel _ _, .object _ | .listRel _ _, .union _ | .listRel _ _, .fk _ => by
    simp [PropType.beq]

theorem propDefBeq_iff_eq : ∀ a b : PropDef, PropDef.beq a b = true ↔ a = b
  | .mk t n, .mk t' n' => by simp [PropDef.beq, propTypeBeq_iff_eq t t']

end

instance : DecidableEq PropType := fun a b =>
  decidable_of_iff (PropType.beq a b = true) (propTypeBeq_iff_eq a b)

instance : DecidableEq PropDef := fun a b =>
  decidable_of_iff (PropDef.beq a b = true) (propDefBeq_iff_eq a b)

/-- Embedding of `buildUnionProps` / `getUnionProps`
(src/model.tools.ts; the `WeakMap` memoization has no observable
effect): merge the variant objects' properties with `Object.assign`
semantics, then add the `isTypeOf: String!` discriminator. -/
def getUnionProps (model : Model) (unionName : String) :
    Except String (List (String × PropDef)) :=
  match model.lookup unionName with
  | some (.union variants) =>
    let merged : Except String (List (String × PropDef)) := variants.foldl
      (fun acc objectName =>
        match acc with
        | .error e => .error e
        | .ok props =>
          match model.lookup objectName with
          | some (.object objProps) =>
            .ok (objProps.foldl (fun ps kv => setKey ps kv.1 kv.2) props)
          | _ => .error "AssertionError: object.kind == 'object'")
      (.ok [])
    match merged with
    | .error e => .error e
    | .ok props => .ok (setKey props "isTypeOf" (.mk (.scalar "String") false))
  | _ => .error "AssertionError: union.kind == 'union'"

/-- Embedding of `getEntity` (src/model.tools.ts lines 111-115). -/
def getEntity (model : Model) (name : String) :
    Except String (List (String × PropDef)) :=
  match model.lookup name with
  | some (.entity props) => .ok props
  | _ => .error "AssertionError: entity.kind == 'entity'"

/-- Embedding of `getFtsQuery` (src/model.tools.ts lines 118-122). -/
def getFtsQuery (model : Model) (name : String) : Except String (List FtsSource) :=
  match model.lookup name with
  | some (.fts sources) => .ok sources
  | _ => .error "AssertionError: query.kind == 'fts'"

/-! Embedding of `src/requestedFields.ts`.  The library input
(`graphql-parse-resolve-info`) is modelled by `RTree`: a parsed field
node with its name, coerced list arguments, and per-type-name child
selections; `simplifyResolveTree` projects the child selections of one
type.  The `index` fields are assigned later by the query builder and
are created as `0` here, as in the source. -/

/-- List arguments (`where`, `orderBy`, `limit`, `offset`) of a field;
`whr` embeds the source's `where` member. -/
structure ListArgs where
  offset : Option JsNum := none
  limit : Option JsNum := none
  orderBy : Option (List String) := none
  whr : Option Value := none
deriving DecidableEq, Repr

mutual

inductive RFields where
  | mk (fields : List (String × RField))

inductive RField where
  | mk (propType : PropType) (requests : List FieldRequest)

inductive FieldRequest where
  | mk (als : String) (children : Option RFields) (args : Option ListArgs)
       (ifType : Option String) (index : Nat)

end

def RFields.fields : RFields → List (String × RField)
  | .mk fs => fs

def RField.propType : RField → PropType
  | .mk pt _ => pt

def RField.requests : RField → List FieldRequest
  | .mk _ rs => rs

def FieldRequest.als : FieldRequest → String
  | .mk a _ _ _ _ => a

def FieldRequest.children : FieldRequest → Option RFields
  | .mk _ c _ _ _ => c

def FieldRequest.args : FieldRequest → Option ListArgs
  | .mk _ _ a _ _ => a

def FieldRequest.ifType : FieldRequest → Option String
  | .mk _ _ _ t _ => t

def FieldRequest.index : FieldRequest → Nat
  | .mk _ _ _ _ i => i

/-- Spread copy `{...req, ifType: name}` of a field request. -/
def FieldRequest.setIfType : FieldRequest → Option String → FieldRequest
  | .mk a c g _ i, t => .mk a c g t i

/-- Modelled library input (`graphql-parse-resolve-info`'s
`ResolveTree`): field name, coerced list arguments, and the selected
children keyed by alias, per concrete type name. -/
inductive RTree where
  | mk (name : String) (args : Option ListArgs)
       (fieldsByTypeName : List (String × List (String × RTree)))

def RTree.name : RTree → String
  | .mk n _ _ => n

def RTree.args : RTree → Option ListArgs
  | .mk _ a _ => a

def RTree.fieldsByTypeName : RTree → List (String × List (String × RTree))
  | .mk _ _ f => f

/-- Modelled library function
(`simplifyParsedResolveInfoFragmentWithType(...).fields`): the child
selections of `tree` for the given concrete type. -/
def simplifyResolveTree (tree : RTree) (typeName : String) : List (String × RTree) :=
  (tree.fieldsByTypeName.lookup typeName).getD []

/-- Embedding of `addRequest` (src/requestedFields.ts lines 124-134). -/
def addRequest (requested : List (String × RField)) (name : String) (propType : PropType)
    (req : FieldRequest) : List (String × RField) :=
  match requested.lookup name with
  | none => requested ++ [(name, .mk propType [req])]
  | some fld => setKey requested name (.mk fld.propType (fld.requests ++ [req]))

/-- Embedding of `mergeUnionRequests` (src/requestedFields.ts lines
102-121). -/
def mergeUnionRequests (map : List (String × RFields)) : RFields :=
  .mk (map.foldl
    (fun requested nf =>
      nf.2.fields.foldl
        (fun requested kf =>
          match kf.2.propType with
          | .scalar _ => setKey requested kf.1 kf.2
          | .enum _ => setKey requested kf.1 kf.2
          | _ =>
            kf.2.requests.foldl
              (fun requested req =>
                addRequest requested kf.1 kf.2.propType (req.setIfType (some nf.1)))
              requested)
        requested)
    [])

mutual

/-- Embedding of `collectRequestedFields` (src/requestedFields.ts
lines 39-99).  The fuel decreases on every step; all theorems either
quantify over it or pass a concrete sufficient amount. -/
def collectRequestedFieldsF : Nat → Model → String → RTree → Except String RFields
  | 0, _, _, _ => .error "fuel"
  | fuel + 1, model, objectName, tree =>
    match model.lookup objectName with
    | some (.entity props) =>
      collectFieldsF fuel model objectName props (simplifyResolveTree tree objectName) []
    | some (.object props) =>
      collectFieldsF fuel model objectName props (simplifyResolveTree tree objectName) []
    | _ => .error "AssertionError: object.kind == 'entity' || object.kind == 'object'"

/-- Loop body of `collectRequestedFields` over the simplified fields,
with the `requested` accumulator made explicit. -/
def collectFieldsF : Nat → Model → String → List (String × PropDef) →
    List (String × RTree) → List (String × RField) → Except String RFields
  | 0, _, _, _, _, _ => .error "fuel"
  | _ + 1, _, _, _, [], acc => .ok (.mk acc)
  | fuel + 1, model, objectName, props, (als, f) :: rest, acc =>
    match props.lookup f.name with
    | none => .error "TypeError: cannot read property 'type' of undefined"
    | some prop =>
      match prop.type with
      | .scalar _ =>
        collectFieldsF fuel model objectName props rest
          (setKey acc f.name (.mk prop.type [.mk f.name none none none 0]))
      | .enum _ =>
        collectFieldsF fuel model objectName props rest
          (setKey acc f.name (.mk prop.type [.mk f.name none none none 0]))
      | .object tname =>
        match collectRequestedFieldsF fuel model tname f with
        | .error e => .error e
        | .ok children =>
          collectFieldsF fuel model objectName props rest
            (addRequest acc f.name prop.type (.mk als (some children) none none 0))
      | .fk foreignEntity =>
        match collectRequestedFieldsF fuel model foreignEntity f with
        | .error e => .error e
        | .ok children =>
          collectFieldsF fuel model objectName props rest
            (addRequest acc f.name prop.type (.mk als (some children) none none 0))
      | .listRel entity _ =>
        match collectRequestedFieldsF fuel model entity f with
        | .error e => .error e
        | .ok children =>
          collectFieldsF fuel model objectName props rest
            (addRequest acc f.name prop.type (.mk als (some children) f.args none 0))
      | .union uname =>
        match model.lookup uname with
        | some (.union variants) =>
          match collectVariantsF fuel model f variants with
          | .error e => .error e
          | .ok map =>
            collectFieldsF fuel model objectName props rest
              (addRequest acc f.name prop.type
                (.mk als (some (mergeUnionRequests map)) none none 0))
        | _ => .error "AssertionError: union.kind == 'union'"
      | .list _ =>
        .error ("Requested field " ++ objectName ++ "." ++ f.name ++ " of unsupported type")

/-- Per-variant collection for a union-typed field. -/
def collectVariantsF : Nat → Model → RTree → List String →
    Except String (List (String × RFields))
  | 0, _, _, _ => .error "fuel"
  | _ + 1, _, _, [] => .ok []
  | fuel + 1, model, f, v :: vs =>
    match collectRequestedFieldsF fuel model v f with
    | .error e => .error e
    | .ok flds =>
      match collectVariantsF fuel model f vs with
      | .error e => .error e
      | .ok rest => .ok ((v, flds) :: rest)

end

/-! Analysis of the requested-field collection: which requests (and
hence which aliases) end up under one property key. -/

/-- Kind test used to state the scalar/enum special case. -/
def PropType.isScalarEnum : PropType → Bool
  | .scalar _ => true
  | .enum _ => true
  | _ => false

/-- Aliases of the requests recorded under `name`. -/
def aliasesAt (fs : List (String × RField)) (name : String) : Option (List String) :=
  (fs.lookup name).map (fun fld => fld.requests.map FieldRequest.als)

/-- Aliases (tree keys) of the selection entries whose field name is
`pname`, in selection order. -/
def entriesNamed (entries : List (String × RTree)) (pname : String) : List String :=
  (entries.filter (fun e => e.2.name == pname)).map Prod.fst

theorem lookup_append {α : Type} (l₁ l₂ : List (String × α)) (k : String) :
    (l₁ ++ l₂).lookup k =
      match l₁.lookup k with
      | some v => some v
      | none => l₂.lookup k := by
  induction l₁ with
  | nil => simp [List.lookup]
  | cons p rest ih =>
    obtain ⟨k₀, v₀⟩ := p
    by_cases h : k = k₀
    · subst h; simp [List.lookup]
    · simp [List.lookup, beq_eq_false_iff_ne.mpr h, ih]

theorem aliasesAt_setKey_self (acc : List (String × RField)) (name : String) (fld : RField) :
    aliasesAt (setKey acc name fld) name = some (fld.requests.map FieldRequest.als) := by
  simp [aliasesAt, lookup_setKey]

theorem aliasesAt_setKey_ne (acc : List (String × RField)) (name : String) (fld : RField)
    (k : String) (h : k ≠ name) : aliasesAt (setKey acc name fld) k = aliasesAt acc k := by
  simp [aliasesAt, lookup_setKey, h]

theorem aliasesAt_addRequest_self (acc : List (String × RField)) (name : String)
    (pt : PropType) (req : FieldRequest) :
    aliasesAt (addRequest acc name pt req) name =
      some ((aliasesAt acc name).getD [] ++ [req.als]) := by
  unfold addRequest
  cases h : acc.lookup name with
  | none => simp [aliasesAt, lookup_append, h, List.lookup, RField.requests]
  | some fld => simp [aliasesAt, lookup_setKey, h, RField.requests]

theorem aliasesAt_addRequest_ne (acc : List (String × RField)) (name : String)
    (pt : PropType) (req : FieldRequest) (k : String) (h : k ≠ name) :
    aliasesAt (addRequest acc name pt req) k = aliasesAt acc k := by
  unfold addRequest
  cases hl : acc.lookup name with
  | none =>
    simp only [aliasesAt, lookup_append]
    cases hk : acc.lookup k <;>
      simp [List.lookup, beq_eq_false_iff_ne.mpr h]
  | some fld => simp [aliasesAt, lookup_setKey, h]

theorem entriesNamed_cons_self (als : String) (f : RTree) (rest : List (String × RTree))
    (pname : String) (h : f.name = pname) :
    entriesNamed ((als, f) :: rest) pname = als :: entriesNamed rest pname := by
  simp [entriesNamed, h]

theorem entriesNamed_cons_ne (als : String) (f : RTree) (rest : List (String × RTree))
    (pname : String) (h : ¬ f.name = pname) :
    entriesNamed ((als, f) :: rest) pname = entriesNamed rest pname := by
  simp [entriesNamed, beq_eq_false_iff_ne.mpr h]

theorem collectFieldsF_aliases :
    ∀ (fuel : Nat) (model : Model) (objectName : String)
      (props : List (String × PropDef)) (entries : List (String × RTree))
      (acc : List (String × RField)) (r : RFields) (pname : String) (prop : PropDef),
      collectFieldsF fuel model objectName props entries acc = .ok r →
      props.lookup pname = some prop →
      (prop.type.isScalarEnum = true →
        aliasesAt r.fields pname =
          if entriesNamed entries pname = [] then aliasesAt acc pname else some [pname]) ∧
      (prop.type.isScalarEnum = false →
        aliasesAt r.fields pname =
          if aliasesAt acc pname = none ∧ entriesNamed entries pname = [] then none
          else some ((aliasesAt acc pname).getD [] ++ entriesNamed entries pname)) := by
  intro fuel
  induction fuel with
  | zero =>
    intro _ _ _ _ _ _ _ _ hok _
    simp [collectFieldsF] at hok
  | succ fuel ih =>
    intro model objectName props entries acc r pname prop hok hprop
    cases entries with
    | nil =>
      simp only [collectFieldsF] at hok
      injection hok with hok
      subst hok
      constructor
      · intro _
        simp [entriesNamed, RFields.fields]
      · intro _
        simp only [entriesNamed, List.filter_nil, List.map_nil, and_true, RFields.fields]
        cases haa : aliasesAt acc pname <;> simp [haa]
    | cons e rest =>
      obtain ⟨als, f⟩ := e
      cases hl : props.lookup f.name with
      | none =>
        simp only [collectFieldsF, hl] at hok
        exact absurd hok (by simp)
      | some fprop =>
        obtain ⟨ft, fnull⟩ := fprop
        -- continuation step shared by every successful branch
        have step : ∀ (acc' : List (String × RField)),
            collectFieldsF fuel model objectName props rest acc' = .ok r →
            (f.name = pname →
              ((prop.type.isScalarEnum = true → aliasesAt acc' pname = some [pname]) ∧
               (prop.type.isScalarEnum = false →
                 aliasesAt acc' pname = some ((aliasesAt acc pname).getD [] ++ [als]))) →
              (prop.type.isScalarEnum = true →
                aliasesAt r.fields pname =
                  if entriesNamed ((als, f) :: rest) pname = [] then aliasesAt acc pname
                  else some [pname]) ∧
              (prop.type.isScalarEnum = false →
                aliasesAt r.fields pname =
                  if aliasesAt acc pname = none ∧ entriesNamed ((als, f) :: rest) pname = []
                  then none
                  else some ((aliasesAt acc pname).getD [] ++
                    entriesNamed ((als, f) :: rest) pname))) := by
          intro acc' hok' hn hacc'
          obtain ⟨hs, hns⟩ := ih model objectName props rest acc' r pname prop hok' hprop
          rw [entriesNamed_cons_self als f rest pname hn]
          constructor
          · intro hsc
            rw [hs hsc, hacc'.1 hsc]
            simp
          · intro hsc
            rw [hns hsc, hacc'.2 hsc]
            simp [List.append_assoc]
        have stepNe : ∀ (acc' : List (String × RField)),
            collectFieldsF fuel model objectName props rest acc' = .ok r →
            ¬ f.name = pname →
            aliasesAt acc' pname = aliasesAt acc pname →
            (prop.type.isScalarEnum = true →
              aliasesAt r.fields pname =
                if entriesNamed ((als, f) :: rest) pname = [] then aliasesAt acc pname
                else some [pname]) ∧
            (prop.type.isScalarEnum = false →
              aliasesAt r.fields pname =
                if aliasesAt acc pname = none ∧ entriesNamed ((als, f) :: rest) pname = []
                then none
                else some ((aliasesAt acc pname).getD [] ++
                  entriesNamed ((als, f) :: rest) pname)) := by
          intro acc' hok' hn hacc'
          obtain ⟨hs, hns⟩ := ih model objectName props rest acc' r pname prop hok' hprop
          rw [entriesNamed_cons_ne als f rest pname hn]
          rw [hacc'] at hs hns
          exact ⟨hs, hns⟩
        have hpropEq : f.name = pname → prop = ⟨ft, fnull⟩ := by
          intro hn
          rw [hn] at hl
          rw [hl] at hprop
          injection hprop with h
          exact h.symm
        cases ft with
        | scalar s =>
          simp only [collectFieldsF, hl, PropDef.type] at hok
          by_cases hn : f.name = pname
          · refine step _ hok hn ?_
            constructor
            · intro _
              rw [hn, aliasesAt_setKey_self]
              simp [RField.requests, FieldRequest.als]
            · intro hsc
              exact absurd hsc (by simp [hpropEq hn, PropDef.type, PropType.isScalarEnum])
          · exact stepNe _ hok hn (aliasesAt_setKey_ne _ _ _ _ (Ne.symm hn))
        | enum s =>
          simp only [collectFieldsF, hl, PropDef.type] at hok
          by_cases hn : f.name = pname
          · refine step _ hok hn ?_
            constructor
            · intro _
              rw [hn, aliasesAt_setKey_self]
              simp [RField.requests, FieldRequest.als]
            · intro hsc
              exact absurd hsc (by simp [hpropEq hn, PropDef.type, PropType.isScalarEnum])
          · exact stepNe _ hok hn (aliasesAt_setKey_ne _ _ _ _ (Ne.symm hn))
        | object tname =>
          simp only [collectFieldsF, hl, PropDef.type] at hok
          cases hc : collectRequestedFieldsF fuel model tname f with
          | error e => rw [hc] at hok; simp at hok
          | ok children =>
            rw [hc] at hok
            by_cases hn : f.name = pname
            · refine step _ hok hn ?_
              constructor
              · intro hsc
                exact absurd hsc (by simp [hpropEq hn, PropDef.type, PropType.isScalarEnum])
              · intro _
                rw [hn, aliasesAt_addRequest_self]
                simp [FieldRequest.als]
            · exact stepNe _ hok hn (aliasesAt_addRequest_ne _ _ _ _ _ (Ne.symm hn))
        | fk foreignEntity =>
          simp only [collectFieldsF, hl, PropDef.type] at hok
          cases hc : collectRequestedFieldsF fuel model foreignEntity f with
          | error e => rw [hc] at hok; simp at hok
          | ok children =>
            rw [hc] at hok
            by_cases hn : f.name = pname
            · refine step _ hok hn ?_
              constructor
              · intro hsc
                exact absurd hsc (by simp [hpropEq hn, PropDef.type, PropType.isScalarEnum])
              · intro _
                rw [hn, aliasesAt_addRequest_self]
                simp [FieldRequest.als]
            · exact stepNe _ hok hn (aliasesAt_addRequest_ne _ _ _ _ _ (Ne.symm hn))
        | listRel entity fld =>
          simp only [collectFieldsF, hl, PropDef.type] at hok
          cases hc : collectRequestedFieldsF fuel model entity f with
          | error e => rw [hc] at hok; simp at hok
          | ok children =>
            rw [hc] at hok
            by_cases hn : f.name = pname
            · refine step _ hok hn ?_
              constructor
              · intro hsc
                exact absurd hsc (by simp [hpropEq hn, PropDef.type, PropType.isScalarEnum])
              · intro _
                rw [hn, aliasesAt_addRequest_self]
                simp [FieldRequest.als]
            · exact stepNe _ hok hn (aliasesAt_addRequest_ne _ _ _ _ _ (Ne.symm hn))
        | union uname =>
          cases hu : model.lookup uname with
          | none =>
            simp only [collectFieldsF, hl, PropDef.type, hu] at hok
            exact absurd hok (by simp)
          | some td =>
            cases td with
            | union variants =>
              cases hc : collectVariantsF fuel model f variants with
              | error e =>
                simp only [collectFieldsF, hl, PropDef.type, hu, hc] at hok
                exact absurd hok (by simp)
              | ok map =>
                simp only [collectFieldsF, hl, PropDef.type, hu, hc] at hok
                by_cases hn : f.name = pname
                · refine step _ hok hn ?_
                  constructor
                  · intro hsc
                    exact absurd hsc (by simp [hpropEq hn, PropDef.type, PropType.isScalarEnum])
                  · intro _
                    rw [hn, aliasesAt_addRequest_self]
                    simp [FieldRequest.als]
                · exact stepNe _ hok hn (aliasesAt_addRequest_ne _ _ _ _ _ (Ne.symm hn))
            | entity ps =>
              simp only [collectFieldsF, hl, PropDef.type, hu] at hok
              exact absurd hok (by simp)
            | object ps =>
              simp only [collectFieldsF, hl, PropDef.type, hu] at hok
              exact absurd hok (by simp)
            | interface ps =>
              simp only [collectFieldsF, hl, PropDef.type, hu] at hok
              exact absurd hok (by simp)
            | enum vs =>
              simp only [collectFieldsF, hl, PropDef.type, hu] at hok
              exact absurd hok (by simp)
            | fts srcs =>
              simp only [collectFieldsF, hl, PropDef.type, hu] at hok
              exact absurd hok (by simp)
        | list item =>
          simp only [collectFieldsF, hl, PropDef.type] at hok
          exact absurd hok (by simp)

/-- C8 (amended): in the requested-field tree built by
`collectRequestedFields`, a property of object / fk / list-relation /
union kind selected under several aliases gets one request per alias
(in selection order), while a property of scalar or enum kind always
gets exactly one request whose alias is the property name itself,
regardless of how many aliases select it. -/
theorem c8_requests_per_alias (fuel : Nat) (model : Model) (objectName : String)
    (tree : RTree) (r : RFields) (pname : String) (prop : PropDef)
    (props : List (String × PropDef))
    (hobj : model.lookup objectName = some (.entity props) ∨
            model.lookup objectName = some (.object props))
    (hok : collectRequestedFieldsF fuel model objectName tree = .ok r)
    (hprop : props.lookup pname = some prop) :
    (prop.type.isScalarEnum = true →
      aliasesAt r.fields pname =
        if entriesNamed (simplifyResolveTree tree objectName) pname = [] then none
        else some [pname]) ∧
    (prop.type.isScalarEnum = false →
      aliasesAt r.fields pname =
        if entriesNamed (simplifyResolveTree tree objectName) pname = [] then none
        else some (entriesNamed (simplifyResolveTree tree objectName) pname)) := by
  cases fuel with
  | zero => simp [collectRequestedFieldsF] at hok
  | succ fuel =>
    have hok' : collectFieldsF fuel model objectName props
        (simplifyResolveTree tree objectName) [] = .ok r := by
      rcases hobj with h | h <;> simp only [collectRequestedFieldsF, h] at hok <;> exact hok
    obtain ⟨hs, hns⟩ :=
      collectFieldsF_aliases fuel model objectName props _ [] r pname prop hok' hprop
    have hempty : aliasesAt ([] : List (String × RField)) pname = none := rfl
    constructor
    · intro h
      rw [hs h, hempty]
    · intro h
      rw [hns h, hempty]
      by_cases he : entriesNamed (simplifyResolveTree tree objectName) pname = [] <;>
        simp [he]

def c8Model : Model :=
  [("Account", .entity
    [("id", .mk (.scalar "ID") false),
     ("x", .mk (.scalar "Int") false),
     ("friend", .mk (.fk "Account") true)])]

def c8Tree : RTree :=
  .mk "accounts" none
    [("Account",
      [("a1", .mk "friend" none [("Account", [("i1", .mk "id" none [])])]),
       ("a2", .mk "friend" none [("Account", [("i1", .mk "id" none [])])]),
       ("b1", .mk "x" none []),
       ("b2", .mk "x" none [])])]

def c8Result : RFields :=
  match collectRequestedFieldsF 9 c8Model "Account" c8Tree with
  | .ok r => r
  | .error _ => .mk []

/-- C8 (counterexample): selecting the scalar property `x` of `Account`
under the two aliases `b1` and `b2` yields a single request whose alias
is the property name `x`, not two requests carrying `b1` and `b2` as the
claim states. -/
theorem c8_counterexample :
    collectRequestedFieldsF 9 c8Model "Account" c8Tree = .ok c8Result ∧
    aliasesAt c8Result.fields "x" = some ["x"] ∧
    aliasesAt c8Result.fields "x" ≠ some ["b1", "b2"] :=
  ⟨rfl, by decide, by decide⟩

/-- C8 witness: on the concrete selection, the fk property `friend`
selected under aliases `a1`,`a2` gets two requests with those aliases,
while the scalar `x` selected under `b1`,`b2` gets the single request
aliased `x`. -/
theorem c8_witness :
    aliasesAt c8Result.fields "friend" = some ["a1", "a2"] ∧
    aliasesAt c8Result.fields "x" = some ["x"] := by
  constructor
  · have h := c8_requests_per_alias 9 c8Model "Account" c8Tree c8Result "friend"
      (.mk (.fk "Account") true)
      [("id", .mk (.scalar "ID") false),
       ("x", .mk (.scalar "Int") false),
       ("friend", .mk (.fk "Account") true)]
      (Or.inl rfl) rfl rfl
    rw [h.2 rfl]
    decide
  · have h := c8_requests_per_alias 9 c8Model "Account" c8Tree c8Result "x"
      (.mk (.scalar "Int") false)
      [("id", .mk (.scalar "ID") false),
       ("x", .mk (.scalar "Int") false),
       ("friend", .mk (.fk "Account") true)]
      (Or.inl rfl) rfl rfl
    rw [h.1 rfl]
    decide

/-! Embedding of `resolveEntityConnection` (unnamed/part_006 lines
116-183).  Database execution is an oracle: `dbNodes` is what
`executeSelect` returns, `dbListCount` / `dbSelectCount` what the count
queries return; issued statements are traced as `ConnStmt`s carrying
the limit actually passed.  `decodeConnectionArgs` lives in the
relayConnection module of that source generation, which is not in the
tree; its result `{offset, limit}` (offset from the `after` cursor,
limit = `first`) is factored out as the two inputs. -/

/-- Modelled from the spec: the numeric pagination-cursor encoder of
the missing relayConnection module (spec 6.3: cursors are base64
text); its content is irrelevant to the claims and is modelled by the
decimal rendering of the position. -/
def encodeCursorNum (n : Nat) : String := natToDec n

/-- Statements `resolveEntityConnection` issues, with the `limit` each
list statement carries. -/
inductive ConnStmt where
  | selectStmt (limit : Nat)
  | listCountStmt (limit : Nat)
  | selectCountStmt
deriving DecidableEq, Repr

structure ConnEdgeFields where
  node : Bool
  cursor : Bool
deriving DecidableEq, Repr

structure ConnFields where
  totalCount : Bool
  pageInfo : Bool
  edges : Option ConnEdgeFields
deriving DecidableEq, Repr

structure PageInfoR where
  hasNextPage : Bool
  hasPreviousPage : Bool
  startCursor : String
  endCursor : String
deriving DecidableEq, Repr

structure ConnEdge where
  node : Option Value
  cursor : Option String
deriving DecidableEq, Repr

structure ConnResponse where
  edges : Option (List ConnEdge)
  pageInfo : Option PageInfoR
  totalCount : Option Nat
deriving DecidableEq, Repr

/-- Final `totalCount` fallback of `resolveEntityConnection` (lines
178-180): issue `executeSelectCount` when `totalCount` was requested
and not already filled. -/
def connFinish (fields : ConnFields) (dbSelectCount : Nat)
    (resp : ConnResponse) (effs : List ConnStmt) : ConnResponse × List ConnStmt :=
  if fields.totalCount ∧ resp.totalCount = none then
    ({ resp with totalCount := some dbSelectCount }, effs ++ [.selectCountStmt])
  else (resp, effs)

/-- Embedding of `resolveEntityConnection`. -/
def resolveEntityConnection (orderBy : Option (List String)) (offset limit : Nat)
    (fields : ConnFields) (dbNodes : List Value) (dbListCount dbSelectCount : Nat) :
    Except String (ConnResponse × List ConnStmt) :=
  match orderBy with
  | none => .error "orderBy argument is required for connection"
  | some ob =>
    if ob.length = 0 then .error "orderBy argument is required for connection"
    else
      let pageInfo := fun (listLength : Nat) => PageInfoR.mk
        (decide (listLength > limit))
        (decide (listLength > 0) && decide (offset > 0))
        (if listLength > 0 then encodeCursorNum (offset + 1) else "")
        (if listLength > 0 then encodeCursorNum (offset + min limit listLength) else "")
      let node? := match fields.edges with | some ef => ef.node | none => false
      let cursor? := match fields.edges with | some ef => ef.cursor | none => false
      if node? then
        let nodes := dbNodes
        let edges := (List.range (min limit nodes.length)).map (fun i =>
          ConnEdge.mk (some ((nodes.get? i).getD .vnull))
            (some (encodeCursorNum (offset + i + 1))))
        let resp : ConnResponse :=
          { edges := some edges
            pageInfo := some (pageInfo nodes.length)
            totalCount :=
              if 0 < nodes.length ∧ nodes.length ≤ limit
              then some (offset + nodes.length) else none }
        .ok (connFinish fields dbSelectCount resp [.selectStmt (limit + 1)])
      else if cursor? || fields.pageInfo then
        let listLength := dbListCount
        let resp : ConnResponse :=
          { edges :=
              if cursor? then
                some ((List.range (min limit listLength)).map (fun i =>
                  ConnEdge.mk none (some (encodeCursorNum (offset + i + 1)))))
              else none
            pageInfo := some (pageInfo listLength)
            totalCount :=
              if 0 < listLength ∧ listLength ≤ limit
              then some (offset + listLength) else none }
        .ok (connFinish fields dbSelectCount resp [.listCountStmt (limit + 1)])
      else
        .ok (connFinish fields dbSelectCount ⟨none, none, none⟩ [])

/-- C5 (counterexample): a connection asking for `totalCount` and
`edges.node` over an empty result (`r = 0 ≤ first`, offset 5): the
resolver issues `executeSelectCount` and answers its result 2, not
`offset + r = 5` with no count statement as the claim states. -/
theorem c5_counterexample :
    resolveEntityConnection (some ["id_ASC"]) 5 10
      ⟨true, false, some ⟨true, false⟩⟩ [] 0 2 =
    .ok (⟨some [], some ⟨false, false, "", ""⟩, some 2⟩,
      [.selectStmt 11, .selectCountStmt]) := by
  decide

/-- Projection helpers over a traced connection run. -/
def connTotalCount : Except String (ConnResponse × List ConnStmt) → Option Nat
  | .ok (resp, _) => resp.totalCount
  | .error _ => none

def connStmts : Except String (ConnResponse × List ConnStmt) → List ConnStmt
  | .ok (_, effs) => effs
  | .error _ => []

/-- C5 (amended): for a connection that asks for `totalCount` and
`edges.node`, run with `limit = first + 1` (visible on the traced
select statement): if the list returns `r` rows with `1 <= r <= first`
then `totalCount = offset + r` and no count statement is issued;
otherwise (`r = 0` or `r = first + 1`) `totalCount` is the result of
`executeSelectCount`. -/
theorem c5_totalCount (ob : List String) (hob : ob ≠ []) (offset limit : Nat)
    (fields : ConnFields) (ef : ConnEdgeFields)
    (dbNodes : List Value) (dbListCount dbSelectCount : Nat)
    (hedges : fields.edges = some ef) (hnode : ef.node = true)
    (htc : fields.totalCount = true) :
    (connStmts (resolveEntityConnection (some ob) offset limit fields dbNodes
        dbListCount dbSelectCount)).head? = some (.selectStmt (limit + 1)) ∧
    (if 0 < dbNodes.length ∧ dbNodes.length ≤ limit
     then connTotalCount (resolveEntityConnection (some ob) offset limit fields dbNodes
            dbListCount dbSelectCount) = some (offset + dbNodes.length) ∧
          ConnStmt.selectCountStmt ∉ connStmts (resolveEntityConnection (some ob) offset
            limit fields dbNodes dbListCount dbSelectCount)
     else connTotalCount (resolveEntityConnection (some ob) offset limit fields dbNodes
            dbListCount dbSelectCount) = some dbSelectCount ∧
          ConnStmt.selectCountStmt ∈ connStmts (resolveEntityConnection (some ob) offset
            limit fields dbNodes dbListCount dbSelectCount)) := by
  have hlen : ¬ ob.length = 0 := fun h => hob (List.length_eq_zero.mp h)
  by_cases hr : 0 < dbNodes.length ∧ dbNodes.length ≤ limit <;>
    simp [resolveEntityConnection, hlen, hedges, hnode, connFinish, htc, hr,
      connTotalCount, connStmts]

/-- C5 witness: two rows returned with first = 10, offset = 5 — the
total count is 7 and no count statement is issued. -/
theorem c5_witness :
    (connStmts (resolveEntityConnection (some ["id_ASC"]) 5 10
        ⟨true, false, some ⟨true, false⟩⟩ [.vnull, .vnull] 0 99)).head? =
      some (.selectStmt 11) ∧
    (if 0 < ([Value.vnull, Value.vnull] : List Value).length ∧
        ([Value.vnull, Value.vnull] : List Value).length ≤ 10
     then connTotalCount (resolveEntityConnection (some ["id_ASC"]) 5 10
            ⟨true, false, some ⟨true, false⟩⟩ [.vnull, .vnull] 0 99) = some (5 + 2) ∧
          ConnStmt.selectCountStmt ∉ connStmts (resolveEntityConnection (some ["id_ASC"])
            5 10 ⟨true, false, some ⟨true, false⟩⟩ [.vnull, .vnull] 0 99)
     else connTotalCount (resolveEntityConnection (some ["id_ASC"]) 5 10
            ⟨true, false, some ⟨true, false⟩⟩ [.vnull, .vnull] 0 99) = some 99 ∧
          ConnStmt.selectCountStmt ∈ connStmts (resolveEntityConnection (some ["id_ASC"])
            5 10 ⟨true, false, some ⟨true, false⟩⟩ [.vnull, .vnull] 0 99)) :=
  c5_totalCount ["id_ASC"] (by decide) 5 10 ⟨true, false, some ⟨true, false⟩⟩
    ⟨true, false⟩ [.vnull, .vnull] 0 99 rfl rfl rfl

/-! Embedding of `src/queryBuilder.ts` (current version).  The
where-op module generation it imports (`parseWhereField` returning
OpenCRUD op names, `whereOpToSqlOperator`, `WhereOp`) and the
`orderBy` module are not in the tree — only this caller is — so they
are modelled from the spec below. -/

/-- Modelled from the spec (4.3): the where-suffix table of the
current where module, ordered longest suffix first; a plain `not`
suffix means `not_eq`; each pair is (suffix, op). -/
def qbEndings : List (String × String) :=
  [("not_startsWith", "not_startsWith"), ("not_contains", "not_contains"),
   ("not_endsWith", "not_endsWith"), ("startsWith", "startsWith"),
   ("contains", "contains"), ("endsWith", "endsWith"),
   ("not_eq", "not_eq"), ("not_in", "not_in"), ("every", "every"),
   ("some", "some"), ("none", "none"),
   ("gte", "gte"), ("lte", "lte"), ("not", "not_eq"),
   ("eq", "eq"), ("in", "in"), ("gt", "gt"), ("lt", "lt")]

/-- Modelled from the spec (4.3): `parseWhereField` of the current
where module: longest known suffix first; a key with no suffix is the
bare condition, marked `-` (the no-operator marker the query builder
asserts on for object/union/fk conditions). -/
def parseWhereFieldQB (field : String) : WhereField :=
  match (qbEndings.filter (fun e => ("_" ++ e.1).data.isSuffixOf field.data)).head? with
  | none => ⟨"-", field⟩
  | some (sfx, op) =>
    ⟨op, String.mk (field.data.take (field.data.length - (sfx.length + 1)))⟩

/-- Modelled from the spec (4.4.4): `whereOpToSqlOperator` for the
comparison ops that map directly to SQL. -/
def whereOpToSqlOperator : String → Except String String
  | "-" => .ok "="
  | "eq" => .ok "="
  | "not_eq" => .ok "!="
  | "gt" => .ok ">"
  | "gte" => .ok ">="
  | "lt" => .ok "<"
  | "lte" => .ok "<="
  | "in" => .ok "IN"
  | "not_in" => .ok "NOT IN"
  | op => .error ("Unsupported where operator: " ++ op)

/-- Parsed order-by tree: a direction string at a scalar/enum leaf, a
nested tree through object/union/fk. -/
inductive OrderBySpec where
  | dir (s : String)
  | sub (fields : List (String × OrderBySpec))

abbrev OrderBy := List (String × OrderBySpec)

def OrderBySpec.subFields : OrderBySpec → List (String × OrderBySpec)
  | .dir _ => []
  | .sub fs => fs

/-- Modelled from the spec (4.3 Order-by): validation walk of one
order-by path against the model — each component must be a property,
the walk descends through object/union/fk, and the terminal step must
be scalar or enum. -/
def orderByValidate (model : Model) : Nat → List (String × PropDef) → List String →
    Except String Unit
  | _, _, [] => .error "invalid orderBy value"
  | 0, _, _ => .error "fuel"
  | fuel + 1, props, c :: rest =>
    match props.lookup c with
    | none => .error ("Invalid orderBy property: " ++ c)
    | some prop =>
      match prop.type with
      | .scalar _ => if rest.isEmpty then .ok () else .error ("invalid orderBy path at " ++ c)
      | .enum _ => if rest.isEmpty then .ok () else .error ("invalid orderBy path at " ++ c)
      | .object name =>
        match model.lookup name with
        | some (.object ps) => orderByValidate model fuel ps rest
        | _ => .error ("invalid orderBy path at " ++ c)
      | .union name =>
        match getUnionProps model name with
        | .ok ps => orderByValidate model fuel ps rest
        | .error e => .error e
      | .fk foreignEntity =>
        match model.lookup foreignEntity with
        | some (.entity ps) => orderByValidate model fuel ps rest
        | _ => .error ("invalid orderBy path at " ++ c)
      | _ => .error ("invalid orderBy path at " ++ c)

/-- Merge one validated path into the order-by tree. -/
def orderByMerge : Nat → OrderBy → List String → String → OrderBy
  | 0, t, _, _ => t
  | _, t, [], _ => t
  | _ + 1, t, [c], d => setKey t c (.dir d)
  | fuel + 1, t, c :: rest, d =>
    match t.lookup c with
    | some (.sub sub) => setKey t c (.sub (orderByMerge fuel sub rest d))
    | _ => setKey t c (.sub (orderByMerge fuel [] rest d))

/-- Split an order-by path on underscores. -/
def splitPath (s : String) : List String :=
  (s.data.foldr
    (fun c acc =>
      match acc with
      | cur :: done => if c = '_' then [] :: cur :: done else (c :: cur) :: done
      | [] => [[c]])
    [[]]).map String.mk

/-- Modelled from the spec (4.3 Order-by): `parseOrderBy` — each value
is `<field>[_<field>...]_ASC|_DESC`; the path walks property chains
(property names carry no underscores, per the model validator's
PROP_NAME_REGEX); invalid paths are rejected with a user error. -/
def parseOrderBy (model : Model) (entityName : String) (values : List String) :
    Except String OrderBy :=
  match model.lookup entityName with
  | some (.entity props) =>
    values.foldl
      (fun acc v =>
        match acc with
        | .error e => .error e
        | .ok t =>
          let (path, d) :=
            if v.data.length ≥ 4 ∧ ("_ASC").data.isSuffixOf v.data then
              (String.mk (v.data.take (v.data.length - 4)), "ASC")
            else if v.data.length ≥ 5 ∧ ("_DESC").data.isSuffixOf v.data then
              (String.mk (v.data.take (v.data.length - 5)), "DESC")
            else ("", "")
          if d = "" then .error ("Invalid orderBy value: " ++ v)
          else
            let comps := splitPath path
            match orderByValidate model (comps.length + 1) props comps with
            | .error e => .error e
            | .ok _ => .ok (orderByMerge (comps.length + 1) t comps d))
      (.ok [])
  | _ => .error "AssertionError: entity.kind == 'entity'"

/-! Builder state and SQL-space helpers. -/

/-- Mutable state of one `QueryBuilder`: the bound-parameter vector
and the alias allocator. -/
structure QState where
  params : List Value
  aliases : List (String × Nat)
deriving DecidableEq, Repr

/-- Embedding of `QueryBuilder.param` (lines 38-40): push the value,
return the positional placeholder `$<new length>`. -/
def param (v : Value) (st : QState) : String × QState :=
  ("$" ++ natToDec (st.params.length + 1), { st with params := st.params ++ [v] })

/-- One entry of the `FkJoinSet`. -/
structure FkJoin where
  table : String
  als : String
  onExp : String
deriving DecidableEq, Repr

abbrev JoinSt := List FkJoin

/-- Embedding of `FkJoinSet.add`: the map key is
`table + '  ' + on`; a fresh alias is allocated on first sight. -/
def joinAdd (join : JoinSt) (aliases : List (String × Nat)) (table onE : String) :
    String × JoinSt × List (String × Nat) :=
  match join.find? (fun j => (j.table ++ "  " ++ j.onExp) == (table ++ "  " ++ onE)) with
  | some j => (j.als, join, aliases)
  | none =>
    let (a, aliases') := aliasAdd aliases table
    (a, join ++ [⟨table, a, onE⟩], aliases')

/-- Embedding of `FkJoinSet.render`. -/
def joinRender (join : JoinSt) : String :=
  join.foldl
    (fun out j => out ++ "\nLEFT OUTER JOIN " ++ quoteIdent j.table ++ " " ++
      quoteIdent j.als ++ " ON " ++ quoteIdent j.als ++ ".\"id\" = " ++ j.onExp)
    ""

/-- Embedding of `ColumnSet.add`: position of the column expression,
appending it when new. -/
def columnsAdd (cols : List String) (col : String) : Nat × List String :=
  match cols.indexOf? col with
  | some i => (i, cols)
  | none => (cols.length, cols ++ [col])

/-- Embedding of `ColumnSet.render`. -/
def columnsRender (cols : List String) : String := String.intercalate ", " cols

/-- Embedding of the `SelectVariant` union (fts / list-subquery). -/
inductive SelectVariant where
  | fts (queryName : String) (textParam : String)
  | listSubquery (field : String) (parent : String)
deriving DecidableEq, Repr

/-- Object a cursor stands on: an entity (`isEntity = true`, rooted at
a table alias) or an embedded JsonObject (rooted at a JSON prefix). -/
structure CursorObj where
  isEntity : Bool
  properties : List (String × PropDef)

/-- Embedding of the SQL-space `Cursor` (src/queryBuilder.ts lines
549-662); the shared services (model, alias set, join set) are passed
to the operations that use them. -/
structure Cursor where
  object : CursorObj
  als : String
  pfx : String

/-- Embedding of `Cursor.column` (asserts the entity case). -/
def Cursor.column (cu : Cursor) (name : String) : Except String String :=
  if cu.object.isEntity then
    .ok (quoteIdent cu.als ++ "." ++ quoteIdent (toColumn name))
  else .error "AssertionError: this.object.kind == 'entity'"

/-- Embedding of `Cursor.field`. -/
def Cursor.fieldExp (cu : Cursor) (name : String) : Except String String :=
  if cu.object.isEntity then cu.column name
  else .ok (cu.pfx ++ "->'" ++ name ++ "'")

/-- Embedding of `Cursor.transport`. -/
def Cursor.transport (cu : Cursor) (propName : String) : Except String String :=
  match cu.object.properties.lookup propName with
  | none => .error "TypeError: cannot read property 'type' of undefined"
  | some prop =>
    match prop.type with
    | .scalar n =>
      if cu.object.isEntity then
        match cu.column propName with
        | .ok c => .ok (toTransportCast n c)
        | .error e => .error e
      else .ok (fromJsonToTransportCast n cu.pfx propName)
    | .enum n =>
      if cu.object.isEntity then
        match cu.column propName with
        | .ok c => .ok (toTransportCast n c)
        | .error e => .error e
      else .ok (fromJsonToTransportCast n cu.pfx propName)
    | .list item =>
      match item.type with
      | .scalar n =>
        if cu.object.isEntity then
          match cu.column propName with
          | .ok c => .ok (toTransportArrayCast n c)
          | .error e => .error e
        else cu.fieldExp propName
      | .enum n =>
        if cu.object.isEntity then
          match cu.column propName with
          | .ok c => .ok (toTransportArrayCast n c)
          | .error e => .error e
        else cu.fieldExp propName
      | _ => cu.fieldExp propName
    | t => .error ("Unsupported case: " ++ t.kind)

/-- Embedding of `Cursor.native`. -/
def Cursor.native (cu : Cursor) (propName : String) : Except String String :=
  match cu.object.properties.lookup propName with
  | none => .error "TypeError: cannot read property 'type' of undefined"
  | some prop =>
    match prop.type with
    | .scalar n =>
      if cu.object.isEntity then cu.column propName
      else .ok (fromJsonCast n cu.pfx propName)
    | .enum n =>
      if cu.object.isEntity then cu.column propName
      else .ok (fromJsonCast n cu.pfx propName)
    | _ => .error "AssertionError: scalar or enum property expected"

/-- Embedding of `Cursor.fk`. -/
def Cursor.fk (cu : Cursor) (propName : String) : String :=
  if cu.object.isEntity then
    quoteIdent cu.als ++ "." ++ quoteIdent (toFkColumn propName)
  else fromJsonCast "ID" cu.pfx propName

/-- Embedding of `Cursor.tsv`. -/
def Cursor.tsv (cu : Cursor) (queryName : String) : Except String String :=
  if cu.object.isEntity then
    .ok (quoteIdent cu.als ++ "." ++ quoteIdent (snakeCase queryName ++ "_tsv"))
  else .error "AssertionError: this.object.kind == 'entity'"

/-- Embedding of `Cursor.doc`. -/
def Cursor.doc (cu : Cursor) (queryName : String) : Except String String :=
  if cu.object.isEntity then
    .ok (quoteIdent cu.als ++ "." ++ quoteIdent (snakeCase queryName ++ "_doc"))
  else .error "AssertionError: this.object.kind == 'entity'"

/-- Embedding of `Cursor.child`: descend into a property — embedded
object/union extend the JSON prefix, an fk registers a LEFT OUTER JOIN
and becomes entity-rooted. -/
def Cursor.child (model : Model) (cu : Cursor) (propName : String) (join : JoinSt)
    (aliases : List (String × Nat)) :
    Except String (Cursor × JoinSt × List (String × Nat)) :=
  match cu.object.properties.lookup propName with
  | none => .error "TypeError: cannot read property 'type' of undefined"
  | some prop =>
    match prop.type with
    | .object name =>
      match model.lookup name with
      | some (.object props) =>
        match cu.fieldExp propName with
        | .ok f => .ok (⟨⟨false, props⟩, cu.als, f⟩, join, aliases)
        | .error e => .error e
      | _ => .error "TypeError: JsonObject expected"
    | .union name =>
      match getUnionProps model name with
      | .ok props =>
        match cu.fieldExp propName with
        | .ok f => .ok (⟨⟨false, props⟩, cu.als, f⟩, join, aliases)
        | .error e => .error e
      | .error e => .error e
    | .fk foreignEntity =>
      match model.lookup foreignEntity with
      | some (.entity props) =>
        let (a, join', aliases') := joinAdd join aliases (toTable foreignEntity)
          (cu.fk propName)
        .ok (⟨⟨true, props⟩, a, ""⟩, join', aliases')
      | _ => .error "TypeError: Entity expected"
    | t => .error ("Unsupported case: " ++ t.kind)

/-- JS truthiness of an optional number (`if (args.limit)`). -/
def optNumTruthy : Option JsNum → Bool
  | some n => n.truthy
  | none => false

/-- JS string replace of every newline by a space
(`out.replace(/\n/g, ' ')`). -/
def newlinesToSpaces (s : String) : String :=
  String.mk (s.data.map (fun c => if c = '\n' then ' ' else c))

/-- Parameter binding of an `in`/`not_in` argument list: each element
is pushed as its own positional parameter and wrapped in the scalar's
from-transport cast. -/
def paramList : String → List Value → QState → List String × QState
  | _, [], st => ([], st)
  | tn, a :: rest, st =>
    let (p, st1) := param a st
    let (ps, st2) := paramList tn rest st1
    (fromTransportCast tn p :: ps, st2)

/-- Scalar/enum branch of `addPropCondition` (no recursion, no joins). -/
def scalarPropCondQ (cursor : Cursor) (field typeName op : String) (arg : Value)
    (exps : List String) (st : QState) : Except String (List String × QState) :=
  match cursor.native field with
  | .error e => .error e
  | .ok lhs =>
    if op == "in" || op == "not_in" then
      let (list, st1) := paramList typeName (ensureArray arg) st
      match whereOpToSqlOperator op with
      | .error e => .error e
      | .ok sqlOp =>
        .ok (exps ++ [lhs ++ " " ++ sqlOp ++ " (" ++ String.intercalate ", " list ++ ")"], st1)
    else if op == "startsWith" then
      let (p, st1) := param arg st
      .ok (exps ++ ["starts_with(" ++ lhs ++ ", " ++ p ++ ")"], st1)
    else if op == "not_startsWith" then
      let (p, st1) := param arg st
      .ok (exps ++ ["NOT starts_with(" ++ lhs ++ ", " ++ p ++ ")"], st1)
    else if op == "endsWith" then
      let (p, st1) := param arg st
      .ok (exps ++ ["right(" ++ lhs ++ ", length(" ++ p ++ ")) = " ++ p], st1)
    else if op == "not_endsWith" then
      let (p, st1) := param arg st
      .ok (exps ++ ["right(" ++ lhs ++ ", length(" ++ p ++ ")) != " ++ p], st1)
    else if op == "contains" then
      let (p, st1) := param arg st
      .ok (exps ++ ["position(" ++ p ++ " in " ++ lhs ++ ") > 0"], st1)
    else if op == "not_contains" then
      let (p, st1) := param arg st
      .ok (exps ++ ["position(" ++ p ++ " in " ++ lhs ++ ") = 0"], st1)
    else
      let (p, st1) := param arg st
      match whereOpToSqlOperator op with
      | .error e => .error e
      | .ok sqlOp =>
        .ok (exps ++ [lhs ++ " " ++ sqlOp ++ " " ++ fromTransportCast typeName p], st1)

/-- Embedding of `QueryBuilder.populateOrderBy` (lines 141-169). -/
def populateOrderByQ : Nat → Model → Cursor → OrderBy → List String → JoinSt → QState →
    Except String (List String × JoinSt × QState)
  | 0, _, _, _, _, _, _ => .error "fuel"
  | _ + 1, _, _, [], exps, join, st => .ok (exps, join, st)
  | fuel + 1, model, cursor, (key, spec) :: rest, exps, join, st =>
    match cursor.object.properties.lookup key with
    | none => .error "TypeError: cannot read property 'type' of undefined"
    | some prop =>
      match prop.type with
      | .scalar _ =>
        match spec with
        | .dir s =>
          match cursor.native key with
          | .error e => .error e
          | .ok n => populateOrderByQ fuel model cursor rest (exps ++ [n ++ " " ++ s]) join st
        | .sub _ => .error "AssertionError: typeof spec == 'string'"
      | .enum _ =>
        match spec with
        | .dir s =>
          match cursor.native key with
          | .error e => .error e
          | .ok n => populateOrderByQ fuel model cursor rest (exps ++ [n ++ " " ++ s]) join st
        | .sub _ => .error "AssertionError: typeof spec == 'string'"
      | .object _ =>
        match spec with
        | .sub sub =>
          match Cursor.child model cursor key join st.aliases with
          | .error e => .error e
          | .ok (cu, join1, aliases1) =>
            match populateOrderByQ fuel model cu sub exps join1
                { st with aliases := aliases1 } with
            | .error e => .error e
            | .ok (exps2, join2, st2) => populateOrderByQ fuel model cursor rest exps2 join2 st2
        | .dir _ => .error "AssertionError: typeof spec == 'object'"
      | .union _ =>
        match spec with
        | .sub sub =>
          match Cursor.child model cursor key join st.aliases with
          | .error e => .error e
          | .ok (cu, join1, aliases1) =>
            match populateOrderByQ fuel model cu sub exps join1
                { st with aliases := aliases1 } with
            | .error e => .error e
            | .ok (exps2, join2, st2) => populateOrderByQ fuel model cursor rest exps2 join2 st2
        | .dir _ => .error "AssertionError: typeof spec == 'object'"
      | .fk _ =>
        match spec with
        | .sub sub =>
          match Cursor.child model cursor key join st.aliases with
          | .error e => .error e
          | .ok (cu, join1, aliases1) =>
            match populateOrderByQ fuel model cu sub exps join1
                { st with aliases := aliases1 } with
            | .error e => .error e
            | .ok (exps2, join2, st2) => populateOrderByQ fuel model cursor rest exps2 join2 st2
        | .dir _ => .error "AssertionError: typeof spec == 'object'"
      | t => .error ("Unsupported case: " ++ t.kind)

set_option maxHeartbeats 1000000 in
mutual

/-- Embedding of `QueryBuilder.select` (src/queryBuilder.ts lines
46-139).  The fuel bounds recursion depth; apart from the `AND`/`OR`
branch loops (which keep their fuel so that `hasConditions` evaluation
stays aligned with `generateWhere`'s own guards), every nested call
decrements it. -/
def selectQ : Nat → Model → String → ListArgs → Option RFields → Option SelectVariant →
    QState → Except String (String × QState)
  | 0, _, _, _, _, _, _ => .error "fuel"
  | fuel + 1, model, entityName, args, fields, variant, st =>
    match getEntity model entityName with
    | .error e => .error e
    | .ok props =>
      let table := toTable entityName
      let (als, aliases1) := aliasAdd st.aliases table
      let st1 : QState := { st with aliases := aliases1 }
      let cursor : Cursor := ⟨⟨true, props⟩, als, ""⟩
      match populateColumnsQ fuel model cursor fields [] [] st1 with
      | .error e => .error e
      | .ok (columns, join1, st2) =>
        let headE : Except String String :=
          match variant with
          | some (.fts queryName textParam) =>
            match cursor.tsv queryName, cursor.doc queryName with
            | .ok tsv, .ok doc =>
              .ok ("SELECT\n    '" ++ entityName ++ "' AS isTypeOf" ++ ",\n" ++
                "    ts_rank(" ++ tsv ++ ", phraseto_tsquery('english', " ++ textParam ++
                ")) AS rank" ++ ",\n" ++
                "    ts_headline(" ++ doc ++ ", phraseto_tsquery('english', " ++ textParam ++
                ")) AS highlight" ++ ",\n" ++
                (if columns.length ≠ 0 then
                  "    json_build_array(" ++ columnsRender columns ++ ")"
                 else "    '[]'::json") ++ " AS item\n")
            | .error e, _ => .error e
            | _, .error e => .error e
          | some (.listSubquery _ _) =>
            .ok (if columns.length ≠ 0 then
              "SELECT json_build_array(" ++ columnsRender columns ++ ") " else "")
          | none =>
            .ok (if columns.length ≠ 0 then
              "SELECT " ++ columnsRender columns ++ "\n" else "")
        match headE with
        | .error e => .error e
        | .ok head =>
          let out0 := head ++ "FROM " ++ quoteIdent table ++ " " ++ quoteIdent als
          match hasConditionsF fuel (args.whr.getD .vnull) with
          | .error e => .error e
          | .ok hc =>
            match (if hc then
                match generateWhereQ fuel model cursor (args.whr.getD .vnull) join1 st2 with
                | .error e => .error e
                | .ok (w, j, s) => .ok ([w], j, s)
              else .ok ([], join1, st2) :
                Except String (List String × JoinSt × QState)) with
            | .error e => .error e
            | .ok (whereExps1, join2, st3) =>
              let whereExps2 :=
                match variant with
                | some (.listSubquery field parent) =>
                  whereExps1 ++ [cursor.fk field ++ " = " ++ parent]
                | _ => whereExps1
              let whereExps3E : Except String (List String) :=
                match variant with
                | some (.fts queryName textParam) =>
                  match cursor.tsv queryName with
                  | .ok tsv => .ok (whereExps2 ++
                      ["phraseto_tsquery('english', " ++ textParam ++ ") @@ " ++ tsv])
                  | .error e => .error e
                | _ => .ok whereExps2
              match whereExps3E with
              | .error e => .error e
              | .ok whereExps3 =>
                match (match args.orderBy with
                  | some obs =>
                    if obs.length ≠ 0 then
                      match parseOrderBy model entityName obs with
                      | .error e => .error e
                      | .ok ob => populateOrderByQ fuel model cursor ob [] join2 st3
                    else .ok ([], join2, st3)
                  | none => .ok ([], join2, st3) :
                    Except String (List String × JoinSt × QState)) with
                | .error e => .error e
                | .ok (orderByExps, join3, st4) =>
                  let out1 := out0 ++ (if join3.isEmpty then "" else joinRender join3)
                  let out2 := out1 ++ (if whereExps3.length ≠ 0 then
                      "\nWHERE " ++ String.intercalate " AND " whereExps3 else "")
                  let out3 := out2 ++ (if orderByExps.length > 0 then
                      "\nORDER BY " ++ String.intercalate ", " orderByExps else "")
                  let (out4, st5) :=
                    if optNumTruthy args.limit then
                      let (p, s) := param (.vnum (args.limit.getD ⟨0, 0⟩)) st4
                      (out3 ++ "\nLIMIT " ++ p, s)
                    else (out3, st4)
                  let (out5, st6) :=
                    if optNumTruthy args.offset then
                      let (p, s) := param (.vnum (args.offset.getD ⟨0, 0⟩)) st5
                      (out4 ++ "\nOFFSET " ++ p, s)
                    else (out4, st5)
                  let out6 :=
                    match variant with
                    | some (.listSubquery _ _) => newlinesToSpaces out5
                    | _ => out5
                  .ok (out6, st6)

/-- Option dispatch of `populateColumns` (absent selections loop zero
times). -/
def populateColumnsQ : Nat → Model → Cursor → Option RFields → List String → JoinSt →
    QState → Except String (List String × JoinSt × QState)
  | 0, _, _, _, _, _, _ => .error "fuel"
  | _ + 1, _, _, none, cols, join, st => .ok (cols, join, st)
  | fuel + 1, model, cursor, some fs, cols, join, st =>
    populateFieldsQ fuel model cursor fs.fields cols join st

/-- Field loop of `populateColumns` (lines 171-227). -/
def populateFieldsQ : Nat → Model → Cursor → List (String × RField) → List String → JoinSt →
    QState → Except String (List String × JoinSt × QState)
  | 0, _, _, _, _, _, _ => .error "fuel"
  | _ + 1, _, _, [], cols, join, st => .ok (cols, join, st)
  | fuel + 1, model, cursor, (fieldName, fld) :: rest, cols, join, st =>
    match populateReqsQ fuel model cursor fieldName fld.propType fld.requests cols join st with
    | .error e => .error e
    | .ok (cols1, join1, st1) => populateFieldsQ fuel model cursor rest cols1 join1 st1

/-- Request loop of `populateColumns` for one field. -/
def populateReqsQ : Nat → Model → Cursor → String → PropType → List FieldRequest →
    List String → JoinSt → QState → Except String (List String × JoinSt × QState)
  | 0, _, _, _, _, _, _, _, _ => .error "fuel"
  | _ + 1, _, _, _, _, [], cols, join, st => .ok (cols, join, st)
  | fuel + 1, model, cursor, fieldName, pt, req :: rest, cols, join, st =>
    match pt with
    | .scalar _ =>
      match cursor.transport fieldName with
      | .error e => .error e
      | .ok t =>
        let (_, cols1) := columnsAdd cols t
        populateReqsQ fuel model cursor fieldName pt rest cols1 join st
    | .enum _ =>
      match cursor.transport fieldName with
      | .error e => .error e
      | .ok t =>
        let (_, cols1) := columnsAdd cols t
        populateReqsQ fuel model cursor fieldName pt rest cols1 join st
    | .list _ =>
      match cursor.transport fieldName with
      | .error e => .error e
      | .ok t =>
        let (_, cols1) := columnsAdd cols t
        populateReqsQ fuel model cursor fieldName pt rest cols1 join st
    | .object _ =>
      match cursor.fieldExp fieldName with
      | .error e => .error e
      | .ok f =>
        let (_, cols1) := columnsAdd cols (f ++ " IS NULL")
        match Cursor.child model cursor fieldName join st.aliases with
        | .error e => .error e
        | .ok (cu, join1, aliases1) =>
          match populateColumnsQ fuel model cu req.children cols1 join1
              { st with aliases := aliases1 } with
          | .error e => .error e
          | .ok (cols2, join2, st2) =>
            populateReqsQ fuel model cursor fieldName pt rest cols2 join2 st2
    | .union _ =>
      match Cursor.child model cursor fieldName join st.aliases with
      | .error e => .error e
      | .ok (cu, join1, aliases1) =>
        match cu.transport "isTypeOf" with
        | .error e => .error e
        | .ok t =>
          let (_, cols1) := columnsAdd cols t
          match populateColumnsQ fuel model cu req.children cols1 join1
              { st with aliases := aliases1 } with
          | .error e => .error e
          | .ok (cols2, join2, st2) =>
            populateReqsQ fuel model cursor fieldName pt rest cols2 join2 st2
    | .fk _ =>
      match Cursor.child model cursor fieldName join st.aliases with
      | .error e => .error e
      | .ok (cu, join1, aliases1) =>
        match cu.transport "id" with
        | .error e => .error e
        | .ok t =>
          let (_, cols1) := columnsAdd cols t
          match populateColumnsQ fuel model cu req.children cols1 join1
              { st with aliases := aliases1 } with
          | .error e => .error e
          | .ok (cols2, join2, st2) =>
            populateReqsQ fuel model cursor fieldName pt rest cols2 join2 st2
    | .listRel entity fld =>
      match cursor.native "id" with
      | .error e => .error e
      | .ok parentId =>
        match selectQ fuel model entity (req.args.getD ⟨none, none, none, none⟩)
            req.children (some (.listSubquery fld parentId)) st with
        | .error e => .error e
        | .ok (sub, st1) =>
          let (_, cols1) := columnsAdd cols ("array(" ++ sub ++ ")")
          populateReqsQ fuel model cursor fieldName pt rest cols1 join st1

/-- Embedding of `QueryBuilder.generateWhere` (lines 229-302). -/
def generateWhereQ : Nat → Model → Cursor → Value → JoinSt → QState →
    Except String (String × JoinSt × QState)
  | 0, _, _, _, _, _ => .error "fuel"
  | fuel + 1, model, cursor, w, join, st =>
    let andV := w.getProp "AND"
    let orV := w.getProp "OR"
    let conditions := (jsOwnEntries w).filter (fun kv => !(kv.1 == "AND") && !(kv.1 == "OR"))
    match genCondsQ fuel model cursor conditions [] join st with
    | .error e => .error e
    | .ok (exps1, join1, st1) =>
      match (match andV with
        | some a =>
          if a.truthy then genAndQ fuel model cursor (ensureArray a) exps1 join1 st1
          else .ok (exps1, join1, st1)
        | none => .ok (exps1, join1, st1) :
          Except String (List String × JoinSt × QState)) with
      | .error e => .error e
      | .ok (exps2, join2, st2) =>
        match orV with
        | some o =>
          if o.truthy then
            match genOrQ fuel model cursor (ensureArray o)
                ["(" ++ String.intercalate " AND " exps2 ++ ")"] join2 st2 with
            | .error e => .error e
            | .ok (ors, join3, st3) =>
              .ok ("(" ++ String.intercalate " OR " ors ++ ")", join3, st3)
          else .ok (String.intercalate " AND " exps2, join2, st2)
        | none => .ok (String.intercalate " AND " exps2, join2, st2)

/-- Condition loop of `generateWhere` over the non-`AND`/`OR` keys. -/
def genCondsQ : Nat → Model → Cursor → List (String × Value) → List String → JoinSt →
    QState → Except String (List String × JoinSt × QState)
  | 0, _, _, _, _, _, _ => .error "fuel"
  | _ + 1, _, _, [], exps, join, st => .ok (exps, join, st)
  | fuel + 1, model, cursor, (key, opArg) :: rest, exps, join, st =>
    let f := parseWhereFieldQB key
    if f.op == "every" then
      match hasConditionsF fuel opArg with
      | .error e => .error e
      | .ok hc =>
        if hc then
          match cursor.object.properties.lookup f.field with
          | none => .error "TypeError: cannot read property 'kind' of undefined"
          | some prop =>
            match prop.type with
            | .listRel entity fld =>
              match cursor.native "id" with
              | .error e => .error e
              | .ok parentId =>
                match selectQ fuel model entity ⟨none, none, none, some opArg⟩ none
                    (some (.listSubquery fld parentId)) st with
                | .error e => .error e
                | .ok (conditionedFrom, st1) =>
                  match selectQ fuel model entity ⟨none, none, none, none⟩ none
                      (some (.listSubquery fld parentId)) st1 with
                  | .error e => .error e
                  | .ok (allFrom, st2) =>
                    genCondsQ fuel model cursor rest
                      (exps ++ ["(SELECT count(*) " ++ conditionedFrom ++
                        ") = (SELECT count(*) " ++ allFrom ++ ")"])
                      join st2
            | _ => .error "AssertionError: rel.kind == 'list-relation'"
        else genCondsQ fuel model cursor rest exps join st
    else if f.op == "some" || f.op == "none" then
      match cursor.object.properties.lookup f.field with
      | none => .error "TypeError: cannot read property 'kind' of undefined"
      | some prop =>
        match prop.type with
        | .listRel entity fld =>
          match cursor.native "id" with
          | .error e => .error e
          | .ok parentId =>
            match selectQ fuel model entity ⟨none, none, none, some opArg⟩ none
                (some (.listSubquery fld parentId)) st with
            | .error e => .error e
            | .ok (sub, st1) =>
              let q := "(SELECT true " ++ sub ++ " LIMIT 1)"
              if f.op == "some" then
                genCondsQ fuel model cursor rest (exps ++ [q]) join st1
              else
                let (a, aliases1) := aliasAdd st1.aliases key
                genCondsQ fuel model cursor rest
                  (exps ++ ["(SELECT count(*) FROM " ++ q ++ " " ++ quoteIdent a ++ ") = 0"])
                  join { st1 with aliases := aliases1 }
        | _ => .error "AssertionError: rel.kind == 'list-relation'"
    else
      match cursor.object.properties.lookup f.field with
      | none => .error "AssertionError: prop != null"
      | some _ =>
        match addPropConditionQ fuel model cursor f.field f.op opArg exps join st with
        | .error e => .error e
        | .ok (exps1, join1, st1) => genCondsQ fuel model cursor rest exps1 join1 st1

/-- `AND` branch loop of `generateWhere`: branches whose `hasConditions`
is false are skipped.  The list recursion keeps the fuel so each branch
is guarded at the same fuel that `hasConditions` of the whole input
uses for its members. -/
def genAndQ : Nat → Model → Cursor → List Value → List String → JoinSt → QState →
    Except String (List String × JoinSt × QState)
  | _, _, _, [], exps, join, st => .ok (exps, join, st)
  | 0, _, _, _ :: _, _, _, _ => .error "fuel"
  | fuel + 1, model, cursor, aw :: rest, exps, join, st =>
    match hasConditionsF fuel aw with
    | .error e => .error e
    | .ok hc =>
      if hc then
        match generateWhereQ fuel model cursor aw join st with
        | .error e => .error e
        | .ok (e1, join1, st1) => genAndQ fuel model cursor rest (exps ++ [e1]) join1 st1
      else genAndQ fuel model cursor rest exps join st

/-- `OR` branch loop of `generateWhere`. -/
def genOrQ : Nat → Model → Cursor → List Value → List String → JoinSt → QState →
    Except String (List String × JoinSt × QState)
  | _, _, _, [], ors, join, st => .ok (ors, join, st)
  | 0, _, _, _ :: _, _, _, _ => .error "fuel"
  | fuel + 1, model, cursor, ow :: rest, ors, join, st =>
    match hasConditionsF fuel ow with
    | .error e => .error e
    | .ok hc =>
      if hc then
        match generateWhereQ fuel model cursor ow join st with
        | .error e => .error e
        | .ok (e1, join1, st1) =>
          genOrQ fuel model cursor rest (ors ++ ["(" ++ e1 ++ ")"]) join1 st1
      else genOrQ fuel model cursor rest ors join st

/-- Embedding of `QueryBuilder.addPropCondition` (lines 304-374). -/
def addPropConditionQ : Nat → Model → Cursor → String → String → Value → List String →
    JoinSt → QState → Except String (List String × JoinSt × QState)
  | 0, _, _, _, _, _, _, _, _ => .error "fuel"
  | fuel + 1, model, cursor, field, op, arg, exps, join, st =>
    match cursor.object.properties.lookup field with
    | none => .error "TypeError: cannot read property 'type' of undefined"
    | some prop =>
      match prop.type with
      | .scalar typeName =>
        match scalarPropCondQ cursor field typeName op arg exps st with
        | .error e => .error e
        | .ok (exps1, st1) => .ok (exps1, join, st1)
      | .enum typeName =>
        match scalarPropCondQ cursor field typeName op arg exps st with
        | .error e => .error e
        | .ok (exps1, st1) => .ok (exps1, join, st1)
      | .object _ =>
        if op == "-" then
          match Cursor.child model cursor field join st.aliases with
          | .error e => .error e
          | .ok (cu, join1, aliases1) =>
            addPropEntriesQ fuel model cu (jsOwnEntries arg) exps join1
              { st with aliases := aliases1 }
        else .error "AssertionError: op == '-'"
      | .union _ =>
        if op == "-" then
          match Cursor.child model cursor field join st.aliases with
          | .error e => .error e
          | .ok (cu, join1, aliases1) =>
            addPropEntriesQ fuel model cu (jsOwnEntries arg) exps join1
              { st with aliases := aliases1 }
        else .error "AssertionError: op == '-'"
      | .fk _ =>
        if op == "-" then
          match hasConditionsF fuel arg with
          | .error e => .error e
          | .ok hc =>
            if hc then
              match Cursor.child model cursor field join st.aliases with
              | .error e => .error e
              | .ok (cu, join1, aliases1) =>
                match generateWhereQ fuel model cu arg join1
                    { st with aliases := aliases1 } with
                | .error e => .error e
                | .ok (e1, join2, st2) => .ok (exps ++ [e1], join2, st2)
            else .ok (exps, join, st)
        else .error "AssertionError: op == '-'"
      | t => .error ("Unsupported case: " ++ t.kind)

/-- Sub-key loop of `addPropCondition` for embedded object/union
conditions. -/
def addPropEntriesQ : Nat → Model → Cursor → List (String × Value) → List String → JoinSt →
    QState → Except String (List String × JoinSt × QState)
  | 0, _, _, _, _, _, _ => .error "fuel"
  | _ + 1, _, _, [], exps, join, st => .ok (exps, join, st)
  | fuel + 1, model, cu, (key, v) :: rest, exps, join, st =>
    let f := parseWhereFieldQB key
    match addPropConditionQ fuel model cu f.field f.op v exps join st with
    | .error e => .error e
    | .ok (exps1, join1, st1) => addPropEntriesQ fuel model cu rest exps1 join1 st1

end

/-- Requested fields of a full-text search (`FtsRequestedFields`):
whether `highlight` was selected, and the per-entity item selections
when `item` was. -/
structure FtsFields where
  highlight : Bool
  item : Option (List (String × RFields))

/-- Source loop of `fulltextSearchSelect`: one `select` with the fts
variant per query source. -/
def ftsSrcSelectsQ : Nat → Model → String → String → Value →
    Option (List (String × RFields)) → List FtsSource → QState →
    Except String (List String × QState)
  | _, _, _, _, _, _, [], st => .ok ([], st)
  | fuel, model, queryName, textParam, args, item, src :: rest, st =>
    let whr := args.getProp ("where" ++ src.entity)
    let itemFields := item.bind (fun m => m.lookup src.entity)
    match selectQ fuel model src.entity ⟨none, none, none, whr⟩ itemFields
        (some (.fts queryName textParam)) st with
    | .error e => .error e
    | .ok (sql, st1) =>
      match ftsSrcSelectsQ fuel model queryName textParam args item rest st1 with
      | .error e => .error e
      | .ok (sqls, st2) => .ok (sql :: sqls, st2)

/-- `LIMIT`/`OFFSET` stage of `fulltextSearchSelect`: the clause is
appended (with its value bound as a parameter) unless the argument is
absent or null. -/
def ftsLimOff (opt : Option Value) (tag : String) (s0 : String) (t : QState) :
    String × QState :=
  match opt with
  | some l =>
    if l = Value.vnull then (s0, t)
    else (s0 ++ tag ++ (param l t).1, (param l t).2)
  | none => (s0, t)

/-- Rendering tail of `fulltextSearchSelect`: union of the source
selects, outer `ORDER BY rank`, then limit/offset. -/
def ftsFin (args : Value) (fields : FtsFields) (srcSelects : List String)
    (st2 : QState) : Except String (String × QState) :=
  let cols := ["isTypeOf", "rank"] ++ (if fields.highlight then ["highlight"] else []) ++
    (match fields.item with | some _ => ["item"] | none => [])
  let a := (aliasAdd st2.aliases "tsv").1
  let st3 : QState := { st2 with aliases := (aliasAdd st2.aliases "tsv").2 }
  let sql0 := "SELECT " ++ String.intercalate ", " cols ++ " FROM (\n\n" ++
    String.intercalate "\n\nUNION ALL\n\n" srcSelects ++ "\n\n) AS " ++ a ++
    " ORDER BY rank DESC"
  let limPair := ftsLimOff (args.getProp "limit") " LIMIT " sql0 st3
  let offPair := ftsLimOff (args.getProp "offset") " OFFSET " limPair.1 limPair.2
  .ok offPair

/-- Embedding of `QueryBuilder.fulltextSearchSelect` (lines 454-488).
Note the `limit`/`offset` guards here are `!= null` checks, unlike the
truthiness checks of `select`. -/
def fulltextSearchSelect (fuel : Nat) (model : Model) (queryName : String) (args : Value)
    (fields : FtsFields) (st : QState) : Except String (String × QState) :=
  match getFtsQuery model queryName with
  | .error e => .error e
  | .ok sources =>
    let text := (args.getProp "text").getD .vnull
    match ftsSrcSelectsQ fuel model queryName (param text st).1 args fields.item sources
        (param text st).2 with
    | .error e => .error e
    | .ok (srcSelects, st2) => ftsFin args fields srcSelects st2

/-! Analysis for the where round-trip claim. -/

mutual

def vSize : Value → Nat
  | .vnull => 1
  | .vbool _ => 1
  | .vnum _ => 1
  | .vstr _ => 1
  | .varr xs => 1 + vSizeList xs
  | .vobj kvs => 1 + vSizeFields kvs

def vSizeList : List Value → Nat
  | [] => 0
  | x :: rest => 1 + vSize x + vSizeList rest

def vSizeFields : List (String × Value) → Nat
  | [] => 0
  | (_, v) :: rest => 1 + vSize v + vSizeFields rest

end

theorem vSizeList_mem {x : Value} : ∀ {xs : List Value}, x ∈ xs → vSize x < 1 + vSizeList xs := by
  intro xs
  induction xs with
  | nil => intro h; cases h
  | cons y rest ih =>
    intro h
    rcases List.mem_cons.mp h with h | h
    · subst h; simp [vSizeList]; omega
    · have := ih h; simp [vSizeList]; omega

theorem vSizeFields_lookup {kvs : List (String × Value)} {k : String} {v : Value}
    (h : kvs.lookup k = some v) : vSize v < 1 + vSizeFields kvs := by
  induction kvs with
  | nil => simp [List.lookup] at h
  | cons p rest ih =>
    obtain ⟨k₀, v₀⟩ := p
    by_cases hk : k = k₀
    · subst hk
      simp [List.lookup] at h
      subst h
      simp [vSizeFields]
      omega
    · simp [List.lookup, beq_eq_false_iff_ne.mpr hk] at h
      have := ih h
      simp [vSizeFields]
      omega

theorem jsSomeE_ok_false_cons {f : Value → Except String Bool} {x : Value} {rest : List Value}
    (h : jsSomeE f (x :: rest) = .ok false) :
    f x = .ok false ∧ jsSomeE f rest = .ok false := by
  simp only [jsSomeE] at h
  cases hf : f x with
  | error e => rw [hf] at h; simp at h
  | ok b =>
    cases b with
    | true => rw [hf] at h; simp at h
    | false => rw [hf] at h; exact ⟨rfl, h⟩

/-- Destructor of a successful negative `hasConditions` run: every own
key is `AND`/`OR`, and a truthy `AND` member must be an array whose
members all have no conditions at the member fuel. -/
theorem hasConditionsF_ok_false_destruct {g : Nat} {w : Value}
    (h : hasConditionsF (g + 1) w = .ok false) :
    (jsOwnKeys w).any (fun k => k != "AND" && k != "OR") = false ∧
    (∀ a, w.getProp "AND" = some a → a.truthy = true →
      ∃ xs, a = .varr xs ∧ jsSomeE (hasConditionsF g) xs = .ok false) := by
  simp only [hasConditionsF] at h
  by_cases hnull : w = Value.vnull
  · subst hnull
    exact ⟨by simp [jsOwnKeys], by intro a ha; simp [Value.getProp] at ha⟩
  · rw [if_neg hnull] at h
    by_cases hkeys : (jsOwnKeys w).any (fun k => k != "AND" && k != "OR") = true
    · rw [if_pos hkeys] at h; simp at h
    · rw [if_neg hkeys] at h
      refine ⟨by simpa using hkeys, ?_⟩
      intro a hA hat
      split at h
      · simp at h
      · simp at h
      · rename_i heq
        rw [hA] at heq
        have heq' : (if a.truthy = true then
            (match a with
             | Value.varr xs => jsSomeE (hasConditionsF g) xs
             | _ => Except.error "TypeError: where.AND.some is not a function")
            else Except.ok false) = Except.ok false := heq
        rw [if_pos hat] at heq'
        cases a with
        | varr xs => exact ⟨xs, rfl, heq'⟩
        | vnull => exact absurd hat (by decide)
        | vbool b =>
          exact absurd (show (Except.error "TypeError: where.AND.some is not a function" :
            Except String Bool) = Except.ok false from heq') (by simp)
        | vnum n =>
          exact absurd (show (Except.error "TypeError: where.AND.some is not a function" :
            Except String Bool) = Except.ok false from heq') (by simp)
        | vstr s =>
          exact absurd (show (Except.error "TypeError: where.AND.some is not a function" :
            Except String Bool) = Except.ok false from heq') (by simp)
        | vobj kvs =>
          exact absurd (show (Except.error "TypeError: where.AND.some is not a function" :
            Except String Bool) = Except.ok false from heq') (by simp)

/-- Branch loop that skips everything: when every member keeps
reporting no conditions (at every fuel from `B` up), the `AND` loop
leaves expressions, join set and state untouched. -/
theorem genAndQ_skip (model : Model) (cursor : Cursor) :
    ∀ (xs : List Value) (fuel B : Nat) (exps : List String) (join : JoinSt) (st : QState),
      (∀ g, B ≤ g → jsSomeE (hasConditionsF g) xs = .ok false) →
      B + xs.length < fuel →
      genAndQ fuel model cursor xs exps join st = .ok (exps, join, st) := by
  intro xs
  induction xs with
  | nil => intro fuel B exps join st _ _; cases fuel <;> rfl
  | cons x rest ih =>
    intro fuel B exps join st h hb
    cases fuel with
    | zero => exact absurd hb (Nat.not_lt_zero _)
    | succ f =>
      have hlen : (x :: rest).length = rest.length + 1 := rfl
      have hBf : B ≤ f := by omega
      have hx := (jsSomeE_ok_false_cons (h f hBf)).1
      have hrest : ∀ g, B ≤ g → jsSomeE (hasConditionsF g) rest = .ok false :=
        fun g hg => (jsSomeE_ok_false_cons (h g hg)).2
      simp [genAndQ, hx]
      exact ih f B exps join st hrest (by omega)

theorem length_le_vSizeList : ∀ xs : List Value, xs.length ≤ vSizeList xs := by
  intro xs
  induction xs with
  | nil => simp [vSizeList]
  | cons x rest ih => simp [vSizeList]; omega

/-- The key of any `for..in` entry is a visited key. -/
theorem mem_keys_of_mem_entries {w : Value} {kv : String × Value}
    (h : kv ∈ jsOwnEntries w) : kv.1 ∈ jsOwnKeys w := by
  cases w with
  | vobj kvs => exact List.mem_map_of_mem Prod.fst h
  | vstr s =>
    simp only [jsOwnEntries, List.mem_map] at h
    obtain ⟨p, hp, rfl⟩ := h
    have hlt : p.1 < s.length := by
      have h2 := List.mem_enum_iff_getElem?.mp hp
      by_contra hge
      rw [List.getElem?_eq_none (show s.data.length ≤ p.1 from Nat.not_lt.mp hge)] at h2
      cases h2
    simp only [jsOwnKeys, List.mem_map]
    exact ⟨p.1, List.mem_range.mpr hlt, rfl⟩
  | varr xs =>
    simp only [jsOwnEntries, List.mem_map] at h
    obtain ⟨p, hp, rfl⟩ := h
    have hlt : p.1 < xs.length := by
      have h2 := List.mem_enum_iff_getElem?.mp hp
      by_contra hge
      rw [List.getElem?_eq_none (Nat.not_lt.mp hge)] at h2
      cases h2
    simp only [jsOwnKeys, List.mem_map]
    exact ⟨p.1, List.mem_range.mpr hlt, rfl⟩
  | vnull => simp [jsOwnEntries] at h
  | vbool b => simp [jsOwnEntries] at h
  | vnum n => simp [jsOwnEntries] at h

/-- All own keys `AND`/`OR` means no plain conditions survive the
destructuring. -/
theorem conditions_filter_empty {w : Value}
    (h : (jsOwnKeys w).any (fun k => k != "AND" && k != "OR") = false) :
    (jsOwnEntries w).filter (fun kv => !(kv.1 == "AND") && !(kv.1 == "OR")) = [] := by
  rw [List.filter_eq_nil_iff]
  intro kv hkv
  have hmem := mem_keys_of_mem_entries hkv
  rw [List.any_eq_false] at h
  have := h kv.1 hmem
  simpa using this

/-- C4 (amended, surviving direction): if `hasConditions(w)` is false
(at every sufficient evaluation depth) and the `OR` member of `w` is
absent or falsy, `generateWhere` emits the empty string, pushes no
parameters and registers no joins. -/
theorem c4_hasConditions_empty (fuel : Nat) (model : Model) (cursor : Cursor) (w : Value)
    (join : JoinSt) (st : QState)
    (h : ∀ g, vSize w ≤ g → hasConditionsF g w = .ok false)
    (hOR : ∀ o, w.getProp "OR" = some o → o.truthy = false)
    (hfuel : 2 * vSize w + 2 ≤ fuel) :
    generateWhereQ fuel model cursor w join st = .ok ("", join, st) := by
  have hw1 : 1 ≤ vSize w := by cases w <;> simp [vSize]
  match fuel, hfuel with
  | F + 1, _ =>
    have hF : 2 * vSize w + 1 ≤ F := by omega
    have hdes := hasConditionsF_ok_false_destruct
      (show hasConditionsF (vSize w + 1) w = .ok false from h (vSize w + 1) (by omega))
    have hcond : genCondsQ F model cursor [] [] join st = .ok ([], join, st) := by
      match F, (show 1 ≤ F by omega) with
      | F' + 1, _ => rfl
    cases hA : w.getProp "AND" with
    | none =>
      cases hO : w.getProp "OR" with
      | none =>
        simp only [generateWhereQ, conditions_filter_empty hdes.1, hcond, hA, hO]
        rfl
      | some o =>
        have hot : o.truthy = false := hOR o hO
        simp only [generateWhereQ, conditions_filter_empty hdes.1, hcond, hA, hO, hot,
          Bool.false_eq_true, if_false]
        rfl
    | some a =>
      by_cases hat : a.truthy = true
      · obtain ⟨xs, haxs, -⟩ := hdes.2 a hA hat
        subst haxs
        obtain ⟨kvs, rfl⟩ : ∃ kvs, w = Value.vobj kvs := by
          cases w with
          | vobj kvs => exact ⟨kvs, rfl⟩
          | vnull => simp [Value.getProp] at hA
          | vbool b => simp [Value.getProp] at hA
          | vnum n => simp [Value.getProp] at hA
          | vstr s => simp [Value.getProp] at hA
          | varr ys => simp [Value.getProp] at hA
        have hszA := vSizeFields_lookup
          (show kvs.lookup "AND" = some (Value.varr xs) from hA)
        have hall : ∀ g, vSize (Value.vobj kvs) - 1 ≤ g →
            jsSomeE (hasConditionsF g) xs = .ok false := by
          intro g hg
          have hd2 := hasConditionsF_ok_false_destruct
            (show hasConditionsF (g + 1) (Value.vobj kvs) = .ok false from h (g + 1) (by omega))
          obtain ⟨xs', hxs', hsome⟩ := hd2.2 _ hA hat
          injection hxs' with hxx
          subst hxx
          exact hsome
        have hskip : genAndQ F model cursor xs [] join st = .ok ([], join, st) := by
          apply genAndQ_skip model cursor xs F (vSize (Value.vobj kvs) - 1) [] join st hall
          have hs1 : vSize (Value.vobj kvs) = 1 + vSizeFields kvs := by simp [vSize]
          have hs2 : vSize (Value.varr xs) = 1 + vSizeList xs := by simp [vSize]
          have hl := length_le_vSizeList xs
          omega
        cases hO : (Value.vobj kvs).getProp "OR" with
        | none =>
          simp only [generateWhereQ, conditions_filter_empty hdes.1, hcond, hA,
            hat, eq_self_iff_true, if_true, ensureArray, hskip, hO]
          rfl
        | some o =>
          have hot : o.truthy = false := hOR o hO
          simp only [generateWhereQ, conditions_filter_empty hdes.1, hcond, hA,
            hat, eq_self_iff_true, if_true, ensureArray, hskip, hO, hot,
            Bool.false_eq_true, if_false]
          rfl
      · have hat' : a.truthy = false := Bool.eq_false_iff.mpr hat
        cases hO : w.getProp "OR" with
        | none =>
          simp only [generateWhereQ, conditions_filter_empty hdes.1, hcond, hA, hat',
            Bool.false_eq_true, if_false, hO]
          rfl
        | some o =>
          have hot : o.truthy = false := hOR o hO
          simp only [generateWhereQ, conditions_filter_empty hdes.1, hcond, hA, hat',
            hO, hot, Bool.false_eq_true, if_false]
          rfl

def c4Model : Model := [("T", .entity [("id", .mk (.scalar "ID") false)])]

def c4Cursor : Cursor := ⟨⟨true, [("id", .mk (.scalar "ID") false)]⟩, "t", ""⟩

/-- C4 (counterexample): for `w = {OR: []}`, `hasConditions(w)` is
false yet `generateWhere` emits the non-empty string `(())`; the
claimed equivalence between `hasConditions(w) = false` and
`generateWhere` emitting the empty string fails. -/
theorem c4_counterexample :
    hasConditionsF 5 (.vobj [("OR", .varr [])]) = .ok false ∧
    generateWhereQ 5 c4Model c4Cursor (.vobj [("OR", .varr [])]) [] ⟨[], []⟩ =
      .ok ("(())", [], ⟨[], []⟩) ∧
    ("(())" : String) ≠ "" := ⟨by decide, by decide, by decide⟩

/-- C4 witness: the no-conditions input `{AND: []}` on a concrete
entity cursor produces the empty where expression. -/
theorem c4_witness :
    generateWhereQ 20 c4Model c4Cursor (.vobj [("AND", .varr [])]) [] ⟨[], []⟩ =
      .ok ("", [], ⟨[], []⟩) := by
  refine c4_hasConditions_empty 20 c4Model c4Cursor _ [] ⟨[], []⟩ ?_ ?_ (by decide)
  · intro g hg
    have hsz : vSize (Value.vobj [("AND", Value.varr [])]) = 3 := by decide
    rw [hsz] at hg
    match g, hg with
    | g' + 1, _ => rfl
  · intro o ho
    simp [Value.getProp, List.lookup] at ho

/-! Analysis of the `LIMIT`/`OFFSET` emission of `select`
(src/queryBuilder.ts lines 126-132). -/

def c9Model : Model := [("T", .entity [("id", .mk (.scalar "ID") false)])]

theorem limitLit (x : String) : "\nLIMIT " ++ ("$" ++ x) = "\nLIMIT $" ++ x := rfl

theorem offsetLit (x : String) : "\nOFFSET " ++ ("$" ++ x) = "\nOFFSET $" ++ x := rfl

/-- C9: `select` appends a `LIMIT` clause exactly when `args.limit` is
truthy and an `OFFSET` clause exactly when `args.offset` is truthy —
the run with both arguments nulled produces the same SQL prefix, alias
state and parameter vector, and each truthy argument appends one
clause with a fresh positional placeholder and pushes exactly its
value; a zero limit or offset is falsy, so `limit: 0` / `offset: 0`
emit no clause at all. -/
theorem c9_limit_offset (fuel : Nat) (model : Model) (entityName : String)
    (offset limit : Option JsNum) (orderBy : Option (List String)) (whr : Option Value)
    (fields : Option RFields) (st : QState) (sql : String) (st' : QState)
    (h : selectQ (fuel + 1) model entityName ⟨offset, limit, orderBy, whr⟩ fields none st =
      .ok (sql, st')) :
    ∃ base stA,
      selectQ (fuel + 1) model entityName ⟨none, none, orderBy, whr⟩ fields none st =
        .ok (base, stA) ∧
      sql = base ++
        (if optNumTruthy limit then
          "\nLIMIT " ++ "$" ++ natToDec (stA.params.length + 1) else "") ++
        (if optNumTruthy offset then
          "\nOFFSET " ++ "$" ++ natToDec (stA.params.length +
            (if optNumTruthy limit then 1 else 0) + 1)
         else "") ∧
      st'.aliases = stA.aliases ∧
      st'.params = stA.params ++
        (if optNumTruthy limit then [Value.vnum (limit.getD ⟨0, 0⟩)] else []) ++
        (if optNumTruthy offset then [Value.vnum (offset.getD ⟨0, 0⟩)] else []) := by
  simp only [selectQ] at h ⊢
  cases hE : getEntity model entityName with
  | error e => simp [hE] at h
  | ok props =>
    simp only [hE] at h ⊢
    rcases hAA : aliasAdd st.aliases (toTable entityName) with ⟨als, aliases1⟩
    simp only [hAA] at h ⊢
    cases hPC : populateColumnsQ fuel model ⟨⟨true, props⟩, als, ""⟩ fields [] []
        ⟨st.params, aliases1⟩ with
    | error e => simp [hPC] at h
    | ok trip =>
      obtain ⟨columns, join1, st2⟩ := trip
      simp only [hPC] at h ⊢
      cases hHC : hasConditionsF fuel (whr.getD Value.vnull) with
      | error e => simp [hHC] at h
      | ok hc =>
        simp only [hHC] at h ⊢
        cases hc with
        | false =>
          simp only [Bool.false_eq_true, if_false] at h ⊢
          cases orderBy with
          | none =>
            simp only [show optNumTruthy none = false from rfl,
                  Bool.false_eq_true, if_false]
            refine ⟨_, _, rfl, ?_⟩
            by_cases hl : optNumTruthy limit = true <;>
              by_cases ho : optNumTruthy offset = true <;>
                simp only [hl, ho, param, eq_self_iff_true, if_true, Bool.false_eq_true,
                  if_false, Except.ok.injEq, Prod.mk.injEq] at h ⊢ <;>
              obtain ⟨hsql, hst⟩ := h <;> subst hsql <;> subst hst <;>
              simp [String.append_assoc, List.length_append, limitLit, offsetLit]
          | some obs =>
            by_cases hob : obs.length ≠ 0
            · simp only [if_pos hob] at h ⊢
              cases hPO : parseOrderBy model entityName obs with
              | error e => simp [hPO] at h
              | ok ob =>
                simp only [hPO] at h ⊢
                cases hPOB : populateOrderByQ fuel model ⟨⟨true, props⟩, als, ""⟩ ob []
                    join1 st2 with
                | error e => simp [hPOB] at h
                | ok trip2 =>
                  obtain ⟨obExps, join3, st4⟩ := trip2
                  simp only [hPOB] at h ⊢
                  simp only [show optNumTruthy none = false from rfl,
                    Bool.false_eq_true, if_false]
                  refine ⟨_, _, rfl, ?_⟩
                  by_cases hl : optNumTruthy limit = true <;>
                    by_cases ho : optNumTruthy offset = true <;>
                      simp only [hl, ho, param, eq_self_iff_true, if_true, Bool.false_eq_true,
                        if_false, Except.ok.injEq, Prod.mk.injEq] at h ⊢ <;>
                    obtain ⟨hsql, hst⟩ := h <;> subst hsql <;> subst hst <;>
                    simp [String.append_assoc, List.length_append, limitLit, offsetLit]
            · simp only [if_neg hob] at h ⊢
              simp only [show optNumTruthy none = false from rfl,
                  Bool.false_eq_true, if_false]
              refine ⟨_, _, rfl, ?_⟩
              by_cases hl : optNumTruthy limit = true <;>
                by_cases ho : optNumTruthy offset = true <;>
                  simp only [hl, ho, param, eq_self_iff_true, if_true, Bool.false_eq_true,
                    if_false, Except.ok.injEq, Prod.mk.injEq] at h ⊢ <;>
                obtain ⟨hsql, hst⟩ := h <;> subst hsql <;> subst hst <;>
                simp [String.append_assoc, List.length_append, limitLit, offsetLit]
        | true =>
          simp only [eq_self_iff_true, if_true] at h ⊢
          cases hGW : generateWhereQ fuel model ⟨⟨true, props⟩, als, ""⟩ (whr.getD Value.vnull)
              join1 st2 with
          | error e => simp [hGW] at h
          | ok wjs =>
            obtain ⟨w, j, s⟩ := wjs
            simp only [hGW] at h ⊢
            cases orderBy with
            | none =>
              simp only [show optNumTruthy none = false from rfl,
                  Bool.false_eq_true, if_false]
              refine ⟨_, _, rfl, ?_⟩
              by_cases hl : optNumTruthy limit = true <;>
                by_cases ho : optNumTruthy offset = true <;>
                  simp only [hl, ho, param, eq_self_iff_true, if_true, Bool.false_eq_true,
                    if_false, Except.ok.injEq, Prod.mk.injEq] at h ⊢ <;>
                obtain ⟨hsql, hst⟩ := h <;> subst hsql <;> subst hst <;>
                simp [String.append_assoc, List.length_append, limitLit, offsetLit]
            | some obs =>
              by_cases hob : obs.length ≠ 0
              · simp only [if_pos hob] at h ⊢
                cases hPO : parseOrderBy model entityName obs with
                | error e => simp [hPO] at h
                | ok ob =>
                  simp only [hPO] at h ⊢
                  cases hPOB : populateOrderByQ fuel model ⟨⟨true, props⟩, als, ""⟩ ob []
                      j s with
                  | error e => simp [hPOB] at h
                  | ok trip2 =>
                    obtain ⟨obExps, join3, st4⟩ := trip2
                    simp only [hPOB] at h ⊢
                    simp only [show optNumTruthy none = false from rfl,
                    Bool.false_eq_true, if_false]
                    refine ⟨_, _, rfl, ?_⟩
                    by_cases hl : optNumTruthy limit = true <;>
                      by_cases ho : optNumTruthy offset = true <;>
                        simp only [hl, ho, param, eq_self_iff_true, if_true,
                          Bool.false_eq_true, if_false, Except.ok.injEq,
                          Prod.mk.injEq] at h ⊢ <;>
                      obtain ⟨hsql, hst⟩ := h <;> subst hsql <;> subst hst <;>
                      simp [String.append_assoc, List.length_append, limitLit, offsetLit]
              · simp only [if_neg hob] at h ⊢
                simp only [show optNumTruthy none = false from rfl,
                  Bool.false_eq_true, if_false]
                refine ⟨_, _, rfl, ?_⟩
                by_cases hl : optNumTruthy limit = true <;>
                  by_cases ho : optNumTruthy offset = true <;>
                    simp only [hl, ho, param, eq_self_iff_true, if_true, Bool.false_eq_true,
                      if_false, Except.ok.injEq, Prod.mk.injEq] at h ⊢ <;>
                  obtain ⟨hsql, hst⟩ := h <;> subst hsql <;> subst hst <;>
                  simp [String.append_assoc, List.length_append, limitLit, offsetLit]

/-- C9 witness: a concrete select over entity `T` with truthy
`limit = 3`, `offset = 2` appends exactly `LIMIT $1` and `OFFSET $2`
to the clause-free SQL and pushes the two values. -/
theorem c9_witness :
    ∃ base stA,
      selectQ (20 + 1) c9Model "T" ⟨none, none, none, none⟩ none none ⟨[], []⟩ =
        .ok (base, stA) ∧
      "FROM \"t\" \"t\"\nLIMIT $1\nOFFSET $2" = base ++
        (if optNumTruthy (some ⟨3, 0⟩) then
          "\nLIMIT " ++ "$" ++ natToDec (stA.params.length + 1) else "") ++
        (if optNumTruthy (some ⟨2, 0⟩) then
          "\nOFFSET " ++ "$" ++ natToDec (stA.params.length +
            (if optNumTruthy (some ⟨3, 0⟩) then 1 else 0) + 1)
         else "") ∧
      ([("t", 1)] : List (String × Nat)) = stA.aliases ∧
      [Value.vnum ⟨3, 0⟩, Value.vnum ⟨2, 0⟩] = stA.params ++
        (if optNumTruthy (some ⟨3, 0⟩) then
          [Value.vnum ((some (⟨3, 0⟩ : JsNum)).getD ⟨0, 0⟩)] else []) ++
        (if optNumTruthy (some ⟨2, 0⟩) then
          [Value.vnum ((some (⟨2, 0⟩ : JsNum)).getD ⟨0, 0⟩)] else []) :=
  c9_limit_offset 20 c9Model "T" (some ⟨2, 0⟩) (some ⟨3, 0⟩) none none none ⟨[], []⟩
    "FROM \"t\" \"t\"\nLIMIT $1\nOFFSET $2"
    ⟨[Value.vnum ⟨3, 0⟩, Value.vnum ⟨2, 0⟩], [("t", 1)]⟩ (by decide)

/-! Analysis of parameter binding.  Literal values never being
interpolated into the SQL text is expressed as a noninterference
property: two runs of the builder on shape-equal inputs (same
structure, keys and truthiness, arbitrary literal content) produce
identical SQL, identical joins and aliases, and parameter vectors that
extend the initial ones by the same number of values. -/

mutual

/-- Shape equivalence of JS values: same constructors, array and
string lengths, object keys and truthiness; number and string content
is arbitrary. -/
def shapeEq : Value → Value → Bool
  | .vnull, .vnull => true
  | .vbool a, .vbool b => a == b
  | .vnum a, .vnum b => a.truthy == b.truthy
  | .vstr a, .vstr b => a.length == b.length
  | .varr xs, .varr ys => shapeEqList xs ys
  | .vobj xs, .vobj ys => shapeEqFields xs ys
  | _, _ => false

def shapeEqList : List Value → List Value → Bool
  | [], [] => true
  | x :: xs, y :: ys => shapeEq x y && shapeEqList xs ys
  | _, _ => false

def shapeEqFields : List (String × Value) → List (String × Value) → Bool
  | [], [] => true
  | (k, v) :: xs, (k', v') :: ys => k == k' && shapeEq v v' && shapeEqFields xs ys
  | _, _ => false

end

def shapeEqOpt : Option Value → Option Value → Bool
  | none, none => true
  | some a, some b => shapeEq a b
  | _, _ => false

theorem shapeEqList_length : ∀ xs ys : List Value, shapeEqList xs ys = true →
    xs.length = ys.length := by
  intro xs
  induction xs with
  | nil => intro ys h; cases ys with
    | nil => rfl
    | cons y ys => simp [shapeEqList] at h
  | cons x xs ih =>
    intro ys h
    cases ys with
    | nil => simp [shapeEqList] at h
    | cons y ys =>
      simp only [shapeEqList, Bool.and_eq_true] at h
      simp [ih ys h.2]

theorem shapeEqFields_keys : ∀ xs ys : List (String × Value), shapeEqFields xs ys = true →
    xs.map Prod.fst = ys.map Prod.fst := by
  intro xs
  induction xs with
  | nil => intro ys h; cases ys with
    | nil => rfl
    | cons y ys => obtain ⟨k', v'⟩ := y; simp [shapeEqFields] at h
  | cons x xs ih =>
    intro ys h
    obtain ⟨k, v⟩ := x
    cases ys with
    | nil => simp [shapeEqFields] at h
    | cons y ys =>
      obtain ⟨k', v'⟩ := y
      simp only [shapeEqFields, Bool.and_eq_true, beq_iff_eq] at h
      simp [h.1.1, ih ys h.2]

theorem str_empty_iff_length {s : String} : s = "" ↔ s.length = 0 := by
  constructor
  · intro h; subst h; rfl
  · intro h
    cases s with
    | mk data =>
      cases data with
      | nil => rfl
      | cons c cs => simp [String.length] at h

theorem shapeEq_truthy : ∀ a b : Value, shapeEq a b = true → a.truthy = b.truthy := by
  intro a b h
  cases a <;> cases b <;>
    simp only [shapeEq, Bool.false_eq_true, beq_iff_eq] at h <;>
    simp [Value.truthy]
  · exact h
  · exact h
  · rename_i s₁ s₂
    by_cases he : s₁ = ""
    · have he2 : s₂ = "" := str_empty_iff_length.mpr (by rw [← h]; exact str_empty_iff_length.mp he)
      rw [he, he2]
    · have he2 : ¬s₂ = "" := fun hc => he (str_empty_iff_length.mpr
        (by rw [h]; exact str_empty_iff_length.mp hc))
      simp [bne, beq_eq_false_iff_ne.mpr he, beq_eq_false_iff_ne.mpr he2]

theorem shapeEq_keys : ∀ a b : Value, shapeEq a b = true → jsOwnKeys a = jsOwnKeys b := by
  intro a b h
  cases a <;> cases b <;>
    simp only [shapeEq, Bool.false_eq_true, beq_iff_eq] at h
  · rfl
  · rfl
  · rfl
  · simp [jsOwnKeys, h]
  · simp [jsOwnKeys, shapeEqList_length _ _ h]
  · simp [jsOwnKeys, shapeEqFields_keys _ _ h]

theorem shapeEqFields_lookup : ∀ (xs ys : List (String × Value)) (k : String),
    shapeEqFields xs ys = true → shapeEqOpt (xs.lookup k) (ys.lookup k) = true := by
  intro xs
  induction xs with
  | nil => intro ys k h; cases ys with
    | nil => rfl
    | cons y ys => obtain ⟨k', v'⟩ := y; simp [shapeEqFields] at h
  | cons x xs ih =>
    intro ys k h
    obtain ⟨k₁, v₁⟩ := x
    cases ys with
    | nil => simp [shapeEqFields] at h
    | cons y ys =>
      obtain ⟨k₂, v₂⟩ := y
      simp only [shapeEqFields, Bool.and_eq_true, beq_iff_eq] at h
      obtain ⟨⟨hk, hv⟩, hrest⟩ := h
      subst hk
      by_cases hkk : k = k₁
      · subst hkk
        simp [List.lookup, shapeEqOpt, hv]
      · simp only [List.lookup, beq_eq_false_iff_ne.mpr hkk]
        exact ih ys k hrest

theorem shapeEq_getProp : ∀ a b : Value, shapeEq a b = true →
    ∀ k, shapeEqOpt (a.getProp k) (b.getProp k) = true := by
  intro a b h k
  cases a <;> cases b <;>
    simp only [shapeEq, Bool.false_eq_true] at h <;>
    try exact rfl
  exact shapeEqFields_lookup _ _ k h

/-- Relation between the `for..in` entries of two shape-equal values:
equal keys, shape-equal members. -/
def entRel (kv kv' : String × Value) : Prop :=
  kv.1 = kv'.1 ∧ shapeEq kv.2 kv'.2 = true

theorem shapeEqFields_forall2 : ∀ xs ys : List (String × Value), shapeEqFields xs ys = true →
    List.Forall₂ entRel xs ys := by
  intro xs
  induction xs with
  | nil => intro ys h; cases ys with
    | nil => exact .nil
    | cons y ys => obtain ⟨k', v'⟩ := y; simp [shapeEqFields] at h
  | cons x xs ih =>
    intro ys h
    obtain ⟨k, v⟩ := x
    cases ys with
    | nil => simp [shapeEqFields] at h
    | cons y ys =>
      obtain ⟨k', v'⟩ := y
      simp only [shapeEqFields, Bool.and_eq_true, beq_iff_eq] at h
      exact .cons ⟨h.1.1, h.1.2⟩ (ih ys h.2)

theorem shapeEqList_forall2 : ∀ xs ys : List Value, shapeEqList xs ys = true →
    List.Forall₂ (fun x y => shapeEq x y = true) xs ys := by
  intro xs
  induction xs with
  | nil => intro ys h; cases ys with
    | nil => exact .nil
    | cons y ys => simp [shapeEqList] at h
  | cons x xs ih =>
    intro ys h
    cases ys with
    | nil => simp [shapeEqList] at h
    | cons y ys =>
      simp only [shapeEqList, Bool.and_eq_true] at h
      exact .cons h.1 (ih ys h.2)

theorem enumFrom_forall2_vals : ∀ {xs ys : List Value},
    List.Forall₂ (fun x y => shapeEq x y = true) xs ys → ∀ n,
    List.Forall₂ entRel ((List.enumFrom n xs).map (fun p => (natToDec p.1, p.2)))
      ((List.enumFrom n ys).map (fun p => (natToDec p.1, p.2))) := by
  intro xs ys h
  induction h with
  | nil => intro n; exact .nil
  | cons h1 _ ih =>
    intro n
    simp only [List.enumFrom, List.map]
    exact .cons ⟨rfl, h1⟩ (ih (n + 1))

theorem enumFrom_forall2_chars : ∀ (cs ds : List Char), cs.length = ds.length → ∀ n,
    List.Forall₂ entRel
      ((List.enumFrom n cs).map (fun p => (natToDec p.1, Value.vstr (String.mk [p.2]))))
      ((List.enumFrom n ds).map (fun p => (natToDec p.1, Value.vstr (String.mk [p.2])))) := by
  intro cs
  induction cs with
  | nil => intro ds h n; cases ds with
    | nil => exact .nil
    | cons d ds => simp at h
  | cons c cs ih =>
    intro ds h n
    cases ds with
    | nil => simp at h
    | cons d ds =>
      simp only [List.enumFrom, List.map]
      exact .cons ⟨rfl, rfl⟩ (ih ds (by simpa using h) (n + 1))

theorem shapeEq_entries : ∀ a b : Value, shapeEq a b = true →
    List.Forall₂ entRel (jsOwnEntries a) (jsOwnEntries b) := by
  intro a b h
  cases a <;> cases b <;>
    simp only [shapeEq, Bool.false_eq_true, beq_iff_eq] at h <;>
    try exact .nil
  · exact enumFrom_forall2_chars _ _ h 0
  · exact enumFrom_forall2_vals (shapeEqList_forall2 _ _ h) 0
  · exact shapeEqFields_forall2 _ _ h

theorem shapeEq_ensureArray : ∀ a b : Value, shapeEq a b = true →
    List.Forall₂ (fun x y => shapeEq x y = true) (ensureArray a) (ensureArray b) := by
  intro a b h
  cases a <;> cases b <;>
    first
      | exact List.Forall₂.cons h List.Forall₂.nil
      | exact shapeEqList_forall2 _ _ h
      | simp only [shapeEq, Bool.false_eq_true] at h

theorem forall2_filter_andor : ∀ {xs ys : List (String × Value)},
    List.Forall₂ entRel xs ys →
    List.Forall₂ entRel (xs.filter (fun kv => !(kv.1 == "AND") && !(kv.1 == "OR")))
      (ys.filter (fun kv => !(kv.1 == "AND") && !(kv.1 == "OR"))) := by
  intro xs ys h
  induction h with
  | nil => exact .nil
  | cons h1 _ ih =>
    rename_i x y l₁ l₂ _
    simp only [List.filter_cons]
    by_cases hp : (!(x.1 == "AND") && !(x.1 == "OR")) = true
    · have hp' : (!(y.1 == "AND") && !(y.1 == "OR")) = true := by rw [← h1.1]; exact hp
      rw [if_pos hp, if_pos hp']
      exact .cons h1 ih
    · have hp' : ¬(!(y.1 == "AND") && !(y.1 == "OR")) = true := by rw [← h1.1]; exact hp
      rw [if_neg hp, if_neg hp']
      exact ih

/-- `hasConditions` depends only on the shape of its input: two
shape-equal where values produce the same outcome at every fuel. -/
theorem hasConditionsF_shape : ∀ fuel (a b : Value), shapeEq a b = true →
    hasConditionsF fuel a = hasConditionsF fuel b := by
  intro fuel
  induction fuel with
  | zero => intro a b h; rfl
  | succ f ih =>
    have hsome : ∀ xs ys : List Value, shapeEqList xs ys = true →
        jsSomeE (hasConditionsF f) xs = jsSomeE (hasConditionsF f) ys := by
      intro xs
      induction xs with
      | nil => intro ys hxy; cases ys with
        | nil => rfl
        | cons y ys => simp [shapeEqList] at hxy
      | cons x xs ihl =>
        intro ys hxy
        cases ys with
        | nil => simp [shapeEqList] at hxy
        | cons y ys =>
          simp only [shapeEqList, Bool.and_eq_true] at hxy
          simp only [jsSomeE, ih x y hxy.1, ihl ys hxy.2]
    intro a b h
    by_cases hn : a = Value.vnull
    · subst hn
      cases b <;> simp only [shapeEq, Bool.false_eq_true] at h
      rfl
    · have hbn : b ≠ Value.vnull := by
        intro hb
        subst hb
        apply hn
        cases a <;> simp only [shapeEq, Bool.false_eq_true] at h
        rfl
      have hA := shapeEq_getProp a b h "AND"
      have hO := shapeEq_getProp a b h "OR"
      have horstep : (match a.getProp "OR" with
          | some o =>
            if o.truthy then
              match o with
              | Value.varr xs => jsSomeE (hasConditionsF f) xs
              | _ => Except.error "TypeError: where.OR.some is not a function"
            else Except.ok false
          | none => (Except.ok false : Except String Bool)) =
          (match b.getProp "OR" with
          | some o =>
            if o.truthy then
              match o with
              | Value.varr xs => jsSomeE (hasConditionsF f) xs
              | _ => Except.error "TypeError: where.OR.some is not a function"
            else Except.ok false
          | none => (Except.ok false : Except String Bool)) := by
        cases hoa : a.getProp "OR" with
        | none =>
          cases hob : b.getProp "OR" with
          | none => rfl
          | some oy => rw [hoa, hob] at hO; simp [shapeEqOpt] at hO
        | some ox =>
          cases hob : b.getProp "OR" with
          | none => rw [hoa, hob] at hO; simp [shapeEqOpt] at hO
          | some oy =>
            rw [hoa, hob] at hO
            simp only [shapeEqOpt] at hO
            simp only []
            rw [shapeEq_truthy ox oy hO]
            by_cases ht : oy.truthy = true
            · rw [if_pos ht, if_pos ht]
              cases ox <;> cases oy <;>
                simp only [shapeEq, Bool.false_eq_true] at hO <;>
                try rfl
              exact hsome _ _ hO
            · rw [if_neg ht, if_neg ht]
      simp only [hasConditionsF]
      rw [if_neg hn, if_neg hbn, shapeEq_keys a b h]
      by_cases hk : (jsOwnKeys b).any (fun k => k != "AND" && k != "OR") = true
      · rw [if_pos hk, if_pos hk]
      · rw [if_neg hk, if_neg hk]
        cases hAa : a.getProp "AND" with
        | none =>
          cases hAb : b.getProp "AND" with
          | none =>
            simp only [hAa, hAb]
            exact horstep
          | some y => rw [hAa, hAb] at hA; simp [shapeEqOpt] at hA
        | some x =>
          cases hAb : b.getProp "AND" with
          | none => rw [hAa, hAb] at hA; simp [shapeEqOpt] at hA
          | some y =>
            rw [hAa, hAb] at hA
            simp only [shapeEqOpt] at hA
            simp only [hAa, hAb]
            rw [shapeEq_truthy x y hA]
            by_cases ht : y.truthy = true
            · rw [if_pos ht, if_pos ht]
              cases x <;> cases y <;>
                simp only [shapeEq, Bool.false_eq_true] at hA <;>
                try rfl
              rename_i xs ys
              have hys := hsome xs ys hA
              cases hV : jsSomeE (hasConditionsF f) xs with
              | error e =>
                have hV2 : jsSomeE (hasConditionsF f) ys = Except.error e := by
                  rw [← hys]; exact hV
                simp only [hV, hV2]
              | ok bb =>
                have hV2 : jsSomeE (hasConditionsF f) ys = Except.ok bb := by
                  rw [← hys]; exact hV
                cases bb with
                | true => simp only [hV, hV2]
                | false =>
                  simp only [hV, hV2]
                  exact horstep
            · rw [if_neg ht, if_neg ht]
              exact horstep

/-- Two-run state relation: equal alias sets, and parameter vectors
extending the given initial ones by equally many values. -/
def QRel (st st' t t' : QState) : Prop :=
  t.aliases = t'.aliases ∧
  ∃ ext ext' : List Value, ext.length = ext'.length ∧
    t.params = st.params ++ ext ∧ t'.params = st'.params ++ ext'

theorem QRel.init {st st' : QState} (h : st.aliases = st'.aliases) : QRel st st' st st' :=
  ⟨h, [], [], rfl, by simp, by simp⟩

theorem QRel.step {st st' t t' u u' : QState} (h1 : QRel st st' t t')
    (h2 : QRel t t' u u') : QRel st st' u u' := by
  obtain ⟨ha, e1, e1', hl, hp, hp'⟩ := h1
  obtain ⟨hb, e2, e2', hl2, hq, hq'⟩ := h2
  exact ⟨hb, e1 ++ e2, e1' ++ e2', by simp [hl, hl2],
    by rw [hq, hp, List.append_assoc], by rw [hq', hp', List.append_assoc]⟩

theorem QRel.len {st st' t t' : QState} (h0 : st.params.length = st'.params.length)
    (h : QRel st st' t t') : t.params.length = t'.params.length := by
  obtain ⟨_, e, e', hl, hp, hp'⟩ := h
  rw [hp, hp']
  simp [h0, hl]

theorem QRel.aliasesUpdate {st st' t t' : QState} (h : QRel st st' t t')
    (A : List (String × Nat)) : QRel st st' ⟨t.params, A⟩ ⟨t'.params, A⟩ := by
  obtain ⟨_, e, e', hl, hp, hp'⟩ := h
  exact ⟨rfl, e, e', hl, hp, hp'⟩

theorem param_rel {st st' t t' : QState} (h0 : st.params.length = st'.params.length)
    (h : QRel st st' t t') (v v' : Value) :
    (param v t).1 = (param v' t').1 ∧ QRel st st' (param v t).2 (param v' t').2 := by
  obtain ⟨ha, e, e', hl, hp, hp'⟩ := h
  constructor
  · simp [param, hp, hp', h0, hl]
  · exact ⟨by simp [param, ha], e ++ [v], e' ++ [v'], by simp [hl],
      by simp [param, hp], by simp [param, hp']⟩

/-- Result relation for `select`-shaped outcomes. -/
def selOut (st st' : QState) :
    Except String (String × QState) → Except String (String × QState) → Prop
  | .error e, .error e' => e = e'
  | .ok (s, t), .ok (s', t') => s = s' ∧ QRel st st' t t'
  | _, _ => False

/-- Result relation for `generateWhere`-shaped outcomes. -/
def whOut (st st' : QState) :
    Except String (String × JoinSt × QState) →
    Except String (String × JoinSt × QState) → Prop
  | .error e, .error e' => e = e'
  | .ok (s, j, t), .ok (s', j', t') => s = s' ∧ j = j' ∧ QRel st st' t t'
  | _, _ => False

/-- Result relation for expression-list/join outcomes. -/
def triOut (st st' : QState) :
    Except String (List String × JoinSt × QState) →
    Except String (List String × JoinSt × QState) → Prop
  | .error e, .error e' => e = e'
  | .ok (x, j, t), .ok (x', j', t') => x = x' ∧ j = j' ∧ QRel st st' t t'
  | _, _ => False

/-- Result relation for expression-list outcomes. -/
def duoOut (st st' : QState) :
    Except String (List String × QState) → Except String (List String × QState) → Prop
  | .error e, .error e' => e = e'
  | .ok (x, t), .ok (x', t') => x = x' ∧ QRel st st' t t'
  | _, _ => False

/-- Shape equivalence of list arguments: equal orderBy, equal
limit/offset truthiness, shape-equal where. -/
def argsShape (a b : ListArgs) : Bool :=
  (optNumTruthy a.offset == optNumTruthy b.offset) &&
  (optNumTruthy a.limit == optNumTruthy b.limit) &&
  (a.orderBy == b.orderBy) &&
  shapeEqOpt a.whr b.whr

/-- Relation between the optional list arguments of two shape-equal
field requests. -/
def OptArgsRel : Option ListArgs → Option ListArgs → Prop
  | none, none => True
  | some a, some b => argsShape a b = true
  | _, _ => False

mutual

/-- Shape equivalence of requested-field trees: identical structure
(keys, property types, aliases, indices), with the embedded list
arguments only shape-equal. -/
inductive RfShape : RFields → RFields → Prop where
  | mk : ∀ {fs fs'}, RflShape fs fs' → RfShape (.mk fs) (.mk fs')

inductive RflShape : List (String × RField) → List (String × RField) → Prop where
  | nil : RflShape [] []
  | cons : ∀ {k f f' xs ys}, RfdShape f f' → RflShape xs ys →
      RflShape ((k, f) :: xs) ((k, f') :: ys)

inductive RfdShape : RField → RField → Prop where
  | mk : ∀ {pt rs rs'}, ReqlShape rs rs' → RfdShape (.mk pt rs) (.mk pt rs')

inductive ReqlShape : List FieldRequest → List FieldRequest → Prop where
  | nil : ReqlShape [] []
  | cons : ∀ {r r' rs rs'}, ReqShape r r' → ReqlShape rs rs' →
      ReqlShape (r :: rs) (r' :: rs')

inductive ReqShape : FieldRequest → FieldRequest → Prop where
  | mk : ∀ {a c c' g g' t i}, OptRfShape c c' → OptArgsRel g g' →
      ReqShape (.mk a c g t i) (.mk a c' g' t i)

inductive OptRfShape : Option RFields → Option RFields → Prop where
  | none : OptRfShape none none
  | some : ∀ {f f'}, RfShape f f' → OptRfShape (some f) (some f')

end

theorem QRel.reAlias (st st' : QState) (A : List (String × Nat)) :
    QRel st st' ⟨st.params, A⟩ ⟨st'.params, A⟩ := ⟨rfl, [], [], rfl, by simp, by simp⟩

theorem paramList_rel : ∀ (tn : String) {xs ys : List Value},
    List.Forall₂ (fun x y => shapeEq x y = true) xs ys →
    ∀ {st st' t t' : QState}, st.params.length = st'.params.length → QRel st st' t t' →
    (paramList tn xs t).1 = (paramList tn ys t').1 ∧
    QRel st st' (paramList tn xs t).2 (paramList tn ys t').2 := by
  intro tn xs ys hf
  induction hf with
  | nil => intro st st' t t' h0 hq; exact ⟨rfl, hq⟩
  | cons h1 hrest ih =>
    rename_i x y l1 l2
    intro st st' t t' h0 hq
    obtain ⟨hph, hpq⟩ := param_rel h0 hq x y
    rcases hpa : param x t with ⟨p, t1⟩
    rcases hpb : param y t' with ⟨q, t2⟩
    rw [hpa, hpb] at hph hpq
    have hpq1 : p = q := hph
    have hq1 : QRel st st' t1 t2 := hpq
    have ihh := ih h0 hq1
    rcases hra : paramList tn l1 t1 with ⟨ps, u1⟩
    rcases hrb : paramList tn l2 t2 with ⟨qs, u2⟩
    rw [hra, hrb] at ihh
    have ih1 : ps = qs := ihh.1
    have ih2 : QRel st st' u1 u2 := ihh.2
    simp only [paramList, hpa, hpb, hra, hrb]
    exact ⟨by rw [hpq1, ih1], ih2⟩

theorem scalarPropCondQ_rel (cursor : Cursor) (field typeName op : String)
    {arg arg' : Value} (hs : shapeEq arg arg' = true)
    (exps : List String) {st st' t t' : QState}
    (h0 : st.params.length = st'.params.length) (hq : QRel st st' t t') :
    duoOut st st' (scalarPropCondQ cursor field typeName op arg exps t)
      (scalarPropCondQ cursor field typeName op arg' exps t') := by
  cases hn : cursor.native field with
  | error er => simp only [scalarPropCondQ, hn]; exact rfl
  | ok lhs =>
    simp only [scalarPropCondQ, hn]
    by_cases h1 : (op == "in" || op == "not_in") = true
    · rw [if_pos h1, if_pos h1]
      have hpl := paramList_rel typeName (shapeEq_ensureArray _ _ hs) h0 hq
      rcases hra : paramList typeName (ensureArray arg) t with ⟨ps, u1⟩
      rcases hrb : paramList typeName (ensureArray arg') t' with ⟨qs, u2⟩
      rw [hra, hrb] at hpl
      have hps : ps = qs := hpl.1
      have hqq : QRel st st' u1 u2 := hpl.2
      simp only [hra, hrb]
      cases hw : whereOpToSqlOperator op with
      | error er => exact rfl
      | ok sqlOp => exact ⟨by rw [hps], hqq⟩
    · rw [if_neg h1, if_neg h1]
      have hpr := param_rel h0 hq arg arg'
      rcases hpa : param arg t with ⟨p, t1⟩
      rcases hpb : param arg' t' with ⟨q, t2⟩
      rw [hpa, hpb] at hpr
      have hpq1 : p = q := hpr.1
      have hq1 : QRel st st' t1 t2 := hpr.2
      by_cases h2 : (op == "startsWith") = true
      · rw [if_pos h2, if_pos h2]
        simp only [hpa, hpb]
        exact ⟨by rw [hpq1], hq1⟩
      · rw [if_neg h2, if_neg h2]
        by_cases h3 : (op == "not_startsWith") = true
        · rw [if_pos h3, if_pos h3]
          simp only [hpa, hpb]
          exact ⟨by rw [hpq1], hq1⟩
        · rw [if_neg h3, if_neg h3]
          by_cases h4 : (op == "endsWith") = true
          · rw [if_pos h4, if_pos h4]
            simp only [hpa, hpb]
            exact ⟨by rw [hpq1], hq1⟩
          · rw [if_neg h4, if_neg h4]
            by_cases h5 : (op == "not_endsWith") = true
            · rw [if_pos h5, if_pos h5]
              simp only [hpa, hpb]
              exact ⟨by rw [hpq1], hq1⟩
            · rw [if_neg h5, if_neg h5]
              by_cases h6 : (op == "contains") = true
              · rw [if_pos h6, if_pos h6]
                simp only [hpa, hpb]
                exact ⟨by rw [hpq1], hq1⟩
              · rw [if_neg h6, if_neg h6]
                by_cases h7 : (op == "not_contains") = true
                · rw [if_pos h7, if_pos h7]
                  simp only [hpa, hpb]
                  exact ⟨by rw [hpq1], hq1⟩
                · rw [if_neg h7, if_neg h7]
                  simp only [hpa, hpb]
                  cases hw : whereOpToSqlOperator op with
                  | error er => exact rfl
                  | ok sqlOp => exact ⟨by rw [hpq1], hq1⟩

theorem populateOrderByQ_rel : ∀ (fuel : Nat) (model : Model) (cursor : Cursor)
    (ob : OrderBy) (exps : List String) (join : JoinSt) (st st' : QState),
    st.aliases = st'.aliases →
    triOut st st' (populateOrderByQ fuel model cursor ob exps join st)
      (populateOrderByQ fuel model cursor ob exps join st') := by
  intro fuel
  induction fuel with
  | zero => intro model cursor ob exps join st st' halias; exact rfl
  | succ f ih =>
    intro model cursor ob exps join st st' halias
    cases ob with
    | nil => exact ⟨rfl, rfl, QRel.init halias⟩
    | cons kv rest =>
      obtain ⟨key, spec⟩ := kv
      simp only [populateOrderByQ]
      cases hlk : cursor.object.properties.lookup key with
      | none => simp only [hlk]; exact rfl
      | some prop =>
        simp only [hlk]
        cases hpt : prop.type with
        | scalar n =>
          simp only [hpt]
          cases spec with
          | dir s =>
            cases hnat : cursor.native key with
            | error er => simp only [hnat]; exact rfl
            | ok nv =>
              simp only [hnat]
              exact ih model cursor rest (exps ++ [nv ++ " " ++ s]) join st st' halias
          | sub o => exact rfl
        | enum n =>
          simp only [hpt]
          cases spec with
          | dir s =>
            cases hnat : cursor.native key with
            | error er => simp only [hnat]; exact rfl
            | ok nv =>
              simp only [hnat]
              exact ih model cursor rest (exps ++ [nv ++ " " ++ s]) join st st' halias
          | sub o => exact rfl
        | object tn =>
          simp only [hpt]
          cases spec with
          | dir s => exact rfl
          | sub sub =>
            simp only [← halias]
            cases hch : Cursor.child model cursor key join st.aliases with
            | error er => simp only [hch]; exact rfl
            | ok trip =>
              obtain ⟨cu, join1, aliases1⟩ := trip
              simp only [hch]
              have hsub := ih model cu sub exps join1 ⟨st.params, aliases1⟩
                ⟨st'.params, aliases1⟩ rfl
              rcases hsa : populateOrderByQ f model cu sub exps join1 ⟨st.params, aliases1⟩
                with ⟨er⟩ | ⟨trip2⟩
              · rcases hsb : populateOrderByQ f model cu sub exps join1 ⟨st'.params, aliases1⟩
                  with ⟨er'⟩ | ⟨trip2'⟩
                · rw [hsa, hsb] at hsub
                  simp only [hsa, hsb]
                  exact hsub
                · rw [hsa, hsb] at hsub
                  exact (hsub : False).elim
              · rcases hsb : populateOrderByQ f model cu sub exps join1 ⟨st'.params, aliases1⟩
                  with ⟨er'⟩ | ⟨trip2'⟩
                · rw [hsa, hsb] at hsub
                  exact (hsub : False).elim
                · obtain ⟨exps2, join2, st2⟩ := trip2
                  obtain ⟨exps2', join2', st2'⟩ := trip2'
                  rw [hsa, hsb] at hsub
                  obtain ⟨he, hj, hqr⟩ := (hsub :
                    exps2 = exps2' ∧ join2 = join2' ∧
                      QRel ⟨st.params, aliases1⟩ ⟨st'.params, aliases1⟩ st2 st2')
                  simp only [hsa, hsb]
                  subst he
                  subst hj
                  have hrec := ih model cursor rest exps2 join2 st2 st2' hqr.1
                  rcases hta : populateOrderByQ f model cursor rest exps2 join2 st2
                    with ⟨er⟩ | ⟨trip3⟩
                  · rcases htb : populateOrderByQ f model cursor rest exps2 join2 st2'
                      with ⟨er'⟩ | ⟨trip3'⟩
                    · rw [hta, htb] at hrec
                      exact hrec
                    · rw [hta, htb] at hrec
                      exact (hrec : False).elim
                  · rcases htb : populateOrderByQ f model cursor rest exps2 join2 st2'
                      with ⟨er'⟩ | ⟨trip3'⟩
                    · rw [hta, htb] at hrec
                      exact (hrec : False).elim
                    · obtain ⟨exps3, join3, st3⟩ := trip3
                      obtain ⟨exps3', join3', st3'⟩ := trip3'
                      rw [hta, htb] at hrec
                      obtain ⟨he3, hj3, hqr3⟩ := (hrec :
                        exps3 = exps3' ∧ join3 = join3' ∧ QRel st2 st2' st3 st3')
                      exact ⟨he3, hj3, QRel.step (QRel.step (QRel.reAlias st st' aliases1) hqr) hqr3⟩
        | union tn =>
          simp only [hpt]
          cases spec with
          | dir s => exact rfl
          | sub sub =>
            simp only [← halias]
            cases hch : Cursor.child model cursor key join st.aliases with
            | error er => simp only [hch]; exact rfl
            | ok trip =>
              obtain ⟨cu, join1, aliases1⟩ := trip
              simp only [hch]
              have hsub := ih model cu sub exps join1 ⟨st.params, aliases1⟩
                ⟨st'.params, aliases1⟩ rfl
              rcases hsa : populateOrderByQ f model cu sub exps join1 ⟨st.params, aliases1⟩
                with ⟨er⟩ | ⟨trip2⟩
              · rcases hsb : populateOrderByQ f model cu sub exps join1 ⟨st'.params, aliases1⟩
                  with ⟨er'⟩ | ⟨trip2'⟩
                · rw [hsa, hsb] at hsub
                  simp only [hsa, hsb]
                  exact hsub
                · rw [hsa, hsb] at hsub
                  exact (hsub : False).elim
              · rcases hsb : populateOrderByQ f model cu sub exps join1 ⟨st'.params, aliases1⟩
                  with ⟨er'⟩ | ⟨trip2'⟩
                · rw [hsa, hsb] at hsub
                  exact (hsub : False).elim
                · obtain ⟨exps2, join2, st2⟩ := trip2
                  obtain ⟨exps2', join2', st2'⟩ := trip2'
                  rw [hsa, hsb] at hsub
                  obtain ⟨he, hj, hqr⟩ := (hsub :
                    exps2 = exps2' ∧ join2 = join2' ∧
                      QRel ⟨st.params, aliases1⟩ ⟨st'.params, aliases1⟩ st2 st2')
                  simp only [hsa, hsb]
                  subst he
                  subst hj
                  have hrec := ih model cursor rest exps2 join2 st2 st2' hqr.1
                  rcases hta : populateOrderByQ f model cursor rest exps2 join2 st2
                    with ⟨er⟩ | ⟨trip3⟩
                  · rcases htb : populateOrderByQ f model cursor rest exps2 join2 st2'
                      with ⟨er'⟩ | ⟨trip3'⟩
                    · rw [hta, htb] at hrec
                      exact hrec
                    · rw [hta, htb] at hrec
                      exact (hrec : False).elim
                  · rcases htb : populateOrderByQ f model cursor rest exps2 join2 st2'
                      with ⟨er'⟩ | ⟨trip3'⟩
                    · rw [hta, htb] at hrec
                      exact (hrec : False).elim
                    · obtain ⟨exps3, join3, st3⟩ := trip3
                      obtain ⟨exps3', join3', st3'⟩ := trip3'
                      rw [hta, htb] at hrec
                      obtain ⟨he3, hj3, hqr3⟩ := (hrec :
                        exps3 = exps3' ∧ join3 = join3' ∧ QRel st2 st2' st3 st3')
                      exact ⟨he3, hj3, QRel.step (QRel.step (QRel.reAlias st st' aliases1) hqr) hqr3⟩
        | fk tn =>
          simp only [hpt]
          cases spec with
          | dir s => exact rfl
          | sub sub =>
            simp only [← halias]
            cases hch : Cursor.child model cursor key join st.aliases with
            | error er => simp only [hch]; exact rfl
            | ok trip =>
              obtain ⟨cu, join1, aliases1⟩ := trip
              simp only [hch]
              have hsub := ih model cu sub exps join1 ⟨st.params, aliases1⟩
                ⟨st'.params, aliases1⟩ rfl
              rcases hsa : populateOrderByQ f model cu sub exps join1 ⟨st.params, aliases1⟩
                with ⟨er⟩ | ⟨trip2⟩
              · rcases hsb : populateOrderByQ f model cu sub exps join1 ⟨st'.params, aliases1⟩
                  with ⟨er'⟩ | ⟨trip2'⟩
                · rw [hsa, hsb] at hsub
                  simp only [hsa, hsb]
                  exact hsub
                · rw [hsa, hsb] at hsub
                  exact (hsub : False).elim
              · rcases hsb : populateOrderByQ f model cu sub exps join1 ⟨st'.params, aliases1⟩
                  with ⟨er'⟩ | ⟨trip2'⟩
                · rw [hsa, hsb] at hsub
                  exact (hsub : False).elim
                · obtain ⟨exps2, join2, st2⟩ := trip2
                  obtain ⟨exps2', join2', st2'⟩ := trip2'
                  rw [hsa, hsb] at hsub
                  obtain ⟨he, hj, hqr⟩ := (hsub :
                    exps2 = exps2' ∧ join2 = join2' ∧
                      QRel ⟨st.params, aliases1⟩ ⟨st'.params, aliases1⟩ st2 st2')
                  simp only [hsa, hsb]
                  subst he
                  subst hj
                  have hrec := ih model cursor rest exps2 join2 st2 st2' hqr.1
                  rcases hta : populateOrderByQ f model cursor rest exps2 join2 st2
                    with ⟨er⟩ | ⟨trip3⟩
                  · rcases htb : populateOrderByQ f model cursor rest exps2 join2 st2'
                      with ⟨er'⟩ | ⟨trip3'⟩
                    · rw [hta, htb] at hrec
                      exact hrec
                    · rw [hta, htb] at hrec
                      exact (hrec : False).elim
                  · rcases htb : populateOrderByQ f model cursor rest exps2 join2 st2'
                      with ⟨er'⟩ | ⟨trip3'⟩
                    · rw [hta, htb] at hrec
                      exact (hrec : False).elim
                    · obtain ⟨exps3, join3, st3⟩ := trip3
                      obtain ⟨exps3', join3', st3'⟩ := trip3'
                      rw [hta, htb] at hrec
                      obtain ⟨he3, hj3, hqr3⟩ := (hrec :
                        exps3 = exps3' ∧ join3 = join3' ∧ QRel st2 st2' st3 st3')
                      exact ⟨he3, hj3, QRel.step (QRel.step (QRel.reAlias st st' aliases1) hqr) hqr3⟩
        | list it => simp only [hpt]; exact rfl
        | listRel en fl => simp only [hpt]; exact rfl

theorem shapeEqOpt_getD {o o' : Option Value} (h : shapeEqOpt o o' = true) :
    shapeEq (o.getD .vnull) (o'.getD .vnull) = true := by
  cases o with
  | none =>
    cases o' with
    | none => rfl
    | some y => simp [shapeEqOpt] at h
  | some x =>
    cases o' with
    | none => simp [shapeEqOpt] at h
    | some y => exact h

theorem argsShape_destruct {a b : ListArgs} (h : argsShape a b = true) :
    optNumTruthy a.offset = optNumTruthy b.offset ∧
    optNumTruthy a.limit = optNumTruthy b.limit ∧
    a.orderBy = b.orderBy ∧ shapeEqOpt a.whr b.whr = true := by
  simp only [argsShape, Bool.and_eq_true, beq_iff_eq] at h
  exact ⟨h.1.1.1, h.1.1.2, h.1.2, h.2⟩

theorem argsShape_opArg {v v' : Value} (h : shapeEq v v' = true) :
    argsShape ⟨none, none, none, some v⟩ ⟨none, none, none, some v'⟩ = true := by
  simp [argsShape, shapeEqOpt, h]

theorem argsShape_default : argsShape ⟨none, none, none, none⟩ ⟨none, none, none, none⟩ = true := by
  simp [argsShape, shapeEqOpt]

/-- Per-function two-run statements of the builder mutual block. -/
def PSel (fuel : Nat) : Prop :=
  ∀ (model : Model) (en : String) (args args' : ListArgs) (fields fields' : Option RFields)
    (variant : Option SelectVariant) (st st' : QState),
    argsShape args args' = true → OptRfShape fields fields' →
    st.aliases = st'.aliases → st.params.length = st'.params.length →
    selOut st st' (selectQ fuel model en args fields variant st)
      (selectQ fuel model en args' fields' variant st')

def PCols (fuel : Nat) : Prop :=
  ∀ (model : Model) (cursor : Cursor) (fields fields' : Option RFields)
    (cols : List String) (join : JoinSt) (st st' : QState),
    OptRfShape fields fields' →
    st.aliases = st'.aliases → st.params.length = st'.params.length →
    triOut st st' (populateColumnsQ fuel model cursor fields cols join st)
      (populateColumnsQ fuel model cursor fields' cols join st')

def PFlds (fuel : Nat) : Prop :=
  ∀ (model : Model) (cursor : Cursor) (fs fs' : List (String × RField))
    (cols : List String) (join : JoinSt) (st st' : QState),
    RflShape fs fs' →
    st.aliases = st'.aliases → st.params.length = st'.params.length →
    triOut st st' (populateFieldsQ fuel model cursor fs cols join st)
      (populateFieldsQ fuel model cursor fs' cols join st')

def PReqs (fuel : Nat) : Prop :=
  ∀ (model : Model) (cursor : Cursor) (fieldName : String) (pt : PropType)
    (reqs reqs' : List FieldRequest) (cols : List String) (join : JoinSt) (st st' : QState),
    ReqlShape reqs reqs' →
    st.aliases = st'.aliases → st.params.length = st'.params.length →
    triOut st st' (populateReqsQ fuel model cursor fieldName pt reqs cols join st)
      (populateReqsQ fuel model cursor fieldName pt reqs' cols join st')

def PGenW (fuel : Nat) : Prop :=
  ∀ (model : Model) (cursor : Cursor) (w w' : Value) (join : JoinSt) (st st' : QState),
    shapeEq w w' = true →
    st.aliases = st'.aliases → st.params.length = st'.params.length →
    whOut st st' (generateWhereQ fuel model cursor w join st)
      (generateWhereQ fuel model cursor w' join st')

def PConds (fuel : Nat) : Prop :=
  ∀ (model : Model) (cursor : Cursor) (conds conds' : List (String × Value))
    (exps : List String) (join : JoinSt) (st st' : QState),
    List.Forall₂ entRel conds conds' →
    st.aliases = st'.aliases → st.params.length = st'.params.length →
    triOut st st' (genCondsQ fuel model cursor conds exps join st)
      (genCondsQ fuel model cursor conds' exps join st')

def PAnd (fuel : Nat) : Prop :=
  ∀ (model : Model) (cursor : Cursor) (ws ws' : List Value)
    (exps : List String) (join : JoinSt) (st st' : QState),
    List.Forall₂ (fun x y => shapeEq x y = true) ws ws' →
    st.aliases = st'.aliases → st.params.length = st'.params.length →
    triOut st st' (genAndQ fuel model cursor ws exps join st)
      (genAndQ fuel model cursor ws' exps join st')

def POr (fuel : Nat) : Prop :=
  ∀ (model : Model) (cursor : Cursor) (ws ws' : List Value)
    (ors : List String) (join : JoinSt) (st st' : QState),
    List.Forall₂ (fun x y => shapeEq x y = true) ws ws' →
    st.aliases = st'.aliases → st.params.length = st'.params.length →
    triOut st st' (genOrQ fuel model cursor ws ors join st)
      (genOrQ fuel model cursor ws' ors join st')

def PProp (fuel : Nat) : Prop :=
  ∀ (model : Model) (cursor : Cursor) (field op : String) (arg arg' : Value)
    (exps : List String) (join : JoinSt) (st st' : QState),
    shapeEq arg arg' = true →
    st.aliases = st'.aliases → st.params.length = st'.params.length →
    triOut st st' (addPropConditionQ fuel model cursor field op arg exps join st)
      (addPropConditionQ fuel model cursor field op arg' exps join st')

def PEnts (fuel : Nat) : Prop :=
  ∀ (model : Model) (cu : Cursor) (ents ents' : List (String × Value))
    (exps : List String) (join : JoinSt) (st st' : QState),
    List.Forall₂ entRel ents ents' →
    st.aliases = st'.aliases → st.params.length = st'.params.length →
    triOut st st' (addPropEntriesQ fuel model cu ents exps join st)
      (addPropEntriesQ fuel model cu ents' exps join st')

def PAll (fuel : Nat) : Prop :=
  PSel fuel ∧ PCols fuel ∧ PFlds fuel ∧ PReqs fuel ∧ PGenW fuel ∧ PConds fuel ∧
  PAnd fuel ∧ POr fuel ∧ PProp fuel ∧ PEnts fuel

theorem pAllZero : PAll 0 := by
  refine ⟨?_, ?_, ?_, ?_, ?_, ?_, ?_, ?_, ?_, ?_⟩
  · intro model en args args' fields fields' variant st st' _ _ _ _; exact rfl
  · intro model cursor fields fields' cols join st st' _ _ _; exact rfl
  · intro model cursor fs fs' cols join st st' _ _ _; exact rfl
  · intro model cursor fieldName pt reqs reqs' cols join st st' _ _ _; exact rfl
  · intro model cursor w w' join st st' _ _ _; exact rfl
  · intro model cursor conds conds' exps join st st' _ _ _; exact rfl
  · intro model cursor ws ws' exps join st st' hf halias _
    cases hf with
    | nil => exact ⟨rfl, rfl, QRel.init halias⟩
    | cons h1 h2 => exact rfl
  · intro model cursor ws ws' ors join st st' hf halias _
    cases hf with
    | nil => exact ⟨rfl, rfl, QRel.init halias⟩
    | cons h1 h2 => exact rfl
  · intro model cursor field op arg arg' exps join st st' _ _ _; exact rfl
  · intro model cu ents ents' exps join st st' _ _ _; exact rfl

theorem stepCols (f : Nat) (ih : PAll f) : PCols (f + 1) := by
  obtain ⟨ihSel, ihCols, ihFlds, ihReqs, ihGenW, ihConds, ihAnd, ihOr, ihProp, ihEnts⟩ := ih
  intro model cursor fields fields' cols join st st' hfs halias hlen
  cases hfs with
  | none => exact ⟨rfl, rfl, QRel.init halias⟩
  | some hf =>
    cases hf with
    | mk hl =>
      exact ihFlds model cursor _ _ cols join st st' hl halias hlen

theorem stepAnd (f : Nat) (ih : PAll f) : PAnd (f + 1) := by
  obtain ⟨ihSel, ihCols, ihFlds, ihReqs, ihGenW, ihConds, ihAnd, ihOr, ihProp, ihEnts⟩ := ih
  intro model cursor ws ws' exps join st st' hf halias hlen
  cases hf with
  | nil => exact ⟨rfl, rfl, QRel.init halias⟩
  | cons h1 hrest =>
    rename_i x y l l'
    simp only [genAndQ]
    have heq := hasConditionsF_shape f x y h1
    cases hHC : hasConditionsF f x with
    | error e =>
      have hHC' : hasConditionsF f y = .error e := by rw [← heq]; exact hHC
      simp only [hHC, hHC']
      exact rfl
    | ok hc =>
      have hHC' : hasConditionsF f y = .ok hc := by rw [← heq]; exact hHC
      simp only [hHC, hHC']
      cases hc with
      | false =>
        simp only [Bool.false_eq_true, if_false]
        exact ihAnd model cursor l l' exps join st st' hrest halias hlen
      | true =>
        simp only [if_true]
        have hgw := ihGenW model cursor x y join st st' h1 halias hlen
        rcases hga : generateWhereQ f model cursor x join st with ⟨e⟩ | ⟨⟨e1, join1, st1⟩⟩
        · rcases hgb : generateWhereQ f model cursor y join st' with ⟨e'⟩ | ⟨⟨e1', join1', st1'⟩⟩
          · rw [hga, hgb] at hgw
            exact hgw
          · rw [hga, hgb] at hgw
            exact (hgw : False).elim
        · rcases hgb : generateWhereQ f model cursor y join st' with ⟨e'⟩ | ⟨⟨e1', join1', st1'⟩⟩
          · rw [hga, hgb] at hgw
            exact (hgw : False).elim
          · rw [hga, hgb] at hgw
            obtain ⟨he, hj, hq⟩ := (hgw : e1 = e1' ∧ join1 = join1' ∧ QRel st st' st1 st1')
            subst he
            subst hj
            have hrec := ihAnd model cursor l l' (exps ++ [e1]) join1 st1 st1' hrest hq.1
              (QRel.len hlen hq)
            show triOut st st' (genAndQ f model cursor l (exps ++ [e1]) join1 st1)
              (genAndQ f model cursor l' (exps ++ [e1]) join1 st1')
            rcases hta : genAndQ f model cursor l (exps ++ [e1]) join1 st1
              with ⟨e⟩ | ⟨⟨x3, j3, t3⟩⟩
            · rcases htb : genAndQ f model cursor l' (exps ++ [e1]) join1 st1'
                with ⟨e'⟩ | ⟨⟨x3', j3', t3'⟩⟩
              · rw [hta, htb] at hrec
                exact hrec
              · rw [hta, htb] at hrec
                exact (hrec : False).elim
            · rcases htb : genAndQ f model cursor l' (exps ++ [e1]) join1 st1'
                with ⟨e'⟩ | ⟨⟨x3', j3', t3'⟩⟩
              · rw [hta, htb] at hrec
                exact (hrec : False).elim
              · rw [hta, htb] at hrec
                obtain ⟨hx, hj3, hq3⟩ := (hrec : x3 = x3' ∧ j3 = j3' ∧ QRel st1 st1' t3 t3')
                exact ⟨hx, hj3, QRel.step hq hq3⟩

theorem stepOr (f : Nat) (ih : PAll f) : POr (f + 1) := by
  obtain ⟨ihSel, ihCols, ihFlds, ihReqs, ihGenW, ihConds, ihAnd, ihOr, ihProp, ihEnts⟩ := ih
  intro model cursor ws ws' ors join st st' hf halias hlen
  cases hf with
  | nil => exact ⟨rfl, rfl, QRel.init halias⟩
  | cons h1 hrest =>
    rename_i x y l l'
    simp only [genOrQ]
    have heq := hasConditionsF_shape f x y h1
    cases hHC : hasConditionsF f x with
    | error e =>
      have hHC' : hasConditionsF f y = .error e := by rw [← heq]; exact hHC
      simp only [hHC, hHC']
      exact rfl
    | ok hc =>
      have hHC' : hasConditionsF f y = .ok hc := by rw [← heq]; exact hHC
      simp only [hHC, hHC']
      cases hc with
      | false =>
        simp only [Bool.false_eq_true, if_false]
        exact ihOr model cursor l l' ors join st st' hrest halias hlen
      | true =>
        simp only [if_true]
        have hgw := ihGenW model cursor x y join st st' h1 halias hlen
        rcases hga : generateWhereQ f model cursor x join st with ⟨e⟩ | ⟨⟨e1, join1, st1⟩⟩
        · rcases hgb : generateWhereQ f model cursor y join st' with ⟨e'⟩ | ⟨⟨e1', join1', st1'⟩⟩
          · rw [hga, hgb] at hgw
            exact hgw
          · rw [hga, hgb] at hgw
            exact (hgw : False).elim
        · rcases hgb : generateWhereQ f model cursor y join st' with ⟨e'⟩ | ⟨⟨e1', join1', st1'⟩⟩
          · rw [hga, hgb] at hgw
            exact (hgw : False).elim
          · rw [hga, hgb] at hgw
            obtain ⟨he, hj, hq⟩ := (hgw : e1 = e1' ∧ join1 = join1' ∧ QRel st st' st1 st1')
            subst he
            subst hj
            have hrec := ihOr model cursor l l' (ors ++ ["(" ++ e1 ++ ")"]) join1 st1 st1'
              hrest hq.1 (QRel.len hlen hq)
            show triOut st st' (genOrQ f model cursor l (ors ++ ["(" ++ e1 ++ ")"]) join1 st1)
              (genOrQ f model cursor l' (ors ++ ["(" ++ e1 ++ ")"]) join1 st1')
            rcases hta : genOrQ f model cursor l (ors ++ ["(" ++ e1 ++ ")"]) join1 st1
              with ⟨e⟩ | ⟨⟨x3, j3, t3⟩⟩
            · rcases htb : genOrQ f model cursor l' (ors ++ ["(" ++ e1 ++ ")"]) join1 st1'
                with ⟨e'⟩ | ⟨⟨x3', j3', t3'⟩⟩
              · rw [hta, htb] at hrec
                exact hrec
              · rw [hta, htb] at hrec
                exact (hrec : False).elim
            · rcases htb : genOrQ f model cursor l' (ors ++ ["(" ++ e1 ++ ")"]) join1 st1'
                with ⟨e'⟩ | ⟨⟨x3', j3', t3'⟩⟩
              · rw [hta, htb] at hrec
                exact (hrec : False).elim
              · rw [hta, htb] at hrec
                obtain ⟨hx, hj3, hq3⟩ := (hrec : x3 = x3' ∧ j3 = j3' ∧ QRel st1 st1' t3 t3')
                exact ⟨hx, hj3, QRel.step hq hq3⟩

theorem stepEnts (f : Nat) (ih : PAll f) : PEnts (f + 1) := by
  obtain ⟨ihSel, ihCols, ihFlds, ihReqs, ihGenW, ihConds, ihAnd, ihOr, ihProp, ihEnts⟩ := ih
  intro model cu ents ents' exps join st st' hf halias hlen
  cases hf with
  | nil => exact ⟨rfl, rfl, QRel.init halias⟩
  | cons h1 hrest =>
    rename_i kv kv' l l'
    obtain ⟨key, v⟩ := kv
    obtain ⟨key', v'⟩ := kv'
    obtain ⟨hk, hv⟩ := h1
    cases (show key = key' from hk)
    simp only [addPropEntriesQ]
    have hpc := ihProp model cu (parseWhereFieldQB key).field (parseWhereFieldQB key).op
      v v' exps join st st' hv halias hlen
    rcases hpa : addPropConditionQ f model cu (parseWhereFieldQB key).field
        (parseWhereFieldQB key).op v exps join st with ⟨e⟩ | ⟨⟨x1, j1, t1⟩⟩
    · rcases hpb : addPropConditionQ f model cu (parseWhereFieldQB key).field
          (parseWhereFieldQB key).op v' exps join st' with ⟨e'⟩ | ⟨⟨x1', j1', t1'⟩⟩
      · rw [hpa, hpb] at hpc
        exact hpc
      · rw [hpa, hpb] at hpc
        exact (hpc : False).elim
    · rcases hpb : addPropConditionQ f model cu (parseWhereFieldQB key).field
          (parseWhereFieldQB key).op v' exps join st' with ⟨e'⟩ | ⟨⟨x1', j1', t1'⟩⟩
      · rw [hpa, hpb] at hpc
        exact (hpc : False).elim
      · rw [hpa, hpb] at hpc
        obtain ⟨hx, hj, hq⟩ := (hpc : x1 = x1' ∧ j1 = j1' ∧ QRel st st' t1 t1')
        subst hx
        subst hj
        have hrec := ihEnts model cu l l' x1 j1 t1 t1' hrest hq.1 (QRel.len hlen hq)
        show triOut st st' (addPropEntriesQ f model cu l x1 j1 t1)
          (addPropEntriesQ f model cu l' x1 j1 t1')
        rcases hta : addPropEntriesQ f model cu l x1 j1 t1 with ⟨e⟩ | ⟨⟨x3, j3, t3⟩⟩
        · rcases htb : addPropEntriesQ f model cu l' x1 j1 t1' with ⟨e'⟩ | ⟨⟨x3', j3', t3'⟩⟩
          · rw [hta, htb] at hrec
            exact hrec
          · rw [hta, htb] at hrec
            exact (hrec : False).elim
        · rcases htb : addPropEntriesQ f model cu l' x1 j1 t1' with ⟨e'⟩ | ⟨⟨x3', j3', t3'⟩⟩
          · rw [hta, htb] at hrec
            exact (hrec : False).elim
          · rw [hta, htb] at hrec
            obtain ⟨hx3, hj3, hq3⟩ := (hrec : x3 = x3' ∧ j3 = j3' ∧ QRel t1 t1' t3 t3')
            exact ⟨hx3, hj3, QRel.step hq hq3⟩

theorem stepFlds (f : Nat) (ih : PAll f) : PFlds (f + 1) := by
  obtain ⟨ihSel, ihCols, ihFlds, ihReqs, ihGenW, ihConds, ihAnd, ihOr, ihProp, ihEnts⟩ := ih
  intro model cursor fs fs' cols join st st' hf halias hlen
  cases hf with
  | nil => exact ⟨rfl, rfl, QRel.init halias⟩
  | cons hfd hrest =>
    rename_i k fld fld' xs ys
    cases hfd with
    | mk hreq =>
      rename_i pt rs rs'
      simp only [populateFieldsQ, RField.propType, RField.requests]
      have hpr := ihReqs model cursor k pt rs rs' cols join st st' hreq halias hlen
      rcases hra : populateReqsQ f model cursor k pt rs cols join st
        with ⟨e⟩ | ⟨⟨cols1, join1, st1⟩⟩
      · rcases hrb : populateReqsQ f model cursor k pt rs' cols join st'
          with ⟨e'⟩ | ⟨⟨cols1', join1', st1'⟩⟩
        · rw [hra, hrb] at hpr
          exact hpr
        · rw [hra, hrb] at hpr
          exact (hpr : False).elim
      · rcases hrb : populateReqsQ f model cursor k pt rs' cols join st'
          with ⟨e'⟩ | ⟨⟨cols1', join1', st1'⟩⟩
        · rw [hra, hrb] at hpr
          exact (hpr : False).elim
        · rw [hra, hrb] at hpr
          obtain ⟨hc, hj, hq⟩ := (hpr : cols1 = cols1' ∧ join1 = join1' ∧ QRel st st' st1 st1')
          subst hc
          subst hj
          have hrec := ihFlds model cursor xs ys cols1 join1 st1 st1' hrest hq.1
            (QRel.len hlen hq)
          show triOut st st' (populateFieldsQ f model cursor xs cols1 join1 st1)
            (populateFieldsQ f model cursor ys cols1 join1 st1')
          rcases hta : populateFieldsQ f model cursor xs cols1 join1 st1
            with ⟨e⟩ | ⟨⟨x3, j3, t3⟩⟩
          · rcases htb : populateFieldsQ f model cursor ys cols1 join1 st1'
              with ⟨e'⟩ | ⟨⟨x3', j3', t3'⟩⟩
            · rw [hta, htb] at hrec
              exact hrec
            · rw [hta, htb] at hrec
              exact (hrec : False).elim
          · rcases htb : populateFieldsQ f model cursor ys cols1 join1 st1'
              with ⟨e'⟩ | ⟨⟨x3', j3', t3'⟩⟩
            · rw [hta, htb] at hrec
              exact (hrec : False).elim
            · rw [hta, htb] at hrec
              obtain ⟨hx3, hj3, hq3⟩ := (hrec : x3 = x3' ∧ j3 = j3' ∧ QRel st1 st1' t3 t3')
              exact ⟨hx3, hj3, QRel.step hq hq3⟩

theorem stepProp (f : Nat) (ih : PAll f) : PProp (f + 1) := by
  obtain ⟨ihSel, ihCols, ihFlds, ihReqs, ihGenW, ihConds, ihAnd, ihOr, ihProp, ihEnts⟩ := ih
  intro model cursor field op arg arg' exps join st st' hs halias hlen
  simp only [addPropConditionQ]
  cases hlk : cursor.object.properties.lookup field with
  | none => simp only [hlk]; exact rfl
  | some prop =>
    simp only [hlk]
    cases hpt : prop.type with
    | scalar tn =>
      simp only [hpt]
      have hsc := scalarPropCondQ_rel cursor field tn op hs exps hlen (QRel.init halias)
      rcases hsa : scalarPropCondQ cursor field tn op arg exps st with ⟨e⟩ | ⟨⟨x1, t1⟩⟩
      · rcases hsb : scalarPropCondQ cursor field tn op arg' exps st' with ⟨e'⟩ | ⟨⟨x1', t1'⟩⟩
        · rw [hsa, hsb] at hsc
          exact hsc
        · rw [hsa, hsb] at hsc
          exact (hsc : False).elim
      · rcases hsb : scalarPropCondQ cursor field tn op arg' exps st' with ⟨e'⟩ | ⟨⟨x1', t1'⟩⟩
        · rw [hsa, hsb] at hsc
          exact (hsc : False).elim
        · rw [hsa, hsb] at hsc
          obtain ⟨hx, hq⟩ := (hsc : x1 = x1' ∧ QRel st st' t1 t1')
          exact ⟨hx, rfl, hq⟩
    | enum tn =>
      simp only [hpt]
      have hsc := scalarPropCondQ_rel cursor field tn op hs exps hlen (QRel.init halias)
      rcases hsa : scalarPropCondQ cursor field tn op arg exps st with ⟨e⟩ | ⟨⟨x1, t1⟩⟩
      · rcases hsb : scalarPropCondQ cursor field tn op arg' exps st' with ⟨e'⟩ | ⟨⟨x1', t1'⟩⟩
        · rw [hsa, hsb] at hsc
          exact hsc
        · rw [hsa, hsb] at hsc
          exact (hsc : False).elim
      · rcases hsb : scalarPropCondQ cursor field tn op arg' exps st' with ⟨e'⟩ | ⟨⟨x1', t1'⟩⟩
        · rw [hsa, hsb] at hsc
          exact (hsc : False).elim
        · rw [hsa, hsb] at hsc
          obtain ⟨hx, hq⟩ := (hsc : x1 = x1' ∧ QRel st st' t1 t1')
          exact ⟨hx, rfl, hq⟩
    | object tn =>
      simp only [hpt]
      by_cases hop : (op == "-") = true
      · rw [if_pos hop, if_pos hop]
        simp only [← halias]
        cases hch : Cursor.child model cursor field join st.aliases with
        | error e => simp only [hch]; exact rfl
        | ok trip =>
          obtain ⟨cu, join1, aliases1⟩ := trip
          simp only [hch]
          have hrec := ihEnts model cu (jsOwnEntries arg) (jsOwnEntries arg') exps join1
            ⟨st.params, aliases1⟩ ⟨st'.params, aliases1⟩ (shapeEq_entries arg arg' hs) rfl hlen
          rcases hta : addPropEntriesQ f model cu (jsOwnEntries arg) exps join1
              ⟨st.params, aliases1⟩ with ⟨e⟩ | ⟨⟨x3, j3, t3⟩⟩
          · rcases htb : addPropEntriesQ f model cu (jsOwnEntries arg') exps join1
                ⟨st'.params, aliases1⟩ with ⟨e'⟩ | ⟨⟨x3', j3', t3'⟩⟩
            · rw [hta, htb] at hrec
              exact hrec
            · rw [hta, htb] at hrec
              exact (hrec : False).elim
          · rcases htb : addPropEntriesQ f model cu (jsOwnEntries arg') exps join1
                ⟨st'.params, aliases1⟩ with ⟨e'⟩ | ⟨⟨x3', j3', t3'⟩⟩
            · rw [hta, htb] at hrec
              exact (hrec : False).elim
            · rw [hta, htb] at hrec
              obtain ⟨hx3, hj3, hq3⟩ :=
                (hrec : x3 = x3' ∧ j3 = j3' ∧
                  QRel ⟨st.params, aliases1⟩ ⟨st'.params, aliases1⟩ t3 t3')
              exact ⟨hx3, hj3, QRel.step (QRel.reAlias st st' aliases1) hq3⟩
      · rw [if_neg hop, if_neg hop]
        exact rfl
    | union tn =>
      simp only [hpt]
      by_cases hop : (op == "-") = true
      · rw [if_pos hop, if_pos hop]
        simp only [← halias]
        cases hch : Cursor.child model cursor field join st.aliases with
        | error e => simp only [hch]; exact rfl
        | ok trip =>
          obtain ⟨cu, join1, aliases1⟩ := trip
          simp only [hch]
          have hrec := ihEnts model cu (jsOwnEntries arg) (jsOwnEntries arg') exps join1
            ⟨st.params, aliases1⟩ ⟨st'.params, aliases1⟩ (shapeEq_entries arg arg' hs) rfl hlen
          rcases hta : addPropEntriesQ f model cu (jsOwnEntries arg) exps join1
              ⟨st.params, aliases1⟩ with ⟨e⟩ | ⟨⟨x3, j3, t3⟩⟩
          · rcases htb : addPropEntriesQ f model cu (jsOwnEntries arg') exps join1
                ⟨st'.params, aliases1⟩ with ⟨e'⟩ | ⟨⟨x3', j3', t3'⟩⟩
            · rw [hta, htb] at hrec
              exact hrec
            · rw [hta, htb] at hrec
              exact (hrec : False).elim
          · rcases htb : addPropEntriesQ f model cu (jsOwnEntries arg') exps join1
                ⟨st'.params, aliases1⟩ with ⟨e'⟩ | ⟨⟨x3', j3', t3'⟩⟩
            · rw [hta, htb] at hrec
              exact (hrec : False).elim
            · rw [hta, htb] at hrec
              obtain ⟨hx3, hj3, hq3⟩ :=
                (hrec : x3 = x3' ∧ j3 = j3' ∧
                  QRel ⟨st.params, aliases1⟩ ⟨st'.params, aliases1⟩ t3 t3')
              exact ⟨hx3, hj3, QRel.step (QRel.reAlias st st' aliases1) hq3⟩
      · rw [if_neg hop, if_neg hop]
        exact rfl
    | fk tn =>
      simp only [hpt]
      by_cases hop : (op == "-") = true
      · rw [if_pos hop, if_pos hop]
        have heq := hasConditionsF_shape f arg arg' hs
        cases hHC : hasConditionsF f arg with
        | error e =>
          have hHC' : hasConditionsF f arg' = .error e := by rw [← heq]; exact hHC
          simp only [hHC, hHC']
          exact rfl
        | ok hc =>
          have hHC' : hasConditionsF f arg' = .ok hc := by rw [← heq]; exact hHC
          simp only [hHC, hHC']
          cases hc with
          | false =>
            simp only [Bool.false_eq_true, if_false]
            exact ⟨rfl, rfl, QRel.init halias⟩
          | true =>
            simp only [if_true]
            simp only [← halias]
            cases hch : Cursor.child model cursor field join st.aliases with
            | error e => simp only [hch]; exact rfl
            | ok trip =>
              obtain ⟨cu, join1, aliases1⟩ := trip
              simp only [hch]
              have hgw := ihGenW model cu arg arg' join1 ⟨st.params, aliases1⟩
                ⟨st'.params, aliases1⟩ hs rfl hlen
              rcases hga : generateWhereQ f model cu arg join1 ⟨st.params, aliases1⟩
                with ⟨e⟩ | ⟨⟨e1, join2, st2⟩⟩
              · rcases hgb : generateWhereQ f model cu arg' join1 ⟨st'.params, aliases1⟩
                  with ⟨e'⟩ | ⟨⟨e1', join2', st2'⟩⟩
                · rw [hga, hgb] at hgw
                  exact hgw
                · rw [hga, hgb] at hgw
                  exact (hgw : False).elim
              · rcases hgb : generateWhereQ f model cu arg' join1 ⟨st'.params, aliases1⟩
                  with ⟨e'⟩ | ⟨⟨e1', join2', st2'⟩⟩
                · rw [hga, hgb] at hgw
                  exact (hgw : False).elim
                · rw [hga, hgb] at hgw
                  obtain ⟨he, hj, hq⟩ :=
                    (hgw : e1 = e1' ∧ join2 = join2' ∧
                      QRel ⟨st.params, aliases1⟩ ⟨st'.params, aliases1⟩ st2 st2')
                  exact ⟨by rw [he], hj, QRel.step (QRel.reAlias st st' aliases1) hq⟩
      · rw [if_neg hop, if_neg hop]
        exact rfl
    | list it => simp only [hpt]; exact rfl
    | listRel en fl => simp only [hpt]; exact rfl

theorem stepConds (f : Nat) (ih : PAll f) : PConds (f + 1) := by
  obtain ⟨ihSel, ihCols, ihFlds, ihReqs, ihGenW, ihConds, ihAnd, ihOr, ihProp, ihEnts⟩ := ih
  intro model cursor conds conds' exps join st st' hf halias hlen
  cases hf with
  | nil => exact ⟨rfl, rfl, QRel.init halias⟩
  | cons h1 hrest =>
    rename_i kv kv' l l'
    obtain ⟨key, opArg⟩ := kv
    obtain ⟨key', opArg'⟩ := kv'
    obtain ⟨hk, hv⟩ := h1
    cases (show key = key' from hk)
    simp only [genCondsQ]
    by_cases hev : ((parseWhereFieldQB key).op == "every") = true
    · rw [if_pos hev, if_pos hev]
      have heq := hasConditionsF_shape f opArg opArg' hv
      cases hHC : hasConditionsF f opArg with
      | error e =>
        have hHC' : hasConditionsF f opArg' = .error e := by rw [← heq]; exact hHC
        simp only [hHC, hHC']
        exact rfl
      | ok hc =>
        have hHC' : hasConditionsF f opArg' = .ok hc := by rw [← heq]; exact hHC
        simp only [hHC, hHC']
        cases hc with
        | false =>
          simp only [Bool.false_eq_true, if_false]
          exact ihConds model cursor l l' exps join st st' hrest halias hlen
        | true =>
          simp only [if_true]
          cases hlk : cursor.object.properties.lookup (parseWhereFieldQB key).field with
          | none => simp only [hlk]; exact rfl
          | some prop =>
            simp only [hlk]
            cases hpt : prop.type with
            | listRel entity fld =>
              simp only [hpt]
              cases hni : cursor.native "id" with
              | error e => simp only [hni]; exact rfl
              | ok parentId =>
                simp only [hni]
                have hs1 := ihSel model entity ⟨none, none, none, some opArg⟩
                  ⟨none, none, none, some opArg'⟩ none none
                  (some (.listSubquery fld parentId)) st st' (argsShape_opArg hv)
                  .none halias hlen
                rcases ha1 : selectQ f model entity ⟨none, none, none, some opArg⟩ none
                    (some (.listSubquery fld parentId)) st with ⟨e⟩ | ⟨⟨condFrom, st1⟩⟩
                · rcases hb1 : selectQ f model entity ⟨none, none, none, some opArg'⟩ none
                      (some (.listSubquery fld parentId)) st' with ⟨e'⟩ | ⟨⟨condFrom', st1'⟩⟩
                  · rw [ha1, hb1] at hs1
                    exact hs1
                  · rw [ha1, hb1] at hs1
                    exact (hs1 : False).elim
                · rcases hb1 : selectQ f model entity ⟨none, none, none, some opArg'⟩ none
                      (some (.listSubquery fld parentId)) st' with ⟨e'⟩ | ⟨⟨condFrom', st1'⟩⟩
                  · rw [ha1, hb1] at hs1
                    exact (hs1 : False).elim
                  · rw [ha1, hb1] at hs1
                    obtain ⟨hcf, hq1⟩ := (hs1 : condFrom = condFrom' ∧ QRel st st' st1 st1')
                    subst hcf
                    show triOut st st'
                      (match selectQ f model entity ⟨none, none, none, none⟩ none
                          (some (.listSubquery fld parentId)) st1 with
                        | Except.error e => Except.error e
                        | Except.ok (allFrom, st2) =>
                          genCondsQ f model cursor l
                            (exps ++ ["(SELECT count(*) " ++ condFrom ++
                              ") = (SELECT count(*) " ++ allFrom ++ ")"]) join st2)
                      (match selectQ f model entity ⟨none, none, none, none⟩ none
                          (some (.listSubquery fld parentId)) st1' with
                        | Except.error e => Except.error e
                        | Except.ok (allFrom, st2) =>
                          genCondsQ f model cursor l'
                            (exps ++ ["(SELECT count(*) " ++ condFrom ++
                              ") = (SELECT count(*) " ++ allFrom ++ ")"]) join st2)
                    have hs2 := ihSel model entity ⟨none, none, none, none⟩
                      ⟨none, none, none, none⟩ none none
                      (some (.listSubquery fld parentId)) st1 st1' argsShape_default
                      .none hq1.1 (QRel.len hlen hq1)
                    rcases ha2 : selectQ f model entity ⟨none, none, none, none⟩ none
                        (some (.listSubquery fld parentId)) st1 with ⟨e⟩ | ⟨⟨allFrom, st2⟩⟩
                    · rcases hb2 : selectQ f model entity ⟨none, none, none, none⟩ none
                          (some (.listSubquery fld parentId)) st1'
                          with ⟨e'⟩ | ⟨⟨allFrom', st2'⟩⟩
                      · rw [ha2, hb2] at hs2
                        exact hs2
                      · rw [ha2, hb2] at hs2
                        exact (hs2 : False).elim
                    · rcases hb2 : selectQ f model entity ⟨none, none, none, none⟩ none
                          (some (.listSubquery fld parentId)) st1'
                          with ⟨e'⟩ | ⟨⟨allFrom', st2'⟩⟩
                      · rw [ha2, hb2] at hs2
                        exact (hs2 : False).elim
                      · rw [ha2, hb2] at hs2
                        obtain ⟨haf, hq2⟩ := (hs2 : allFrom = allFrom' ∧ QRel st1 st1' st2 st2')
                        subst haf
                        show triOut st st'
                          (genCondsQ f model cursor l
                            (exps ++ ["(SELECT count(*) " ++ condFrom ++
                              ") = (SELECT count(*) " ++ allFrom ++ ")"]) join st2)
                          (genCondsQ f model cursor l'
                            (exps ++ ["(SELECT count(*) " ++ condFrom ++
                              ") = (SELECT count(*) " ++ allFrom ++ ")"]) join st2')
                        have hrec := ihConds model cursor l l'
                          (exps ++ ["(SELECT count(*) " ++ condFrom ++
                            ") = (SELECT count(*) " ++ allFrom ++ ")"]) join st2 st2' hrest
                          (QRel.step hq1 hq2).1 (QRel.len hlen (QRel.step hq1 hq2))
                        rcases hta : genCondsQ f model cursor l
                            (exps ++ ["(SELECT count(*) " ++ condFrom ++
                              ") = (SELECT count(*) " ++ allFrom ++ ")"]) join st2
                            with ⟨e⟩ | ⟨⟨x3, j3, t3⟩⟩
                        · rcases htb : genCondsQ f model cursor l'
                              (exps ++ ["(SELECT count(*) " ++ condFrom ++
                                ") = (SELECT count(*) " ++ allFrom ++ ")"]) join st2'
                              with ⟨e'⟩ | ⟨⟨x3', j3', t3'⟩⟩
                          · rw [hta, htb] at hrec
                            exact hrec
                          · rw [hta, htb] at hrec
                            exact (hrec : False).elim
                        · rcases htb : genCondsQ f model cursor l'
                              (exps ++ ["(SELECT count(*) " ++ condFrom ++
                                ") = (SELECT count(*) " ++ allFrom ++ ")"]) join st2'
                              with ⟨e'⟩ | ⟨⟨x3', j3', t3'⟩⟩
                          · rw [hta, htb] at hrec
                            exact (hrec : False).elim
                          · rw [hta, htb] at hrec
                            obtain ⟨hx3, hj3, hq3⟩ :=
                              (hrec : x3 = x3' ∧ j3 = j3' ∧ QRel st2 st2' t3 t3')
                            exact ⟨hx3, hj3, QRel.step (QRel.step hq1 hq2) hq3⟩
            | scalar tn => simp only [hpt]; exact rfl
            | enum tn => simp only [hpt]; exact rfl
            | list it => simp only [hpt]; exact rfl
            | object tn => simp only [hpt]; exact rfl
            | union tn => simp only [hpt]; exact rfl
            | fk tn => simp only [hpt]; exact rfl
    · rw [if_neg hev, if_neg hev]
      by_cases hsn : ((parseWhereFieldQB key).op == "some" ||
          (parseWhereFieldQB key).op == "none") = true
      · rw [if_pos hsn, if_pos hsn]
        cases hlk : cursor.object.properties.lookup (parseWhereFieldQB key).field with
        | none => simp only [hlk]; exact rfl
        | some prop =>
          simp only [hlk]
          cases hpt : prop.type with
          | listRel entity fld =>
            simp only [hpt]
            cases hni : cursor.native "id" with
            | error e => simp only [hni]; exact rfl
            | ok parentId =>
              simp only [hni]
              have hs1 := ihSel model entity ⟨none, none, none, some opArg⟩
                ⟨none, none, none, some opArg'⟩ none none
                (some (.listSubquery fld parentId)) st st' (argsShape_opArg hv)
                .none halias hlen
              rcases ha1 : selectQ f model entity ⟨none, none, none, some opArg⟩ none
                  (some (.listSubquery fld parentId)) st with ⟨e⟩ | ⟨⟨sub, st1⟩⟩
              · rcases hb1 : selectQ f model entity ⟨none, none, none, some opArg'⟩ none
                    (some (.listSubquery fld parentId)) st' with ⟨e'⟩ | ⟨⟨sub', st1'⟩⟩
                · rw [ha1, hb1] at hs1
                  exact hs1
                · rw [ha1, hb1] at hs1
                  exact (hs1 : False).elim
              · rcases hb1 : selectQ f model entity ⟨none, none, none, some opArg'⟩ none
                    (some (.listSubquery fld parentId)) st' with ⟨e'⟩ | ⟨⟨sub', st1'⟩⟩
                · rw [ha1, hb1] at hs1
                  exact (hs1 : False).elim
                · rw [ha1, hb1] at hs1
                  obtain ⟨hsub, hq1⟩ := (hs1 : sub = sub' ∧ QRel st st' st1 st1')
                  subst hsub
                  show triOut st st'
                    (if ((parseWhereFieldQB key).op == "some") = true then
                       genCondsQ f model cursor l
                         (exps ++ ["(SELECT true " ++ sub ++ " LIMIT 1)"]) join st1
                     else
                       match aliasAdd st1.aliases key with
                       | (a, aliases1) =>
                         genCondsQ f model cursor l
                           (exps ++ ["(SELECT count(*) FROM " ++ ("(SELECT true " ++ sub ++
                             " LIMIT 1)") ++ " " ++ quoteIdent a ++ ") = 0"]) join
                           ⟨st1.params, aliases1⟩)
                    (if ((parseWhereFieldQB key).op == "some") = true then
                       genCondsQ f model cursor l'
                         (exps ++ ["(SELECT true " ++ sub ++ " LIMIT 1)"]) join st1'
                     else
                       match aliasAdd st1'.aliases key with
                       | (a, aliases1) =>
                         genCondsQ f model cursor l'
                           (exps ++ ["(SELECT count(*) FROM " ++ ("(SELECT true " ++ sub ++
                             " LIMIT 1)") ++ " " ++ quoteIdent a ++ ") = 0"]) join
                           ⟨st1'.params, aliases1⟩)
                  by_cases hso : ((parseWhereFieldQB key).op == "some") = true
                  · rw [if_pos hso, if_pos hso]
                    have hrec := ihConds model cursor l l'
                      (exps ++ ["(SELECT true " ++ sub ++ " LIMIT 1)"]) join st1 st1' hrest
                      hq1.1 (QRel.len hlen hq1)
                    rcases hta : genCondsQ f model cursor l
                        (exps ++ ["(SELECT true " ++ sub ++ " LIMIT 1)"]) join st1
                        with ⟨e⟩ | ⟨⟨x3, j3, t3⟩⟩
                    · rcases htb : genCondsQ f model cursor l'
                          (exps ++ ["(SELECT true " ++ sub ++ " LIMIT 1)"]) join st1'
                          with ⟨e'⟩ | ⟨⟨x3', j3', t3'⟩⟩
                      · rw [hta, htb] at hrec
                        exact hrec
                      · rw [hta, htb] at hrec
                        exact (hrec : False).elim
                    · rcases htb : genCondsQ f model cursor l'
                          (exps ++ ["(SELECT true " ++ sub ++ " LIMIT 1)"]) join st1'
                          with ⟨e'⟩ | ⟨⟨x3', j3', t3'⟩⟩
                      · rw [hta, htb] at hrec
                        exact (hrec : False).elim
                      · rw [hta, htb] at hrec
                        obtain ⟨hx3, hj3, hq3⟩ :=
                          (hrec : x3 = x3' ∧ j3 = j3' ∧ QRel st1 st1' t3 t3')
                        exact ⟨hx3, hj3, QRel.step hq1 hq3⟩
                  · rw [if_neg hso, if_neg hso]
                    simp only [← hq1.1]
                    rcases hAA : aliasAdd st1.aliases key with ⟨a2, aliases2⟩
                    show triOut st st'
                      (genCondsQ f model cursor l
                        (exps ++ ["(SELECT count(*) FROM " ++ ("(SELECT true " ++ sub ++
                          " LIMIT 1)") ++ " " ++ quoteIdent a2 ++ ") = 0"]) join
                        ⟨st1.params, aliases2⟩)
                      (genCondsQ f model cursor l'
                        (exps ++ ["(SELECT count(*) FROM " ++ ("(SELECT true " ++ sub ++
                          " LIMIT 1)") ++ " " ++ quoteIdent a2 ++ ") = 0"]) join
                        ⟨st1'.params, aliases2⟩)
                    have hrec := ihConds model cursor l l'
                      (exps ++ ["(SELECT count(*) FROM " ++ ("(SELECT true " ++ sub ++
                        " LIMIT 1)") ++ " " ++ quoteIdent a2 ++ ") = 0"]) join
                      ⟨st1.params, aliases2⟩ ⟨st1'.params, aliases2⟩ hrest rfl
                      (QRel.len hlen (QRel.step hq1 (QRel.reAlias st1 st1' aliases2)))
                    rcases hta : genCondsQ f model cursor l
                        (exps ++ ["(SELECT count(*) FROM " ++ ("(SELECT true " ++ sub ++
                          " LIMIT 1)") ++ " " ++ quoteIdent a2 ++ ") = 0"]) join
                        ⟨st1.params, aliases2⟩ with ⟨e⟩ | ⟨⟨x3, j3, t3⟩⟩
                    · rcases htb : genCondsQ f model cursor l'
                          (exps ++ ["(SELECT count(*) FROM " ++ ("(SELECT true " ++ sub ++
                            " LIMIT 1)") ++ " " ++ quoteIdent a2 ++ ") = 0"]) join
                          ⟨st1'.params, aliases2⟩ with ⟨e'⟩ | ⟨⟨x3', j3', t3'⟩⟩
                      · rw [hta, htb] at hrec
                        exact hrec
                      · rw [hta, htb] at hrec
                        exact (hrec : False).elim
                    · rcases htb : genCondsQ f model cursor l'
                          (exps ++ ["(SELECT count(*) FROM " ++ ("(SELECT true " ++ sub ++
                            " LIMIT 1)") ++ " " ++ quoteIdent a2 ++ ") = 0"]) join
                          ⟨st1'.params, aliases2⟩ with ⟨e'⟩ | ⟨⟨x3', j3', t3'⟩⟩
                      · rw [hta, htb] at hrec
                        exact (hrec : False).elim
                      · rw [hta, htb] at hrec
                        obtain ⟨hx3, hj3, hq3⟩ :=
                          (hrec : x3 = x3' ∧ j3 = j3' ∧
                            QRel ⟨st1.params, aliases2⟩ ⟨st1'.params, aliases2⟩ t3 t3')
                        exact ⟨hx3, hj3,
                          QRel.step (QRel.step hq1 (QRel.reAlias st1 st1' aliases2)) hq3⟩
          | scalar tn => simp only [hpt]; exact rfl
          | enum tn => simp only [hpt]; exact rfl
          | list it => simp only [hpt]; exact rfl
          | object tn => simp only [hpt]; exact rfl
          | union tn => simp only [hpt]; exact rfl
          | fk tn => simp only [hpt]; exact rfl
      · rw [if_neg hsn, if_neg hsn]
        cases hlk : cursor.object.properties.lookup (parseWhereFieldQB key).field with
        | none => simp only [hlk]; exact rfl
        | some prop =>
          simp only [hlk]
          have hpc := ihProp model cursor (parseWhereFieldQB key).field
            (parseWhereFieldQB key).op opArg opArg' exps join st st' hv halias hlen
          rcases hpa : addPropConditionQ f model cursor (parseWhereFieldQB key).field
              (parseWhereFieldQB key).op opArg exps join st with ⟨e⟩ | ⟨⟨x1, j1, t1⟩⟩
          · rcases hpb : addPropConditionQ f model cursor (parseWhereFieldQB key).field
                (parseWhereFieldQB key).op opArg' exps join st' with ⟨e'⟩ | ⟨⟨x1', j1', t1'⟩⟩
            · rw [hpa, hpb] at hpc
              exact hpc
            · rw [hpa, hpb] at hpc
              exact (hpc : False).elim
          · rcases hpb : addPropConditionQ f model cursor (parseWhereFieldQB key).field
                (parseWhereFieldQB key).op opArg' exps join st' with ⟨e'⟩ | ⟨⟨x1', j1', t1'⟩⟩
            · rw [hpa, hpb] at hpc
              exact (hpc : False).elim
            · rw [hpa, hpb] at hpc
              obtain ⟨hx, hj, hq⟩ := (hpc : x1 = x1' ∧ j1 = j1' ∧ QRel st st' t1 t1')
              subst hx
              subst hj
              have hrec := ihConds model cursor l l' x1 j1 t1 t1' hrest hq.1
                (QRel.len hlen hq)
              show triOut st st' (genCondsQ f model cursor l x1 j1 t1)
                (genCondsQ f model cursor l' x1 j1 t1')
              rcases hta : genCondsQ f model cursor l x1 j1 t1 with ⟨e⟩ | ⟨⟨x3, j3, t3⟩⟩
              · rcases htb : genCondsQ f model cursor l' x1 j1 t1' with ⟨e'⟩ | ⟨⟨x3', j3', t3'⟩⟩
                · rw [hta, htb] at hrec
                  exact hrec
                · rw [hta, htb] at hrec
                  exact (hrec : False).elim
              · rcases htb : genCondsQ f model cursor l' x1 j1 t1' with ⟨e'⟩ | ⟨⟨x3', j3', t3'⟩⟩
                · rw [hta, htb] at hrec
                  exact (hrec : False).elim
                · rw [hta, htb] at hrec
                  obtain ⟨hx3, hj3, hq3⟩ := (hrec : x3 = x3' ∧ j3 = j3' ∧ QRel t1 t1' t3 t3')
                  exact ⟨hx3, hj3, QRel.step hq hq3⟩

theorem OptArgsRel_getD {g g' : Option ListArgs} (h : OptArgsRel g g') :
    argsShape (g.getD ⟨none, none, none, none⟩) (g'.getD ⟨none, none, none, none⟩) = true := by
  cases g with
  | none =>
    cases g' with
    | none => exact argsShape_default
    | some b => exact (h : False).elim
  | some a =>
    cases g' with
    | none => exact (h : False).elim
    | some b => exact h

theorem stepReqs (f : Nat) (ih : PAll f) : PReqs (f + 1) := by
  obtain ⟨ihSel, ihCols, ihFlds, ihReqs, ihGenW, ihConds, ihAnd, ihOr, ihProp, ihEnts⟩ := ih
  intro model cursor fieldName pt reqs reqs' cols join st st' hf halias hlen
  cases hf with
  | nil => exact ⟨rfl, rfl, QRel.init halias⟩
  | cons h1 hrest =>
    rename_i req req' rs rs'
    cases h1 with
    | mk hc hg =>
      rename_i a c c' g g' t i
      cases pt with
      | scalar n =>
        simp only [populateReqsQ]
        cases htr : cursor.transport fieldName with
        | error e => simp only [htr]; exact rfl
        | ok tcol =>
          simp only [htr]
          rcases hca : columnsAdd cols tcol with ⟨n1, cols1⟩
          show triOut st st'
            (populateReqsQ f model cursor fieldName (.scalar n) rs cols1 join st)
            (populateReqsQ f model cursor fieldName (.scalar n) rs' cols1 join st')
          exact ihReqs model cursor fieldName (.scalar n) rs rs' cols1 join st st' hrest
            halias hlen
      | enum n =>
        simp only [populateReqsQ]
        cases htr : cursor.transport fieldName with
        | error e => simp only [htr]; exact rfl
        | ok tcol =>
          simp only [htr]
          rcases hca : columnsAdd cols tcol with ⟨n1, cols1⟩
          show triOut st st'
            (populateReqsQ f model cursor fieldName (.enum n) rs cols1 join st)
            (populateReqsQ f model cursor fieldName (.enum n) rs' cols1 join st')
          exact ihReqs model cursor fieldName (.enum n) rs rs' cols1 join st st' hrest
            halias hlen
      | list it =>
        simp only [populateReqsQ]
        cases htr : cursor.transport fieldName with
        | error e => simp only [htr]; exact rfl
        | ok tcol =>
          simp only [htr]
          rcases hca : columnsAdd cols tcol with ⟨n1, cols1⟩
          show triOut st st'
            (populateReqsQ f model cursor fieldName (.list it) rs cols1 join st)
            (populateReqsQ f model cursor fieldName (.list it) rs' cols1 join st')
          exact ihReqs model cursor fieldName (.list it) rs rs' cols1 join st st' hrest
            halias hlen
      | object n =>
        simp only [populateReqsQ, FieldRequest.children]
        cases hfe : cursor.fieldExp fieldName with
        | error e => simp only [hfe]; exact rfl
        | ok fx =>
          simp only [hfe]
          rcases hca : columnsAdd cols (fx ++ " IS NULL") with ⟨n1, cols1⟩
          show triOut st st'
            (match Cursor.child model cursor fieldName join st.aliases with
              | Except.error e => Except.error e
              | Except.ok (cu, join1, aliases1) =>
                match populateColumnsQ f model cu c cols1 join1 ⟨st.params, aliases1⟩ with
                | Except.error e => Except.error e
                | Except.ok (cols2, join2, st2) =>
                  populateReqsQ f model cursor fieldName (.object n) rs cols2 join2 st2)
            (match Cursor.child model cursor fieldName join st'.aliases with
              | Except.error e => Except.error e
              | Except.ok (cu, join1, aliases1) =>
                match populateColumnsQ f model cu c' cols1 join1 ⟨st'.params, aliases1⟩ with
                | Except.error e => Except.error e
                | Except.ok (cols2, join2, st2) =>
                  populateReqsQ f model cursor fieldName (.object n) rs' cols2 join2 st2)
          simp only [← halias]
          rcases hch : Cursor.child model cursor fieldName join st.aliases
            with ⟨e⟩ | ⟨⟨cu, join1, aliases1⟩⟩
          · exact rfl
          · show triOut st st'
              (match populateColumnsQ f model cu c cols1 join1 ⟨st.params, aliases1⟩ with
                | Except.error e => Except.error e
                | Except.ok (cols2, join2, st2) =>
                  populateReqsQ f model cursor fieldName (.object n) rs cols2 join2 st2)
              (match populateColumnsQ f model cu c' cols1 join1 ⟨st'.params, aliases1⟩ with
                | Except.error e => Except.error e
                | Except.ok (cols2, join2, st2) =>
                  populateReqsQ f model cursor fieldName (.object n) rs' cols2 join2 st2)
            have hpc := ihCols model cu c c' cols1 join1 ⟨st.params, aliases1⟩
              ⟨st'.params, aliases1⟩ hc rfl hlen
            rcases hma : populateColumnsQ f model cu c cols1 join1 ⟨st.params, aliases1⟩
              with ⟨e⟩ | ⟨⟨cols2, join2, st2⟩⟩
            · rcases hmb : populateColumnsQ f model cu c' cols1 join1 ⟨st'.params, aliases1⟩
                with ⟨e'⟩ | ⟨⟨cols2', join2', st2'⟩⟩
              · rw [hma, hmb] at hpc
                exact hpc
              · rw [hma, hmb] at hpc
                exact (hpc : False).elim
            · rcases hmb : populateColumnsQ f model cu c' cols1 join1 ⟨st'.params, aliases1⟩
                with ⟨e'⟩ | ⟨⟨cols2', join2', st2'⟩⟩
              · rw [hma, hmb] at hpc
                exact (hpc : False).elim
              · rw [hma, hmb] at hpc
                obtain ⟨hcc, hjj, hq⟩ := (hpc : cols2 = cols2' ∧ join2 = join2' ∧
                  QRel ⟨st.params, aliases1⟩ ⟨st'.params, aliases1⟩ st2 st2')
                subst hcc
                subst hjj
                have hrec := ihReqs model cursor fieldName (.object n) rs rs' cols2 join2
                  st2 st2' hrest hq.1
                  (QRel.len hlen (QRel.step (QRel.reAlias st st' aliases1) hq))
                show triOut st st'
                  (populateReqsQ f model cursor fieldName (.object n) rs cols2 join2 st2)
                  (populateReqsQ f model cursor fieldName (.object n) rs' cols2 join2 st2')
                rcases hta : populateReqsQ f model cursor fieldName (.object n) rs cols2
                    join2 st2 with ⟨e⟩ | ⟨⟨x3, j3, t3⟩⟩
                · rcases htb : populateReqsQ f model cursor fieldName (.object n) rs' cols2
                      join2 st2' with ⟨e'⟩ | ⟨⟨x3', j3', t3'⟩⟩
                  · rw [hta, htb] at hrec
                    exact hrec
                  · rw [hta, htb] at hrec
                    exact (hrec : False).elim
                · rcases htb : populateReqsQ f model cursor fieldName (.object n) rs' cols2
                      join2 st2' with ⟨e'⟩ | ⟨⟨x3', j3', t3'⟩⟩
                  · rw [hta, htb] at hrec
                    exact (hrec : False).elim
                  · rw [hta, htb] at hrec
                    obtain ⟨hx3, hj3, hq3⟩ :=
                      (hrec : x3 = x3' ∧ j3 = j3' ∧ QRel st2 st2' t3 t3')
                    exact ⟨hx3, hj3,
                      QRel.step (QRel.step (QRel.reAlias st st' aliases1) hq) hq3⟩
      | union n =>
        simp only [populateReqsQ, FieldRequest.children]
        simp only [← halias]
        rcases hch : Cursor.child model cursor fieldName join st.aliases
          with ⟨e⟩ | ⟨⟨cu, join1, aliases1⟩⟩
        · exact rfl
        · show triOut st st'
            (match cu.transport "isTypeOf" with
              | Except.error e => Except.error e
              | Except.ok tcol =>
                match columnsAdd cols tcol with
                | (n1, cols1) =>
                  match populateColumnsQ f model cu c cols1 join1 ⟨st.params, aliases1⟩ with
                  | Except.error e => Except.error e
                  | Except.ok (cols2, join2, st2) =>
                    populateReqsQ f model cursor fieldName (.union n) rs cols2 join2 st2)
            (match cu.transport "isTypeOf" with
              | Except.error e => Except.error e
              | Except.ok tcol =>
                match columnsAdd cols tcol with
                | (n1, cols1) =>
                  match populateColumnsQ f model cu c' cols1 join1 ⟨st'.params, aliases1⟩ with
                  | Except.error e => Except.error e
                  | Except.ok (cols2, join2, st2) =>
                    populateReqsQ f model cursor fieldName (.union n) rs' cols2 join2 st2)
          cases htr : cu.transport "isTypeOf" with
          | error e => simp only [htr]; exact rfl
          | ok tcol =>
            simp only [htr]
            rcases hca : columnsAdd cols tcol with ⟨n1, cols1⟩
            show triOut st st'
              (match populateColumnsQ f model cu c cols1 join1 ⟨st.params, aliases1⟩ with
                | Except.error e => Except.error e
                | Except.ok (cols2, join2, st2) =>
                  populateReqsQ f model cursor fieldName (.union n) rs cols2 join2 st2)
              (match populateColumnsQ f model cu c' cols1 join1 ⟨st'.params, aliases1⟩ with
                | Except.error e => Except.error e
                | Except.ok (cols2, join2, st2) =>
                  populateReqsQ f model cursor fieldName (.union n) rs' cols2 join2 st2)
            have hpc := ihCols model cu c c' cols1 join1 ⟨st.params, aliases1⟩
              ⟨st'.params, aliases1⟩ hc rfl hlen
            rcases hma : populateColumnsQ f model cu c cols1 join1 ⟨st.params, aliases1⟩
              with ⟨e⟩ | ⟨⟨cols2, join2, st2⟩⟩
            · rcases hmb : populateColumnsQ f model cu c' cols1 join1 ⟨st'.params, aliases1⟩
                with ⟨e'⟩ | ⟨⟨cols2', join2', st2'⟩⟩
              · rw [hma, hmb] at hpc
                exact hpc
              · rw [hma, hmb] at hpc
                exact (hpc : False).elim
            · rcases hmb : populateColumnsQ f model cu c' cols1 join1 ⟨st'.params, aliases1⟩
                with ⟨e'⟩ | ⟨⟨cols2', join2', st2'⟩⟩
              · rw [hma, hmb] at hpc
                exact (hpc : False).elim
              · rw [hma, hmb] at hpc
                obtain ⟨hcc, hjj, hq⟩ := (hpc : cols2 = cols2' ∧ join2 = join2' ∧
                  QRel ⟨st.params, aliases1⟩ ⟨st'.params, aliases1⟩ st2 st2')
                subst hcc
                subst hjj
                have hrec := ihReqs model cursor fieldName (.union n) rs rs' cols2 join2
                  st2 st2' hrest hq.1
                  (QRel.len hlen (QRel.step (QRel.reAlias st st' aliases1) hq))
                show triOut st st'
                  (populateReqsQ f model cursor fieldName (.union n) rs cols2 join2 st2)
                  (populateReqsQ f model cursor fieldName (.union n) rs' cols2 join2 st2')
                rcases hta : populateReqsQ f model cursor fieldName (.union n) rs cols2
                    join2 st2 with ⟨e⟩ | ⟨⟨x3, j3, t3⟩⟩
                · rcases htb : populateReqsQ f model cursor fieldName (.union n) rs' cols2
                      join2 st2' with ⟨e'⟩ | ⟨⟨x3', j3', t3'⟩⟩
                  · rw [hta, htb] at hrec
                    exact hrec
                  · rw [hta, htb] at hrec
                    exact (hrec : False).elim
                · rcases htb : populateReqsQ f model cursor fieldName (.union n) rs' cols2
                      join2 st2' with ⟨e'⟩ | ⟨⟨x3', j3', t3'⟩⟩
                  · rw [hta, htb] at hrec
                    exact (hrec : False).elim
                  · rw [hta, htb] at hrec
                    obtain ⟨hx3, hj3, hq3⟩ :=
                      (hrec : x3 = x3' ∧ j3 = j3' ∧ QRel st2 st2' t3 t3')
                    exact ⟨hx3, hj3,
                      QRel.step (QRel.step (QRel.reAlias st st' aliases1) hq) hq3⟩
      | fk n =>
        simp only [populateReqsQ, FieldRequest.children]
        simp only [← halias]
        rcases hch : Cursor.child model cursor fieldName join st.aliases
          with ⟨e⟩ | ⟨⟨cu, join1, aliases1⟩⟩
        · exact rfl
        · show triOut st st'
            (match cu.transport "id" with
              | Except.error e => Except.error e
              | Except.ok tcol =>
                match columnsAdd cols tcol with
                | (n1, cols1) =>
                  match populateColumnsQ f model cu c cols1 join1 ⟨st.params, aliases1⟩ with
                  | Except.error e => Except.error e
                  | Except.ok (cols2, join2, st2) =>
                    populateReqsQ f model cursor fieldName (.fk n) rs cols2 join2 st2)
            (match cu.transport "id" with
              | Except.error e => Except.error e
              | Except.ok tcol =>
                match columnsAdd cols tcol with
                | (n1, cols1) =>
                  match populateColumnsQ f model cu c' cols1 join1 ⟨st'.params, aliases1⟩ with
                  | Except.error e => Except.error e
                  | Except.ok (cols2, join2, st2) =>
                    populateReqsQ f model cursor fieldName (.fk n) rs' cols2 join2 st2)
          cases htr : cu.transport "id" with
          | error e => simp only [htr]; exact rfl
          | ok tcol =>
            simp only [htr]
            rcases hca : columnsAdd cols tcol with ⟨n1, cols1⟩
            show triOut st st'
              (match populateColumnsQ f model cu c cols1 join1 ⟨st.params, aliases1⟩ with
                | Except.error e => Except.error e
                | Except.ok (cols2, join2, st2) =>
                  populateReqsQ f model cursor fieldName (.fk n) rs cols2 join2 st2)
              (match populateColumnsQ f model cu c' cols1 join1 ⟨st'.params, aliases1⟩ with
                | Except.error e => Except.error e
                | Except.ok (cols2, join2, st2) =>
                  populateReqsQ f model cursor fieldName (.fk n) rs' cols2 join2 st2)
            have hpc := ihCols model cu c c' cols1 join1 ⟨st.params, aliases1⟩
              ⟨st'.params, aliases1⟩ hc rfl hlen
            rcases hma : populateColumnsQ f model cu c cols1 join1 ⟨st.params, aliases1⟩
              with ⟨e⟩ | ⟨⟨cols2, join2, st2⟩⟩
            · rcases hmb : populateColumnsQ f model cu c' cols1 join1 ⟨st'.params, aliases1⟩
                with ⟨e'⟩ | ⟨⟨cols2', join2', st2'⟩⟩
              · rw [hma, hmb] at hpc
                exact hpc
              · rw [hma, hmb] at hpc
                exact (hpc : False).elim
            · rcases hmb : populateColumnsQ f model cu c' cols1 join1 ⟨st'.params, aliases1⟩
                with ⟨e'⟩ | ⟨⟨cols2', join2', st2'⟩⟩
              · rw [hma, hmb] at hpc
                exact (hpc : False).elim
              · rw [hma, hmb] at hpc
                obtain ⟨hcc, hjj, hq⟩ := (hpc : cols2 = cols2' ∧ join2 = join2' ∧
                  QRel ⟨st.params, aliases1⟩ ⟨st'.params, aliases1⟩ st2 st2')
                subst hcc
                subst hjj
                have hrec := ihReqs model cursor fieldName (.fk n) rs rs' cols2 join2
                  st2 st2' hrest hq.1
                  (QRel.len hlen (QRel.step (QRel.reAlias st st' aliases1) hq))
                show triOut st st'
                  (populateReqsQ f model cursor fieldName (.fk n) rs cols2 join2 st2)
                  (populateReqsQ f model cursor fieldName (.fk n) rs' cols2 join2 st2')
                rcases hta : populateReqsQ f model cursor fieldName (.fk n) rs cols2
                    join2 st2 with ⟨e⟩ | ⟨⟨x3, j3, t3⟩⟩
                · rcases htb : populateReqsQ f model cursor fieldName (.fk n) rs' cols2
                      join2 st2' with ⟨e'⟩ | ⟨⟨x3', j3', t3'⟩⟩
                  · rw [hta, htb] at hrec
                    exact hrec
                  · rw [hta, htb] at hrec
                    exact (hrec : False).elim
                · rcases htb : populateReqsQ f model cursor fieldName (.fk n) rs' cols2
                      join2 st2' with ⟨e'⟩ | ⟨⟨x3', j3', t3'⟩⟩
                  · rw [hta, htb] at hrec
                    exact (hrec : False).elim
                  · rw [hta, htb] at hrec
                    obtain ⟨hx3, hj3, hq3⟩ :=
                      (hrec : x3 = x3' ∧ j3 = j3' ∧ QRel st2 st2' t3 t3')
                    exact ⟨hx3, hj3,
                      QRel.step (QRel.step (QRel.reAlias st st' aliases1) hq) hq3⟩
      | listRel entity fld =>
        simp only [populateReqsQ, FieldRequest.children, FieldRequest.args]
        cases hni : cursor.native "id" with
        | error e => simp only [hni]; exact rfl
        | ok parentId =>
          simp only [hni]
          have hs1 := ihSel model entity (g.getD ⟨none, none, none, none⟩)
            (g'.getD ⟨none, none, none, none⟩) c c' (some (.listSubquery fld parentId))
            st st' (OptArgsRel_getD hg) hc halias hlen
          rcases ha1 : selectQ f model entity (g.getD ⟨none, none, none, none⟩) c
              (some (.listSubquery fld parentId)) st with ⟨e⟩ | ⟨⟨sub, st1⟩⟩
          · rcases hb1 : selectQ f model entity (g'.getD ⟨none, none, none, none⟩) c'
                (some (.listSubquery fld parentId)) st' with ⟨e'⟩ | ⟨⟨sub', st1'⟩⟩
            · rw [ha1, hb1] at hs1
              exact hs1
            · rw [ha1, hb1] at hs1
              exact (hs1 : False).elim
          · rcases hb1 : selectQ f model entity (g'.getD ⟨none, none, none, none⟩) c'
                (some (.listSubquery fld parentId)) st' with ⟨e'⟩ | ⟨⟨sub', st1'⟩⟩
            · rw [ha1, hb1] at hs1
              exact (hs1 : False).elim
            · rw [ha1, hb1] at hs1
              obtain ⟨hsub, hq1⟩ := (hs1 : sub = sub' ∧ QRel st st' st1 st1')
              subst hsub
              show triOut st st'
                (populateReqsQ f model cursor fieldName (.listRel entity fld) rs
                  (columnsAdd cols ("array(" ++ sub ++ ")")).2 join st1)
                (populateReqsQ f model cursor fieldName (.listRel entity fld) rs'
                  (columnsAdd cols ("array(" ++ sub ++ ")")).2 join st1')
              rcases hca : columnsAdd cols ("array(" ++ sub ++ ")") with ⟨n1, cols1⟩
              show triOut st st'
                (populateReqsQ f model cursor fieldName (.listRel entity fld) rs cols1
                  join st1)
                (populateReqsQ f model cursor fieldName (.listRel entity fld) rs' cols1
                  join st1')
              have hrec := ihReqs model cursor fieldName (.listRel entity fld) rs rs'
                cols1 join st1 st1' hrest hq1.1 (QRel.len hlen hq1)
              rcases hta : populateReqsQ f model cursor fieldName (.listRel entity fld)
                  rs cols1 join st1 with ⟨e⟩ | ⟨⟨x3, j3, t3⟩⟩
              · rcases htb : populateReqsQ f model cursor fieldName (.listRel entity fld)
                    rs' cols1 join st1' with ⟨e'⟩ | ⟨⟨x3', j3', t3'⟩⟩
                · rw [hta, htb] at hrec
                  exact hrec
                · rw [hta, htb] at hrec
                  exact (hrec : False).elim
              · rcases htb : populateReqsQ f model cursor fieldName (.listRel entity fld)
                    rs' cols1 join st1' with ⟨e'⟩ | ⟨⟨x3', j3', t3'⟩⟩
                · rw [hta, htb] at hrec
                  exact (hrec : False).elim
                · rw [hta, htb] at hrec
                  obtain ⟨hx3, hj3, hq3⟩ :=
                    (hrec : x3 = x3' ∧ j3 = j3' ∧ QRel st1 st1' t3 t3')
                  exact ⟨hx3, hj3, QRel.step hq1 hq3⟩

theorem stepGenW (f : Nat) (ih : PAll f) : PGenW (f + 1) := by
  obtain ⟨ihSel, ihCols, ihFlds, ihReqs, ihGenW, ihConds, ihAnd, ihOr, ihProp, ihEnts⟩ := ih
  intro model cursor w w' join st st' hs halias hlen
  have horpart : ∀ (exps2 : List String) (join2 : JoinSt) (st2 st2' : QState),
      QRel st st' st2 st2' →
      whOut st st'
        (match w.getProp "OR" with
          | some o =>
            if o.truthy then
              match genOrQ f model cursor (ensureArray o)
                  ["(" ++ String.intercalate " AND " exps2 ++ ")"] join2 st2 with
              | Except.error e => Except.error e
              | Except.ok (ors, join3, st3) =>
                Except.ok ("(" ++ String.intercalate " OR " ors ++ ")", join3, st3)
            else Except.ok (String.intercalate " AND " exps2, join2, st2)
          | none => Except.ok (String.intercalate " AND " exps2, join2, st2))
        (match w'.getProp "OR" with
          | some o =>
            if o.truthy then
              match genOrQ f model cursor (ensureArray o)
                  ["(" ++ String.intercalate " AND " exps2 ++ ")"] join2 st2' with
              | Except.error e => Except.error e
              | Except.ok (ors, join3, st3) =>
                Except.ok ("(" ++ String.intercalate " OR " ors ++ ")", join3, st3)
            else Except.ok (String.intercalate " AND " exps2, join2, st2')
          | none => Except.ok (String.intercalate " AND " exps2, join2, st2')) := by
    intro exps2 join2 st2 st2' hq2
    have hO := shapeEq_getProp w w' hs "OR"
    cases hOa : w.getProp "OR" with
    | none =>
      cases hOb : w'.getProp "OR" with
      | none => exact ⟨rfl, rfl, hq2⟩
      | some o => rw [hOa, hOb] at hO; simp [shapeEqOpt] at hO
    | some o =>
      cases hOb : w'.getProp "OR" with
      | none => rw [hOa, hOb] at hO; simp [shapeEqOpt] at hO
      | some o' =>
        rw [hOa, hOb] at hO
        simp only [shapeEqOpt] at hO
        show whOut st st'
          (if o.truthy = true then
            match genOrQ f model cursor (ensureArray o)
                ["(" ++ String.intercalate " AND " exps2 ++ ")"] join2 st2 with
            | Except.error e => Except.error e
            | Except.ok (ors, join3, st3) =>
              Except.ok ("(" ++ String.intercalate " OR " ors ++ ")", join3, st3)
          else Except.ok (String.intercalate " AND " exps2, join2, st2))
          (if o'.truthy = true then
            match genOrQ f model cursor (ensureArray o')
                ["(" ++ String.intercalate " AND " exps2 ++ ")"] join2 st2' with
            | Except.error e => Except.error e
            | Except.ok (ors, join3, st3) =>
              Except.ok ("(" ++ String.intercalate " OR " ors ++ ")", join3, st3)
          else Except.ok (String.intercalate " AND " exps2, join2, st2'))
        rw [shapeEq_truthy o o' hO]
        by_cases ht : o'.truthy = true
        · rw [if_pos ht, if_pos ht]
          have hor := ihOr model cursor (ensureArray o) (ensureArray o')
            ["(" ++ String.intercalate " AND " exps2 ++ ")"] join2 st2 st2'
            (shapeEq_ensureArray o o' hO) hq2.1 (QRel.len hlen hq2)
          rcases hga : genOrQ f model cursor (ensureArray o)
              ["(" ++ String.intercalate " AND " exps2 ++ ")"] join2 st2
              with ⟨e⟩ | ⟨⟨ors, join3, st3⟩⟩
          · rcases hgb : genOrQ f model cursor (ensureArray o')
                ["(" ++ String.intercalate " AND " exps2 ++ ")"] join2 st2'
                with ⟨e'⟩ | ⟨⟨ors', join3', st3'⟩⟩
            · rw [hga, hgb] at hor
              exact hor
            · rw [hga, hgb] at hor
              exact (hor : False).elim
          · rcases hgb : genOrQ f model cursor (ensureArray o')
                ["(" ++ String.intercalate " AND " exps2 ++ ")"] join2 st2'
                with ⟨e'⟩ | ⟨⟨ors', join3', st3'⟩⟩
            · rw [hga, hgb] at hor
              exact (hor : False).elim
            · rw [hga, hgb] at hor
              obtain ⟨ho, hj, hq3⟩ := (hor : ors = ors' ∧ join3 = join3' ∧
                QRel st2 st2' st3 st3')
              exact ⟨by rw [ho], hj, QRel.step hq2 hq3⟩
        · rw [if_neg ht, if_neg ht]
          exact ⟨rfl, rfl, hq2⟩
  simp only [generateWhereQ]
  have hcf := forall2_filter_andor (shapeEq_entries w w' hs)
  have hcq := ihConds model cursor
    ((jsOwnEntries w).filter (fun kv => !(kv.1 == "AND") && !(kv.1 == "OR")))
    ((jsOwnEntries w').filter (fun kv => !(kv.1 == "AND") && !(kv.1 == "OR")))
    [] join st st' hcf halias hlen
  rcases hma : genCondsQ f model cursor
      ((jsOwnEntries w).filter (fun kv => !(kv.1 == "AND") && !(kv.1 == "OR")))
      [] join st with ⟨e⟩ | ⟨⟨exps1, join1, st1⟩⟩
  · rcases hmb : genCondsQ f model cursor
        ((jsOwnEntries w').filter (fun kv => !(kv.1 == "AND") && !(kv.1 == "OR")))
        [] join st' with ⟨e'⟩ | ⟨⟨exps1', join1', st1'⟩⟩
    · rw [hma, hmb] at hcq
      exact hcq
    · rw [hma, hmb] at hcq
      exact (hcq : False).elim
  · rcases hmb : genCondsQ f model cursor
        ((jsOwnEntries w').filter (fun kv => !(kv.1 == "AND") && !(kv.1 == "OR")))
        [] join st' with ⟨e'⟩ | ⟨⟨exps1', join1', st1'⟩⟩
    · rw [hma, hmb] at hcq
      exact (hcq : False).elim
    · rw [hma, hmb] at hcq
      obtain ⟨he1, hj1, hq1⟩ := (hcq : exps1 = exps1' ∧ join1 = join1' ∧
        QRel st st' st1 st1')
      subst he1
      subst hj1
      show whOut st st'
        (match (match w.getProp "AND" with
            | some a =>
              if a.truthy then genAndQ f model cursor (ensureArray a) exps1 join1 st1
              else Except.ok (exps1, join1, st1)
            | none => Except.ok (exps1, join1, st1) :
              Except String (List String × JoinSt × QState)) with
          | Except.error e => Except.error e
          | Except.ok (exps2, join2, st2) =>
            match w.getProp "OR" with
            | some o =>
              if o.truthy then
                match genOrQ f model cursor (ensureArray o)
                    ["(" ++ String.intercalate " AND " exps2 ++ ")"] join2 st2 with
                | Except.error e => Except.error e
                | Except.ok (ors, join3, st3) =>
                  Except.ok ("(" ++ String.intercalate " OR " ors ++ ")", join3, st3)
              else Except.ok (String.intercalate " AND " exps2, join2, st2)
            | none => Except.ok (String.intercalate " AND " exps2, join2, st2))
        (match (match w'.getProp "AND" with
            | some a =>
              if a.truthy then genAndQ f model cursor (ensureArray a) exps1 join1 st1'
              else Except.ok (exps1, join1, st1')
            | none => Except.ok (exps1, join1, st1') :
              Except String (List String × JoinSt × QState)) with
          | Except.error e => Except.error e
          | Except.ok (exps2, join2, st2) =>
            match w'.getProp "OR" with
            | some o =>
              if o.truthy then
                match genOrQ f model cursor (ensureArray o)
                    ["(" ++ String.intercalate " AND " exps2 ++ ")"] join2 st2 with
                | Except.error e => Except.error e
                | Except.ok (ors, join3, st3) =>
                  Except.ok ("(" ++ String.intercalate " OR " ors ++ ")", join3, st3)
              else Except.ok (String.intercalate " AND " exps2, join2, st2)
            | none => Except.ok (String.intercalate " AND " exps2, join2, st2))
      have hA := shapeEq_getProp w w' hs "AND"
      cases hAa : w.getProp "AND" with
      | none =>
        cases hAb : w'.getProp "AND" with
        | none => exact horpart exps1 join1 st1 st1' hq1
        | some b => rw [hAa, hAb] at hA; simp [shapeEqOpt] at hA
      | some a =>
        cases hAb : w'.getProp "AND" with
        | none => rw [hAa, hAb] at hA; simp [shapeEqOpt] at hA
        | some a' =>
          rw [hAa, hAb] at hA
          simp only [shapeEqOpt] at hA
          show whOut st st'
            (match (if a.truthy = true then
                genAndQ f model cursor (ensureArray a) exps1 join1 st1
              else Except.ok (exps1, join1, st1) :
                Except String (List String × JoinSt × QState)) with
              | Except.error e => Except.error e
              | Except.ok (exps2, join2, st2) =>
                match w.getProp "OR" with
                | some o =>
                  if o.truthy then
                    match genOrQ f model cursor (ensureArray o)
                        ["(" ++ String.intercalate " AND " exps2 ++ ")"] join2 st2 with
                    | Except.error e => Except.error e
                    | Except.ok (ors, join3, st3) =>
                      Except.ok ("(" ++ String.intercalate " OR " ors ++ ")", join3, st3)
                  else Except.ok (String.intercalate " AND " exps2, join2, st2)
                | none => Except.ok (String.intercalate " AND " exps2, join2, st2))
            (match (if a'.truthy = true then
                genAndQ f model cursor (ensureArray a') exps1 join1 st1'
              else Except.ok (exps1, join1, st1') :
                Except String (List String × JoinSt × QState)) with
              | Except.error e => Except.error e
              | Except.ok (exps2, join2, st2) =>
                match w'.getProp "OR" with
                | some o =>
                  if o.truthy then
                    match genOrQ f model cursor (ensureArray o)
                        ["(" ++ String.intercalate " AND " exps2 ++ ")"] join2 st2 with
                    | Except.error e => Except.error e
                    | Except.ok (ors, join3, st3) =>
                      Except.ok ("(" ++ String.intercalate " OR " ors ++ ")", join3, st3)
                  else Except.ok (String.intercalate " AND " exps2, join2, st2)
                | none => Except.ok (String.intercalate " AND " exps2, join2, st2))
          rw [shapeEq_truthy a a' hA]
          by_cases ht : a'.truthy = true
          · rw [if_pos ht, if_pos ht]
            have hand := ihAnd model cursor (ensureArray a) (ensureArray a') exps1 join1
              st1 st1' (shapeEq_ensureArray a a' hA) hq1.1 (QRel.len hlen hq1)
            rcases hga : genAndQ f model cursor (ensureArray a) exps1 join1 st1
                with ⟨e⟩ | ⟨⟨exps2, join2, st2⟩⟩
            · rcases hgb : genAndQ f model cursor (ensureArray a') exps1 join1 st1'
                  with ⟨e'⟩ | ⟨⟨exps2', join2', st2'⟩⟩
              · rw [hga, hgb] at hand
                exact hand
              · rw [hga, hgb] at hand
                exact (hand : False).elim
            · rcases hgb : genAndQ f model cursor (ensureArray a') exps1 join1 st1'
                  with ⟨e'⟩ | ⟨⟨exps2', join2', st2'⟩⟩
              · rw [hga, hgb] at hand
                exact (hand : False).elim
              · rw [hga, hgb] at hand
                obtain ⟨he2, hj2, hq2⟩ := (hand : exps2 = exps2' ∧ join2 = join2' ∧
                  QRel st1 st1' st2 st2')
                subst he2
                subst hj2
                exact horpart exps2 join2 st2 st2' (QRel.step hq1 hq2)
          · rw [if_neg ht, if_neg ht]
            exact horpart exps1 join1 st1 st1' hq1

/-- Rendering tail of `select` (joins, where, order by, limit,
offset), factored out verbatim so the two-run relation can be stated
about a named term. -/
def selFin (args : ListArgs) (variant : Option SelectVariant) (out0 : String)
    (whereExps3 orderByExps : List String) (join3 : JoinSt) (st4 : QState) :
    Except String (String × QState) :=
  let out1 := out0 ++ (if join3.isEmpty then "" else joinRender join3)
  let out2 := out1 ++ (if whereExps3.length ≠ 0 then
      "\nWHERE " ++ String.intercalate " AND " whereExps3 else "")
  let out3 := out2 ++ (if orderByExps.length > 0 then
      "\nORDER BY " ++ String.intercalate ", " orderByExps else "")
  let limPair :=
    if optNumTruthy args.limit then
      (out3 ++ "\nLIMIT " ++ (param (.vnum (args.limit.getD ⟨0, 0⟩)) st4).1,
       (param (.vnum (args.limit.getD ⟨0, 0⟩)) st4).2)
    else (out3, st4)
  let offPair :=
    if optNumTruthy args.offset then
      (limPair.1 ++ "\nOFFSET " ++ (param (.vnum (args.offset.getD ⟨0, 0⟩)) limPair.2).1,
       (param (.vnum (args.offset.getD ⟨0, 0⟩)) limPair.2).2)
    else limPair
  let out6 :=
    match variant with
    | some (.listSubquery _ _) => newlinesToSpaces offPair.1
    | _ => offPair.1
  .ok (out6, offPair.2)

/-- Order-by step of `select` followed by the rendering tail. -/
def selTail2 (fuel : Nat) (model : Model) (cursor : Cursor) (args : ListArgs)
    (variant : Option SelectVariant) (entityName : String) (out0 : String)
    (whereExps3 : List String) (join2 : JoinSt) (st3 : QState) :
    Except String (String × QState) :=
  match (match args.orderBy with
    | some obs =>
      if obs.length ≠ 0 then
        match parseOrderBy model entityName obs with
        | .error e => .error e
        | .ok ob => populateOrderByQ fuel model cursor ob [] join2 st3
      else .ok ([], join2, st3)
    | none => .ok ([], join2, st3) :
      Except String (List String × JoinSt × QState)) with
  | .error e => .error e
  | .ok (orderByExps, join3, st4) =>
    selFin args variant out0 whereExps3 orderByExps join3 st4

/-- Variant-specific correlation/full-text where-expressions of
`select`, followed by the order-by step and the rendering tail. -/
def selTailW (fuel : Nat) (model : Model) (cursor : Cursor) (args : ListArgs)
    (variant : Option SelectVariant) (entityName : String) (out0 : String)
    (whereExps1 : List String) (join2 : JoinSt) (st3 : QState) :
    Except String (String × QState) :=
  let whereExps2 :=
    match variant with
    | some (.listSubquery field parent) =>
      whereExps1 ++ [cursor.fk field ++ " = " ++ parent]
    | _ => whereExps1
  let whereExps3E : Except String (List String) :=
    match variant with
    | some (.fts queryName textParam) =>
      match cursor.tsv queryName with
      | .ok tsv => .ok (whereExps2 ++
          ["phraseto_tsquery('english', " ++ textParam ++ ") @@ " ++ tsv])
      | .error e => .error e
    | _ => .ok whereExps2
  match whereExps3E with
  | .error e => .error e
  | .ok whereExps3 =>
    selTail2 fuel model cursor args variant entityName out0 whereExps3 join2 st3

/-- Where-clause tail of `select`, factored out verbatim. -/
def selTail (fuel : Nat) (model : Model) (cursor : Cursor) (args : ListArgs)
    (variant : Option SelectVariant) (entityName : String) (out0 : String)
    (join1 : JoinSt) (st2 : QState) : Except String (String × QState) :=
  match hasConditionsF fuel (args.whr.getD .vnull) with
  | .error e => .error e
  | .ok hc =>
    match (if hc then
        match generateWhereQ fuel model cursor (args.whr.getD .vnull) join1 st2 with
        | .error e => .error e
        | .ok (w, j, s) => .ok ([w], j, s)
      else .ok ([], join1, st2) :
        Except String (List String × JoinSt × QState)) with
    | .error e => .error e
    | .ok (whereExps1, join2, st3) =>
      selTailW fuel model cursor args variant entityName out0 whereExps1 join2 st3

/-- Head construction of `select` (per variant), followed by the
where-clause tail. -/
def selAfterCols (fuel : Nat) (model : Model) (cursor : Cursor) (args : ListArgs)
    (variant : Option SelectVariant) (entityName table als : String)
    (columns : List String) (join1 : JoinSt) (st2 : QState) :
    Except String (String × QState) :=
  let headE : Except String String :=
    match variant with
    | some (.fts queryName textParam) =>
      match cursor.tsv queryName, cursor.doc queryName with
      | .ok tsv, .ok doc =>
        .ok ("SELECT\n    '" ++ entityName ++ "' AS isTypeOf" ++ ",\n" ++
          "    ts_rank(" ++ tsv ++ ", phraseto_tsquery('english', " ++ textParam ++
          ")) AS rank" ++ ",\n" ++
          "    ts_headline(" ++ doc ++ ", phraseto_tsquery('english', " ++ textParam ++
          ")) AS highlight" ++ ",\n" ++
          (if columns.length ≠ 0 then
            "    json_build_array(" ++ columnsRender columns ++ ")"
           else "    '[]'::json") ++ " AS item\n")
      | .error e, _ => .error e
      | _, .error e => .error e
    | some (.listSubquery _ _) =>
      .ok (if columns.length ≠ 0 then
        "SELECT json_build_array(" ++ columnsRender columns ++ ") " else "")
    | none =>
      .ok (if columns.length ≠ 0 then
        "SELECT " ++ columnsRender columns ++ "\n" else "")
  match headE with
  | .error e => .error e
  | .ok head =>
    selTail fuel model cursor args variant entityName
      (head ++ "FROM " ++ quoteIdent table ++ " " ++ quoteIdent als) join1 st2

theorem selFin_rel (args args' : ListArgs) (variant : Option SelectVariant)
    (out0 : String) (whereExps3 orderByExps : List String) (join3 : JoinSt)
    {st st' : QState} (st4 st4' : QState)
    (hlim : optNumTruthy args.limit = optNumTruthy args'.limit)
    (hoff : optNumTruthy args.offset = optNumTruthy args'.offset)
    (hlen : st.params.length = st'.params.length)
    (hq : QRel st st' st4 st4') :
    selOut st st' (selFin args variant out0 whereExps3 orderByExps join3 st4)
      (selFin args' variant out0 whereExps3 orderByExps join3 st4') := by
  obtain ⟨hp1s, hp1q⟩ := param_rel hlen hq (Value.vnum (args.limit.getD ⟨0, 0⟩))
    (Value.vnum (args'.limit.getD ⟨0, 0⟩))
  obtain ⟨hp2s, hp2q⟩ := param_rel hlen hp1q (Value.vnum (args.offset.getD ⟨0, 0⟩))
    (Value.vnum (args'.offset.getD ⟨0, 0⟩))
  obtain ⟨hp3s, hp3q⟩ := param_rel hlen hq (Value.vnum (args.offset.getD ⟨0, 0⟩))
    (Value.vnum (args'.offset.getD ⟨0, 0⟩))
  simp only [selFin, ← hlim, ← hoff]
  cases hl : optNumTruthy args.limit with
  | false =>
    cases ho : optNumTruthy args.offset with
    | false =>
      simp only [Bool.false_eq_true, if_false]
      exact ⟨rfl, hq⟩
    | true =>
      simp only [Bool.false_eq_true, if_false, eq_self_iff_true, if_true]
      exact ⟨by rw [hp3s], hp3q⟩
  | true =>
    cases ho : optNumTruthy args.offset with
    | false =>
      simp only [Bool.false_eq_true, if_false, eq_self_iff_true, if_true]
      exact ⟨by rw [hp1s], hp1q⟩
    | true =>
      simp only [eq_self_iff_true, if_true]
      exact ⟨by rw [hp1s, hp2s], hp2q⟩

theorem selTail2_rel (f : Nat) (model : Model) (cursor : Cursor)
    (args args' : ListArgs) (variant : Option SelectVariant) (en : String)
    (out0 : String) (whereExps3 : List String) (join2 : JoinSt)
    {st st' : QState} (st3 st3' : QState)
    (hargs : argsShape args args' = true)
    (hlen : st.params.length = st'.params.length)
    (hq : QRel st st' st3 st3') :
    selOut st st' (selTail2 f model cursor args variant en out0 whereExps3 join2 st3)
      (selTail2 f model cursor args' variant en out0 whereExps3 join2 st3') := by
  obtain ⟨hoff, hlim, hob, hwhr⟩ := argsShape_destruct hargs
  simp only [selTail2]
  simp only [← hob]
  cases hObs : args.orderBy with
  | none =>
    exact selFin_rel args args' variant out0 whereExps3 [] join2 st3 st3' hlim hoff hlen hq
  | some obs =>
    show selOut st st'
      (match (if obs.length ≠ 0 then
          match parseOrderBy model en obs with
          | Except.error e => Except.error e
          | Except.ok ob => populateOrderByQ f model cursor ob [] join2 st3
        else Except.ok ([], join2, st3) :
          Except String (List String × JoinSt × QState)) with
        | Except.error e => Except.error e
        | Except.ok (orderByExps, join3, st4) =>
          selFin args variant out0 whereExps3 orderByExps join3 st4)
      (match (if obs.length ≠ 0 then
          match parseOrderBy model en obs with
          | Except.error e => Except.error e
          | Except.ok ob => populateOrderByQ f model cursor ob [] join2 st3'
        else Except.ok ([], join2, st3') :
          Except String (List String × JoinSt × QState)) with
        | Except.error e => Except.error e
        | Except.ok (orderByExps, join3, st4) =>
          selFin args' variant out0 whereExps3 orderByExps join3 st4)
    by_cases hlen0 : obs.length ≠ 0
    · rw [if_pos hlen0, if_pos hlen0]
      cases hPO : parseOrderBy model en obs with
      | error e => exact rfl
      | ok ob =>
        show selOut st st'
          (match populateOrderByQ f model cursor ob [] join2 st3 with
            | Except.error e => Except.error e
            | Except.ok (orderByExps, join3, st4) =>
              selFin args variant out0 whereExps3 orderByExps join3 st4)
          (match populateOrderByQ f model cursor ob [] join2 st3' with
            | Except.error e => Except.error e
            | Except.ok (orderByExps, join3, st4) =>
              selFin args' variant out0 whereExps3 orderByExps join3 st4)
        have hrel := populateOrderByQ_rel f model cursor ob [] join2 st3 st3' hq.1
        rcases hpa : populateOrderByQ f model cursor ob [] join2 st3
          with ⟨e⟩ | ⟨⟨obE, join3, st4⟩⟩
        · rcases hpb : populateOrderByQ f model cursor ob [] join2 st3'
            with ⟨e'⟩ | ⟨⟨obE', join3', st4'⟩⟩
          · rw [hpa, hpb] at hrel
            have he : e = e' := hrel
            subst he
            exact rfl
          · rw [hpa, hpb] at hrel
            exact (hrel : False).elim
        · rcases hpb : populateOrderByQ f model cursor ob [] join2 st3'
            with ⟨e'⟩ | ⟨⟨obE', join3', st4'⟩⟩
          · rw [hpa, hpb] at hrel
            exact (hrel : False).elim
          · rw [hpa, hpb] at hrel
            obtain ⟨hE, hJ, hq4⟩ :=
              (hrel : obE = obE' ∧ join3 = join3' ∧ QRel st3 st3' st4 st4')
            subst hE
            subst hJ
            exact selFin_rel args args' variant out0 whereExps3 obE join3 st4 st4'
              hlim hoff hlen (QRel.step hq hq4)
    · rw [if_neg hlen0, if_neg hlen0]
      exact selFin_rel args args' variant out0 whereExps3 [] join2 st3 st3' hlim hoff hlen hq

theorem selTailW_rel (f : Nat) (model : Model) (cursor : Cursor)
    (args args' : ListArgs) (variant : Option SelectVariant) (en : String)
    (out0 : String) (whereExps1 : List String) (join2 : JoinSt)
    {st st' : QState} (st3 st3' : QState)
    (hargs : argsShape args args' = true)
    (hlen : st.params.length = st'.params.length)
    (hq : QRel st st' st3 st3') :
    selOut st st' (selTailW f model cursor args variant en out0 whereExps1 join2 st3)
      (selTailW f model cursor args' variant en out0 whereExps1 join2 st3') := by
  simp only [selTailW]
  cases variant with
  | none =>
    exact selTail2_rel f model cursor args args' none en out0 whereExps1 join2 st3 st3'
      hargs hlen hq
  | some sv =>
    cases sv with
    | listSubquery field parent =>
      exact selTail2_rel f model cursor args args' (some (.listSubquery field parent)) en
        out0 (whereExps1 ++ [cursor.fk field ++ " = " ++ parent]) join2 st3 st3' hargs hlen hq
    | fts queryName textParam =>
      show selOut st st'
        (match (match cursor.tsv queryName with
            | Except.ok tsv => Except.ok (whereExps1 ++
                ["phraseto_tsquery('english', " ++ textParam ++ ") @@ " ++ tsv])
            | Except.error e => Except.error e : Except String (List String)) with
          | Except.error e => Except.error e
          | Except.ok whereExps3 =>
            selTail2 f model cursor args (some (.fts queryName textParam)) en out0
              whereExps3 join2 st3)
        (match (match cursor.tsv queryName with
            | Except.ok tsv => Except.ok (whereExps1 ++
                ["phraseto_tsquery('english', " ++ textParam ++ ") @@ " ++ tsv])
            | Except.error e => Except.error e : Except String (List String)) with
          | Except.error e => Except.error e
          | Except.ok whereExps3 =>
            selTail2 f model cursor args' (some (.fts queryName textParam)) en out0
              whereExps3 join2 st3')
      cases htsv : cursor.tsv queryName with
      | error e => exact rfl
      | ok tsv =>
        exact selTail2_rel f model cursor args args' (some (.fts queryName textParam)) en
          out0 (whereExps1 ++
            ["phraseto_tsquery('english', " ++ textParam ++ ") @@ " ++ tsv])
          join2 st3 st3' hargs hlen hq

theorem selTail_rel (f : Nat) (model : Model) (cursor : Cursor)
    (args args' : ListArgs) (variant : Option SelectVariant) (en : String)
    (out0 : String) (join1 : JoinSt) {st st' : QState} (st2 st2' : QState)
    (hgw : PGenW f)
    (hargs : argsShape args args' = true)
    (hlen : st.params.length = st'.params.length)
    (hq : QRel st st' st2 st2') :
    selOut st st' (selTail f model cursor args variant en out0 join1 st2)
      (selTail f model cursor args' variant en out0 join1 st2') := by
  obtain ⟨hoff, hlim, hob, hwhr⟩ := argsShape_destruct hargs
  have hCE : hasConditionsF f (args.whr.getD .vnull) =
      hasConditionsF f (args'.whr.getD .vnull) :=
    hasConditionsF_shape f _ _ (shapeEqOpt_getD hwhr)
  simp only [selTail]
  simp only [← hCE]
  cases hHC : hasConditionsF f (args.whr.getD .vnull) with
  | error e => exact rfl
  | ok hc =>
    show selOut st st'
      (match (if hc then
          match generateWhereQ f model cursor (args.whr.getD Value.vnull) join1 st2 with
          | Except.error e => Except.error e
          | Except.ok (w, j, s) => Except.ok ([w], j, s)
        else Except.ok ([], join1, st2) :
          Except String (List String × JoinSt × QState)) with
        | Except.error e => Except.error e
        | Except.ok (whereExps1, join2, st3) =>
          selTailW f model cursor args variant en out0 whereExps1 join2 st3)
      (match (if hc then
          match generateWhereQ f model cursor (args'.whr.getD Value.vnull) join1 st2' with
          | Except.error e => Except.error e
          | Except.ok (w, j, s) => Except.ok ([w], j, s)
        else Except.ok ([], join1, st2') :
          Except String (List String × JoinSt × QState)) with
        | Except.error e => Except.error e
        | Except.ok (whereExps1, join2, st3) =>
          selTailW f model cursor args' variant en out0 whereExps1 join2 st3)
    cases hc with
    | false =>
      exact selTailW_rel f model cursor args args' variant en out0 [] join1 st2 st2'
        hargs hlen hq
    | true =>
      have hgwr := hgw model cursor (args.whr.getD .vnull) (args'.whr.getD .vnull)
        join1 st2 st2' (shapeEqOpt_getD hwhr) hq.1 (QRel.len hlen hq)
      rcases hga : generateWhereQ f model cursor (args.whr.getD Value.vnull) join1 st2
        with ⟨e⟩ | ⟨⟨w, j, s⟩⟩
      · rcases hgb : generateWhereQ f model cursor (args'.whr.getD Value.vnull) join1 st2'
          with ⟨e'⟩ | ⟨⟨w', j', s'⟩⟩
        · rw [hga, hgb] at hgwr
          have he : e = e' := hgwr
          subst he
          exact rfl
        · rw [hga, hgb] at hgwr
          exact (hgwr : False).elim
      · rcases hgb : generateWhereQ f model cursor (args'.whr.getD Value.vnull) join1 st2'
          with ⟨e'⟩ | ⟨⟨w', j', s'⟩⟩
        · rw [hga, hgb] at hgwr
          exact (hgwr : False).elim
        · rw [hga, hgb] at hgwr
          obtain ⟨hW, hJ, hqs⟩ := (hgwr : w = w' ∧ j = j' ∧ QRel st2 st2' s s')
          subst hW
          subst hJ
          exact selTailW_rel f model cursor args args' variant en out0 [w] j s s'
            hargs hlen (QRel.step hq hqs)

theorem selAfterCols_rel (f : Nat) (model : Model) (cursor : Cursor)
    (args args' : ListArgs) (variant : Option SelectVariant) (en table als : String)
    (columns : List String) (join1 : JoinSt) {st st' : QState} (st2 st2' : QState)
    (hgw : PGenW f)
    (hargs : argsShape args args' = true)
    (hlen : st.params.length = st'.params.length)
    (hq : QRel st st' st2 st2') :
    selOut st st'
      (selAfterCols f model cursor args variant en table als columns join1 st2)
      (selAfterCols f model cursor args' variant en table als columns join1 st2') := by
  simp only [selAfterCols]
  cases variant with
  | none =>
    exact selTail_rel f model cursor args args' none en _ join1 st2 st2' hgw hargs hlen hq
  | some sv =>
    cases sv with
    | listSubquery a b =>
      exact selTail_rel f model cursor args args' (some (.listSubquery a b)) en _ join1
        st2 st2' hgw hargs hlen hq
    | fts qn tp =>
      show selOut st st'
        (match (match cursor.tsv qn, cursor.doc qn with
            | Except.ok tsv, Except.ok doc =>
              Except.ok ("SELECT\n    '" ++ en ++ "' AS isTypeOf" ++ ",\n" ++
                "    ts_rank(" ++ tsv ++ ", phraseto_tsquery('english', " ++ tp ++
                ")) AS rank" ++ ",\n" ++
                "    ts_headline(" ++ doc ++ ", phraseto_tsquery('english', " ++ tp ++
                ")) AS highlight" ++ ",\n" ++
                (if columns.length ≠ 0 then
                  "    json_build_array(" ++ columnsRender columns ++ ")"
                 else "    '[]'::json") ++ " AS item\n")
            | Except.error e, _ => Except.error e
            | _, Except.error e => Except.error e : Except String String) with
          | Except.error e => Except.error e
          | Except.ok head =>
            selTail f model cursor args (some (.fts qn tp)) en
              (head ++ "FROM " ++ quoteIdent table ++ " " ++ quoteIdent als) join1 st2)
        (match (match cursor.tsv qn, cursor.doc qn with
            | Except.ok tsv, Except.ok doc =>
              Except.ok ("SELECT\n    '" ++ en ++ "' AS isTypeOf" ++ ",\n" ++
                "    ts_rank(" ++ tsv ++ ", phraseto_tsquery('english', " ++ tp ++
                ")) AS rank" ++ ",\n" ++
                "    ts_headline(" ++ doc ++ ", phraseto_tsquery('english', " ++ tp ++
                ")) AS highlight" ++ ",\n" ++
                (if columns.length ≠ 0 then
                  "    json_build_array(" ++ columnsRender columns ++ ")"
                 else "    '[]'::json") ++ " AS item\n")
            | Except.error e, _ => Except.error e
            | _, Except.error e => Except.error e : Except String String) with
          | Except.error e => Except.error e
          | Except.ok head =>
            selTail f model cursor args' (some (.fts qn tp)) en
              (head ++ "FROM " ++ quoteIdent table ++ " " ++ quoteIdent als) join1 st2')
      cases htsv : cursor.tsv qn with
      | error e =>
        cases hdoc : cursor.doc qn with
        | error e2 => exact rfl
        | ok doc => exact rfl
      | ok tsv =>
        cases hdoc : cursor.doc qn with
        | error e => exact rfl
        | ok doc =>
          exact selTail_rel f model cursor args args' (some (.fts qn tp)) en _ join1
            st2 st2' hgw hargs hlen hq

theorem stepSel (f : Nat) (ih : PAll f) : PSel (f + 1) := by
  obtain ⟨ihSel, ihCols, ihFlds, ihReqs, ihGenW, ihConds, ihAnd, ihOr, ihProp, ihEnts⟩ := ih
  intro model en args args' fields fields' variant st st' hargs hfs halias hlen
  simp only [selectQ]
  simp only [← halias]
  cases hE : getEntity model en with
  | error e => exact rfl
  | ok props =>
    show selOut st st'
      (match populateColumnsQ f model
          ⟨⟨true, props⟩, (aliasAdd st.aliases (toTable en)).1, ""⟩ fields [] []
          ⟨st.params, (aliasAdd st.aliases (toTable en)).2⟩ with
        | Except.error e => Except.error e
        | Except.ok (columns, join1, st2) =>
          selAfterCols f model
            ⟨⟨true, props⟩, (aliasAdd st.aliases (toTable en)).1, ""⟩ args variant en
            (toTable en) (aliasAdd st.aliases (toTable en)).1 columns join1 st2)
      (match populateColumnsQ f model
          ⟨⟨true, props⟩, (aliasAdd st.aliases (toTable en)).1, ""⟩ fields' [] []
          ⟨st'.params, (aliasAdd st.aliases (toTable en)).2⟩ with
        | Except.error e => Except.error e
        | Except.ok (columns, join1, st2) =>
          selAfterCols f model
            ⟨⟨true, props⟩, (aliasAdd st.aliases (toTable en)).1, ""⟩ args' variant en
            (toTable en) (aliasAdd st.aliases (toTable en)).1 columns join1 st2)
    have hcols := ihCols model ⟨⟨true, props⟩, (aliasAdd st.aliases (toTable en)).1, ""⟩
      fields fields' [] [] ⟨st.params, (aliasAdd st.aliases (toTable en)).2⟩
      ⟨st'.params, (aliasAdd st.aliases (toTable en)).2⟩ hfs rfl hlen
    rcases hca : populateColumnsQ f model
        ⟨⟨true, props⟩, (aliasAdd st.aliases (toTable en)).1, ""⟩ fields [] []
        ⟨st.params, (aliasAdd st.aliases (toTable en)).2⟩
      with ⟨e⟩ | ⟨⟨columns, join1, st2⟩⟩
    · rcases hcb : populateColumnsQ f model
          ⟨⟨true, props⟩, (aliasAdd st.aliases (toTable en)).1, ""⟩ fields' [] []
          ⟨st'.params, (aliasAdd st.aliases (toTable en)).2⟩
        with ⟨e'⟩ | ⟨⟨columns', join1', st2'⟩⟩
      · rw [hca, hcb] at hcols
        have he : e = e' := hcols
        subst he
        exact rfl
      · rw [hca, hcb] at hcols
        exact (hcols : False).elim
    · rcases hcb : populateColumnsQ f model
          ⟨⟨true, props⟩, (aliasAdd st.aliases (toTable en)).1, ""⟩ fields' [] []
          ⟨st'.params, (aliasAdd st.aliases (toTable en)).2⟩
        with ⟨e'⟩ | ⟨⟨columns', join1', st2'⟩⟩
      · rw [hca, hcb] at hcols
        exact (hcols : False).elim
      · rw [hca, hcb] at hcols
        obtain ⟨hC, hJ, hq2⟩ := (hcols : columns = columns' ∧ join1 = join1' ∧
          QRel ⟨st.params, (aliasAdd st.aliases (toTable en)).2⟩
            ⟨st'.params, (aliasAdd st.aliases (toTable en)).2⟩ st2 st2')
        subst hC
        subst hJ
        exact selAfterCols_rel f model
          ⟨⟨true, props⟩, (aliasAdd st.aliases (toTable en)).1, ""⟩ args args' variant en
          (toTable en) (aliasAdd st.aliases (toTable en)).1 columns join1 st2 st2'
          ihGenW hargs hlen
          (QRel.step (QRel.reAlias st st' (aliasAdd st.aliases (toTable en)).2) hq2)

theorem mutualRel : ∀ fuel, PAll fuel := by
  intro fuel
  induction fuel with
  | zero => exact pAllZero
  | succ f ih =>
    exact ⟨stepSel f ih, stepCols f ih, stepFlds f ih, stepReqs f ih, stepGenW f ih,
      stepConds f ih, stepAnd f ih, stepOr f ih, stepProp f ih, stepEnts f ih⟩

mutual

theorem shapeEq_refl : ∀ v : Value, shapeEq v v = true
  | .vnull => rfl
  | .vbool b => by simp [shapeEq]
  | .vnum n => by simp [shapeEq]
  | .vstr s => by simp [shapeEq]
  | .varr xs => by simp [shapeEq, shapeEqList_refl xs]
  | .vobj kvs => by simp [shapeEq, shapeEqFields_refl kvs]

theorem shapeEqList_refl : ∀ xs : List Value, shapeEqList xs xs = true
  | [] => rfl
  | x :: rest => by simp [shapeEqList, shapeEq_refl x, shapeEqList_refl rest]

theorem shapeEqFields_refl : ∀ xs : List (String × Value), shapeEqFields xs xs = true
  | [] => rfl
  | (k, v) :: rest => by simp [shapeEqFields, shapeEq_refl v, shapeEqFields_refl rest]

end

theorem shapeEqOpt_refl : ∀ o : Option Value, shapeEqOpt o o = true
  | none => rfl
  | some v => shapeEq_refl v

theorem argsShape_refl (a : ListArgs) : argsShape a a = true := by
  simp [argsShape, shapeEqOpt_refl]

theorem optArgsRel_refl : ∀ g : Option ListArgs, OptArgsRel g g
  | none => trivial
  | some a => argsShape_refl a

mutual

theorem rfShape_refl : ∀ fs : RFields, RfShape fs fs
  | .mk fields => .mk (rflShape_refl fields)

theorem rflShape_refl : ∀ xs : List (String × RField), RflShape xs xs
  | [] => .nil
  | (_, f) :: rest => .cons (rfdShape_refl f) (rflShape_refl rest)

theorem rfdShape_refl : ∀ f : RField, RfdShape f f
  | .mk _ rs => .mk (reqlShape_refl rs)

theorem reqlShape_refl : ∀ rs : List FieldRequest, ReqlShape rs rs
  | [] => .nil
  | r :: rest => .cons (reqShape_refl r) (reqlShape_refl rest)

theorem reqShape_refl : ∀ r : FieldRequest, ReqShape r r
  | .mk _ c g _ _ => .mk (optRfShape_refl c) (optArgsRel_refl g)

theorem optRfShape_refl : ∀ c : Option RFields, OptRfShape c c
  | none => .none
  | some f => .some (rfShape_refl f)

end

theorem shapeEq_vnull_iff {a b : Value} (h : shapeEq a b = true) :
    a = Value.vnull ↔ b = Value.vnull := by
  cases a <;> cases b <;> simp_all [shapeEq]

theorem ftsLimOff_rel : ∀ {o o' : Option Value}, shapeEqOpt o o' = true →
    ∀ (tag : String) {s0 s0' : String}, s0 = s0' →
    ∀ {st st' : QState} (t t' : QState),
      st.params.length = st'.params.length → QRel st st' t t' →
      (ftsLimOff o tag s0 t).1 = (ftsLimOff o' tag s0' t').1 ∧
      QRel st st' (ftsLimOff o tag s0 t).2 (ftsLimOff o' tag s0' t').2 := by
  intro o o' ho tag s0 s0' hs0 st st' t t' hlen hq
  subst hs0
  cases o with
  | none =>
    cases o' with
    | none => exact ⟨rfl, hq⟩
    | some l' => simp [shapeEqOpt] at ho
  | some l =>
    cases o' with
    | none => simp [shapeEqOpt] at ho
    | some l' =>
      have hsh : shapeEq l l' = true := ho
      simp only [ftsLimOff]
      by_cases hn : l = Value.vnull
      · rw [if_pos hn, if_pos ((shapeEq_vnull_iff hsh).1 hn)]
        exact ⟨rfl, hq⟩
      · rw [if_neg hn, if_neg (fun h => hn ((shapeEq_vnull_iff hsh).2 h))]
        obtain ⟨hps, hpq⟩ := param_rel hlen hq l l'
        exact ⟨by rw [hps], hpq⟩

theorem ftsFin_rel (args args' : Value) (fields : FtsFields) (srcSelects : List String)
    {st st' : QState} (st2 st2' : QState)
    (hsh : shapeEq args args' = true)
    (hlen : st.params.length = st'.params.length)
    (hq : QRel st st' st2 st2') :
    selOut st st' (ftsFin args fields srcSelects st2)
      (ftsFin args' fields srcSelects st2') := by
  have halias2 : st2.aliases = st2'.aliases := hq.1
  simp only [ftsFin]
  simp only [← halias2]
  obtain ⟨hs1, hq4⟩ := ftsLimOff_rel (shapeEq_getProp args args' hsh "limit") " LIMIT "
    (rfl :
      ("SELECT " ++ String.intercalate ", "
          (["isTypeOf", "rank"] ++ (if fields.highlight then ["highlight"] else []) ++
            (match fields.item with | some _ => ["item"] | none => [])) ++ " FROM (\n\n" ++
        String.intercalate "\n\nUNION ALL\n\n" srcSelects ++ "\n\n) AS " ++
        (aliasAdd st2.aliases "tsv").1 ++ " ORDER BY rank DESC") = _)
    ⟨st2.params, (aliasAdd st2.aliases "tsv").2⟩
    ⟨st2'.params, (aliasAdd st2.aliases "tsv").2⟩ hlen
    (QRel.aliasesUpdate hq (aliasAdd st2.aliases "tsv").2)
  obtain ⟨hs2, hq5⟩ := ftsLimOff_rel (shapeEq_getProp args args' hsh "offset") " OFFSET "
    hs1 _ _ hlen hq4
  exact ⟨hs2, hq5⟩

theorem ftsSrcSelectsQ_rel (fuel : Nat) (model : Model) (queryName textParam : String)
    {args args' : Value} (hsh : shapeEq args args' = true)
    (item : Option (List (String × RFields))) :
    ∀ (sources : List FtsSource) {st st' : QState} (t t' : QState),
      st.params.length = st'.params.length → QRel st st' t t' →
      duoOut st st'
        (ftsSrcSelectsQ fuel model queryName textParam args item sources t)
        (ftsSrcSelectsQ fuel model queryName textParam args' item sources t') := by
  intro sources
  induction sources with
  | nil => intro st st' t t' hlen hq; exact ⟨rfl, hq⟩
  | cons src rest ih =>
    intro st st' t t' hlen hq
    simp only [ftsSrcSelectsQ]
    have hw : shapeEqOpt (args.getProp ("where" ++ src.entity))
        (args'.getProp ("where" ++ src.entity)) = true :=
      shapeEq_getProp args args' hsh _
    have hAS : argsShape ⟨none, none, none, args.getProp ("where" ++ src.entity)⟩
        ⟨none, none, none, args'.getProp ("where" ++ src.entity)⟩ = true := by
      simp [argsShape, hw]
    have hsel := (mutualRel fuel).1 model src.entity
      ⟨none, none, none, args.getProp ("where" ++ src.entity)⟩
      ⟨none, none, none, args'.getProp ("where" ++ src.entity)⟩
      (item.bind (fun m => m.lookup src.entity)) (item.bind (fun m => m.lookup src.entity))
      (some (.fts queryName textParam)) t t' hAS (optRfShape_refl _) hq.1 (QRel.len hlen hq)
    rcases hsa : selectQ fuel model src.entity
        ⟨none, none, none, args.getProp ("where" ++ src.entity)⟩
        (item.bind (fun m => m.lookup src.entity)) (some (.fts queryName textParam)) t
      with ⟨e⟩ | ⟨⟨sql, t1⟩⟩
    · rcases hsb : selectQ fuel model src.entity
          ⟨none, none, none, args'.getProp ("where" ++ src.entity)⟩
          (item.bind (fun m => m.lookup src.entity)) (some (.fts queryName textParam)) t'
        with ⟨e'⟩ | ⟨⟨sql', t1'⟩⟩
      · rw [hsa, hsb] at hsel
        have he : e = e' := hsel
        subst he
        exact rfl
      · rw [hsa, hsb] at hsel
        exact (hsel : False).elim
    · rcases hsb : selectQ fuel model src.entity
          ⟨none, none, none, args'.getProp ("where" ++ src.entity)⟩
          (item.bind (fun m => m.lookup src.entity)) (some (.fts queryName textParam)) t'
        with ⟨e'⟩ | ⟨⟨sql', t1'⟩⟩
      · rw [hsa, hsb] at hsel
        exact (hsel : False).elim
      · rw [hsa, hsb] at hsel
        obtain ⟨hsql, hq1⟩ := (hsel : sql = sql' ∧ QRel t t' t1 t1')
        subst hsql
        show duoOut st st'
          (match ftsSrcSelectsQ fuel model queryName textParam args item rest t1 with
            | Except.error e => Except.error e
            | Except.ok (sqls, st2) => Except.ok (sql :: sqls, st2))
          (match ftsSrcSelectsQ fuel model queryName textParam args' item rest t1' with
            | Except.error e => Except.error e
            | Except.ok (sqls, st2) => Except.ok (sql :: sqls, st2))
        have hrest := ih t1 t1' hlen (QRel.step hq hq1)
        rcases hra : ftsSrcSelectsQ fuel model queryName textParam args item rest t1
          with ⟨e⟩ | ⟨⟨sqls, t2⟩⟩
        · rcases hrb : ftsSrcSelectsQ fuel model queryName textParam args' item rest t1'
            with ⟨e'⟩ | ⟨⟨sqls', t2'⟩⟩
          · rw [hra, hrb] at hrest
            have he : e = e' := hrest
            subst he
            exact rfl
          · rw [hra, hrb] at hrest
            exact (hrest : False).elim
        · rcases hrb : ftsSrcSelectsQ fuel model queryName textParam args' item rest t1'
            with ⟨e'⟩ | ⟨⟨sqls', t2'⟩⟩
          · rw [hra, hrb] at hrest
            exact (hrest : False).elim
          · rw [hra, hrb] at hrest
            obtain ⟨hsq, hq2⟩ := (hrest : sqls = sqls' ∧ QRel st st' t2 t2')
            subst hsq
            exact ⟨rfl, hq2⟩

theorem fulltextSearchSelect_rel (fuel : Nat) (model : Model) (queryName : String)
    (args args' : Value) (fields : FtsFields) (st st' : QState)
    (hsh : shapeEq args args' = true) (halias : st.aliases = st'.aliases)
    (hlen : st.params.length = st'.params.length) :
    selOut st st' (fulltextSearchSelect fuel model queryName args fields st)
      (fulltextSearchSelect fuel model queryName args' fields st') := by
  simp only [fulltextSearchSelect]
  cases hG : getFtsQuery model queryName with
  | error e => exact rfl
  | ok sources =>
    obtain ⟨hts, htq⟩ := param_rel hlen (QRel.init halias)
      ((args.getProp "text").getD Value.vnull) ((args'.getProp "text").getD Value.vnull)
    show selOut st st'
      (match ftsSrcSelectsQ fuel model queryName
          (param ((args.getProp "text").getD Value.vnull) st).1 args fields.item sources
          (param ((args.getProp "text").getD Value.vnull) st).2 with
        | Except.error e => Except.error e
        | Except.ok (srcSelects, st2) => ftsFin args fields srcSelects st2)
      (match ftsSrcSelectsQ fuel model queryName
          (param ((args'.getProp "text").getD Value.vnull) st').1 args' fields.item sources
          (param ((args'.getProp "text").getD Value.vnull) st').2 with
        | Except.error e => Except.error e
        | Except.ok (srcSelects, st2) => ftsFin args' fields srcSelects st2)
    rw [← hts]
    have hfts := ftsSrcSelectsQ_rel fuel model queryName
      (param ((args.getProp "text").getD Value.vnull) st).1 hsh fields.item sources
      ((param ((args.getProp "text").getD Value.vnull) st).2)
      ((param ((args'.getProp "text").getD Value.vnull) st').2) hlen htq
    rcases hfa : ftsSrcSelectsQ fuel model queryName
        (param ((args.getProp "text").getD Value.vnull) st).1 args fields.item sources
        (param ((args.getProp "text").getD Value.vnull) st).2
      with ⟨e⟩ | ⟨⟨srcSelects, st2⟩⟩
    · rcases hfb : ftsSrcSelectsQ fuel model queryName
          (param ((args.getProp "text").getD Value.vnull) st).1 args' fields.item sources
          (param ((args'.getProp "text").getD Value.vnull) st').2
        with ⟨e'⟩ | ⟨⟨srcSelects', st2'⟩⟩
      · rw [hfa, hfb] at hfts
        have he : e = e' := hfts
        subst he
        exact rfl
      · rw [hfa, hfb] at hfts
        exact (hfts : False).elim
    · rcases hfb : ftsSrcSelectsQ fuel model queryName
          (param ((args.getProp "text").getD Value.vnull) st).1 args' fields.item sources
          (param ((args'.getProp "text").getD Value.vnull) st').2
        with ⟨e'⟩ | ⟨⟨srcSelects', st2'⟩⟩
      · rw [hfa, hfb] at hfts
        exact (hfts : False).elim
      · rw [hfa, hfb] at hfts
        obtain ⟨hsq, hq2⟩ := (hfts : srcSelects = srcSelects' ∧ QRel st st' st2 st2')
        subst hsq
        exact ftsFin_rel args args' fields srcSelects st2 st2' hsh hlen hq2

/-- Model with one entity and one full-text query over it, used to
instantiate the parameter-binding theorem. -/
def c1FtsModel : Model :=
  [("T", .entity [("id", .mk (.scalar "ID") false)]),
   ("search", .fts [⟨"T", ["id"]⟩])]

/-- C1: parameter binding, as noninterference.  Two runs of `select`
(and of `fulltextSearchSelect`) on inputs of equal shape — same
entity, keys, operators, orderBy, array and string lengths and
truthiness, but arbitrary literal content in the `where` values, the
pagination values and the full-text `text` — produce identical SQL
text, identical aliases, and parameter vectors extended by equally
many values.  Hence no literal value from `where`, pagination or
`text` can appear in the SQL text: every such value reaches the
statement only as a positional `$n` placeholder whose value is pushed
onto the builder's params vector. -/
theorem c1_param_binding :
    (∀ (fuel : Nat) (model : Model) (entityName : String) (args args' : ListArgs)
       (fields fields' : Option RFields) (st st' : QState),
       argsShape args args' = true → OptRfShape fields fields' →
       st.aliases = st'.aliases → st.params.length = st'.params.length →
       selOut st st' (selectQ fuel model entityName args fields none st)
         (selectQ fuel model entityName args' fields' none st')) ∧
    (∀ (fuel : Nat) (model : Model) (queryName : String) (args args' : Value)
       (fields : FtsFields) (st st' : QState),
       shapeEq args args' = true →
       st.aliases = st'.aliases → st.params.length = st'.params.length →
       selOut st st' (fulltextSearchSelect fuel model queryName args fields st)
         (fulltextSearchSelect fuel model queryName args' fields st')) :=
  ⟨fun fuel model en args args' fields fields' st st' hargs hfs halias hlen =>
    (mutualRel fuel).1 model en args args' fields fields' none st st' hargs hfs halias hlen,
   fun fuel model qn args args' fields st st' hsh halias hlen =>
    fulltextSearchSelect_rel fuel model qn args args' fields st st' hsh halias hlen⟩

theorem c1_witness :
    selOut ⟨[], []⟩ ⟨[], []⟩
      (selectQ 20 c9Model "T"
        ⟨some ⟨1, 0⟩, some ⟨5, 0⟩, none, some (Value.vobj [("id_eq", Value.vstr "aa")])⟩
        none none ⟨[], []⟩)
      (selectQ 20 c9Model "T"
        ⟨some ⟨9, 0⟩, some ⟨7, 0⟩, none, some (Value.vobj [("id_eq", Value.vstr "bb")])⟩
        none none ⟨[], []⟩) ∧
    selOut ⟨[], []⟩ ⟨[], []⟩
      (fulltextSearchSelect 20 c1FtsModel "search"
        (Value.vobj [("text", Value.vstr "xx")]) ⟨false, none⟩ ⟨[], []⟩)
      (fulltextSearchSelect 20 c1FtsModel "search"
        (Value.vobj [("text", Value.vstr "yy")]) ⟨false, none⟩ ⟨[], []⟩) :=
  ⟨c1_param_binding.1 20 c9Model "T"
    ⟨some ⟨1, 0⟩, some ⟨5, 0⟩, none, some (Value.vobj [("id_eq", Value.vstr "aa")])⟩
    ⟨some ⟨9, 0⟩, some ⟨7, 0⟩, none, some (Value.vobj [("id_eq", Value.vstr "bb")])⟩
    none none ⟨[], []⟩ ⟨[], []⟩ (by decide) .none rfl rfl,
   c1_param_binding.2 20 c1FtsModel "search"
    (Value.vobj [("text", Value.vstr "xx")]) (Value.vobj [("text", Value.vstr "yy")])
    ⟨false, none⟩ ⟨[], []⟩ ⟨[], []⟩ (by decide) rfl rfl⟩

/-! Embedding of `src/relayConnection.ts`: relay cursor
encoding/decoding.  `Buffer.from(·, 'utf-8').toString('base64')` and
its inverse are embedded at the byte level; `JSON.stringify` /
`JSON.parse` by a printer for the cursor shape and a recursive-descent
JSON parser producing `Value` (numbers kept exact as `JsNum`
mantissa/decimal-exponent pairs; double rounding and overflow to
`Infinity` are not modelled, so `isFinite` is identically true). -/

def b64Alphabet : List Char :=
  "ABCDEFGHIJKLMNOPQRSTUVWXYZabcdefghijklmnopqrstuvwxyz0123456789+/".data

def b64Char (i : Nat) : Char := b64Alphabet.getD i 'A'

/-- Index of a base64 alphabet character. -/
def b64Idx (c : Char) : Option Nat :=
  if 'A' ≤ c ∧ c ≤ 'Z' then some (c.toNat - 65)
  else if 'a' ≤ c ∧ c ≤ 'z' then some (c.toNat - 97 + 26)
  else if '0' ≤ c ∧ c ≤ '9' then some (c.toNat - 48 + 52)
  else if c = '+' then some 62
  else if c = '/' then some 63
  else none

/-- RFC 4648 base64 encoding of a byte list, with `=` padding, as
`Buffer.toString('base64')` produces. -/
def b64encodeChars : List Nat → List Char
  | [] => []
  | [b0] => [b64Char (b0 / 4), b64Char (b0 % 4 * 16), '=', '=']
  | [b0, b1] => [b64Char (b0 / 4), b64Char (b0 % 4 * 16 + b1 / 16),
      b64Char (b1 % 16 * 4), '=']
  | b0 :: b1 :: b2 :: rest =>
    b64Char (b0 / 4) :: b64Char (b0 % 4 * 16 + b1 / 16) ::
      b64Char (b1 % 16 * 4 + b2 / 64) :: b64Char (b2 % 64) :: b64encodeChars rest

/-- Byte reassembly from 6-bit groups (a trailing group of one
character is dropped, as Node does). -/
def b64decodeGroups : List Nat → List Nat
  | i0 :: i1 :: i2 :: i3 :: rest =>
    (i0 * 4 + i1 / 16) :: (i1 % 16 * 16 + i2 / 4) :: (i2 % 4 * 64 + i3) ::
      b64decodeGroups rest
  | [i0, i1] => [i0 * 4 + i1 / 16]
  | [i0, i1, i2] => [i0 * 4 + i1 / 16, i1 % 16 * 16 + i2 / 4]
  | _ => []

/-- `Buffer.from(s, 'base64')`: lenient — non-alphabet characters
(including padding) are skipped. -/
def b64decode (s : String) : List Nat :=
  b64decodeGroups (s.data.filterMap b64Idx)

/-- UTF-8 bytes of one scalar value. -/
def utf8EncodeChar (c : Char) : List Nat :=
  let n := c.toNat
  if n < 128 then [n]
  else if n < 2048 then [192 + n / 64, 128 + n % 64]
  else if n < 65536 then [224 + n / 4096, 128 + n / 64 % 64, 128 + n % 64]
  else [240 + n / 262144, 128 + n / 4096 % 64, 128 + n / 64 % 64, 128 + n % 64]

def utf8EncodeList (cs : List Char) : List Nat := cs.flatMap utf8EncodeChar

/-- One multi-byte UTF-8 sequence headed by lead byte `b ≥ 0x80`:
decoded scalar and remaining bytes (malformed sequences yield U+FFFD,
as `buffer.toString('utf-8')` does). -/
def utf8Step (b : Nat) (rest : List Nat) : Char × List Nat :=
  if b < 224 then
    match rest with
    | b1 :: rest1 => (Char.ofNat ((b - 192) * 64 + (b1 - 128)), rest1)
    | [] => (Char.ofNat 65533, [])
  else if b < 240 then
    match rest with
    | b1 :: b2 :: rest2 =>
      (Char.ofNat ((b - 224) * 4096 + (b1 - 128) * 64 + (b2 - 128)), rest2)
    | _ => (Char.ofNat 65533, [])
  else
    match rest with
    | b1 :: b2 :: b3 :: rest3 =>
      (Char.ofNat ((b - 240) * 262144 + (b1 - 128) * 4096 + (b2 - 128) * 64 +
        (b3 - 128)), rest3)
    | _ => (Char.ofNat 65533, [])

/-- UTF-8 decoding, fuel-driven (one unit per decoded character; the
byte count always suffices). -/
def utf8DecodeF : Nat → List Nat → List Char
  | 0, _ => []
  | _ + 1, [] => []
  | fuel + 1, b :: rest =>
    if b < 128 then Char.ofNat b :: utf8DecodeF fuel rest
    else (utf8Step b rest).1 :: utf8DecodeF fuel (utf8Step b rest).2

def utf8Decode (bs : List Nat) : List Char := utf8DecodeF bs.length bs

/-- JSON whitespace. -/
def isJsonWs (c : Char) : Bool := c = ' ' || c = '\n' || c = '\t' || c = '\r'

def skipWs : List Char → List Char
  | [] => []
  | c :: rest => if isJsonWs c then skipWs rest else c :: rest

def takeDigits : List Char → List Char × List Char
  | [] => ([], [])
  | c :: rest =>
    if c.isDigit then
      let (ds, r) := takeDigits rest
      (c :: ds, r)
    else ([], c :: rest)

def digitsToNat (ds : List Char) : Nat :=
  ds.foldl (fun acc c => acc * 10 + (c.toNat - 48)) 0

/-- Decimal digits of a natural number (fuel-driven; `n + 1` steps
always suffice). -/
def natDigits : Nat → Nat → List Char
  | 0, _ => []
  | fuel + 1, n =>
    if n < 10 then [Char.ofNat (48 + n)]
    else natDigits fuel (n / 10) ++ [Char.ofNat (48 + n % 10)]

def natDecChars (n : Nat) : List Char := natDigits (n + 1) n

def hexVal (c : Char) : Option Nat :=
  if '0' ≤ c ∧ c ≤ '9' then some (c.toNat - 48)
  else if 'a' ≤ c ∧ c ≤ 'f' then some (c.toNat - 97 + 10)
  else if 'A' ≤ c ∧ c ≤ 'F' then some (c.toNat - 65 + 10)
  else none

/-- Body of a JSON string after the opening quote: plain characters,
`\\`-escapes and `\\u` sequences, up to the closing quote. -/
def parseStrBody : List Char → Option (List Char × List Char)
  | [] => none
  | c :: rest =>
    if c = '"' then some ([], rest)
    else if c = '\\' then
      match rest with
      | [] => none
      | e :: rest2 =>
        if e = 'u' then
          match rest2 with
          | h1 :: h2 :: h3 :: h4 :: rest3 =>
            match hexVal h1, hexVal h2, hexVal h3, hexVal h4 with
            | some a, some b, some c3, some d =>
              (match parseStrBody rest3 with
                | some (cs, r) => some (Char.ofNat (a * 4096 + b * 256 + c3 * 16 + d) :: cs, r)
                | none => none)
            | _, _, _, _ => none
          | _ => none
        else
          match (if e = '"' then some '"'
                 else if e = '\\' then some '\\'
                 else if e = '/' then some '/'
                 else if e = 'n' then some '\n'
                 else if e = 't' then some '\t'
                 else if e = 'r' then some '\r'
                 else if e = 'b' then some (Char.ofNat 8)
                 else if e = 'f' then some (Char.ofNat 12)
                 else none) with
          | some ec =>
            (match parseStrBody rest2 with
              | some (cs, r) => some (ec :: cs, r)
              | none => none)
          | none => none
    else if c.toNat < 32 then none
    else
      match parseStrBody rest with
      | some (cs, r) => some (c :: cs, r)
      | none => none

/-- Optional fraction part of a JSON number. -/
def parseFrac : List Char → Option (List Char × List Char)
  | [] => some ([], [])
  | c :: r =>
    if c = '.' then
      let (fs, r2) := takeDigits r
      if fs.isEmpty then none else some (fs, r2)
    else some ([], c :: r)

/-- Optional exponent part of a JSON number. -/
def parseExp10 : List Char → Option (Int × List Char)
  | [] => some (0, [])
  | c :: r =>
    if c = 'e' ∨ c = 'E' then
      let (sgn, r2) : Int × List Char :=
        if r.head? = some '+' then (1, r.tail)
        else if r.head? = some '-' then (-1, r.tail)
        else (1, r)
      let (es, r3) := takeDigits r2
      if es.isEmpty then none else some (sgn * (digitsToNat es : Int), r3)
    else some (0, c :: r)

/-- JSON number (int, optional fraction, optional exponent; no leading
zeros), kept exact as mantissa and decimal exponent. -/
def parseNum (input : List Char) : Option (JsNum × List Char) :=
  let (neg, rest1) : Bool × List Char :=
    if input.head? = some '-' then (true, input.tail) else (false, input)
  let (ds, rest2) := takeDigits rest1
  if ds.isEmpty then none
  else if ds.head? = some '0' && decide (1 < ds.length) then none
  else
    match parseFrac rest2 with
    | none => none
    | some (fs, rest3) =>
      match parseExp10 rest3 with
      | none => none
      | some (ex, rest4) =>
        let mantNat := digitsToNat (ds ++ fs)
        some (⟨if neg then -(mantNat : Int) else (mantNat : Int), ex - fs.length⟩, rest4)

mutual

/-- A JSON value: leading whitespace, then a string, object, array,
literal or number. -/
def parseJsonValue : Nat → List Char → Option (Value × List Char)
  | 0, _ => none
  | fuel + 1, input =>
    match skipWs input with
    | [] => none
    | c :: rest =>
      if c = '"' then
        match parseStrBody rest with
        | some (cs, r) => some (.vstr (String.mk cs), r)
        | none => none
      else if c = '\x7b' then parseJsonObj fuel (skipWs rest)
      else if c = '[' then parseJsonArr fuel (skipWs rest)
      else if c = 't' then
        match rest with
        | 'r' :: 'u' :: 'e' :: r => some (.vbool true, r)
        | _ => none
      else if c = 'f' then
        match rest with
        | 'a' :: 'l' :: 's' :: 'e' :: r => some (.vbool false, r)
        | _ => none
      else if c = 'n' then
        match rest with
        | 'u' :: 'l' :: 'l' :: r => some (.vnull, r)
        | _ => none
      else
        match parseNum (c :: rest) with
        | some (q, r) => some (.vnum q, r)
        | none => none

/-- Array tail after `[` and whitespace. -/
def parseJsonArr : Nat → List Char → Option (Value × List Char)
  | 0, _ => none
  | fuel + 1, input =>
    match input with
    | [] => none
    | c :: rest =>
      if c = ']' then some (.varr [], rest)
      else
        match parseJsonValue fuel (c :: rest) with
        | none => none
        | some (v, r) => parseJsonArrRest fuel [v] r

def parseJsonArrRest : Nat → List Value → List Char → Option (Value × List Char)
  | 0, _, _ => none
  | fuel + 1, acc, input =>
    match skipWs input with
    | [] => none
    | c :: rest =>
      if c = ',' then
        match parseJsonValue fuel rest with
        | none => none
        | some (v, r) => parseJsonArrRest fuel (acc ++ [v]) r
      else if c = ']' then some (.varr acc, rest)
      else none

/-- Object tail after the opening brace and whitespace. -/
def parseJsonObj : Nat → List Char → Option (Value × List Char)
  | 0, _ => none
  | fuel + 1, input =>
    match input with
    | [] => none
    | c :: rest =>
      if c = '\x7d' then some (.vobj [], rest)
      else if c = '"' then
        match parseStrBody rest with
        | none => none
        | some (k, r) =>
          match skipWs r with
          | [] => none
          | c2 :: r2 =>
            if c2 = ':' then
              match parseJsonValue fuel r2 with
              | none => none
              | some (v, r3) => parseJsonObjRest fuel [(String.mk k, v)] r3
            else none
      else none

def parseJsonObjRest : Nat → List (String × Value) → List Char →
    Option (Value × List Char)
  | 0, _, _ => none
  | fuel + 1, acc, input =>
    match skipWs input with
    | [] => none
    | c :: rest =>
      if c = ',' then
        match skipWs rest with
        | [] => none
        | c1 :: r =>
          if c1 = '"' then
            match parseStrBody r with
            | none => none
            | some (k, r1) =>
              match skipWs r1 with
              | [] => none
              | c2 :: r2 =>
                if c2 = ':' then
                  match parseJsonValue fuel r2 with
                  | none => none
                  | some (v, r3) => parseJsonObjRest fuel (acc ++ [(String.mk k, v)]) r3
                else none
          else none
      else if c = '\x7d' then some (.vobj acc, rest)
      else none

end

/-- Property access on a parsed object: with duplicate keys the later
entry wins, as in a JS object. -/
def objGet (kvs : List (String × Value)) (k : String) : Option Value :=
  kvs.reverse.lookup k

/-- `cursor.orderBy.every(item => typeof item == 'string')`, keeping
the strings. -/
def strItems : List Value → Option (List String)
  | [] => some []
  | .vstr s :: rest =>
    match strItems rest with
    | some ss => some (s :: ss)
    | none => none
  | _ => none

/-- The relay `Cursor` interface (named apart from the query-builder
cursor): order-by values and a numeric offset. -/
structure RelayCursor where
  orderBy : List String
  offset : JsNum
deriving DecidableEq, Repr

/-- Lower-case hexadecimal digit. -/
def hexDigit (n : Nat) : Char :=
  if n < 10 then Char.ofNat (48 + n) else Char.ofNat (87 + n)

/-- `JSON.stringify` escaping of one string character. -/
def jsonEscapeChar (c : Char) : List Char :=
  if c = '"' then ['\\', '"']
  else if c = '\\' then ['\\', '\\']
  else if c = '\n' then ['\\', 'n']
  else if c = '\r' then ['\\', 'r']
  else if c = '\t' then ['\\', 't']
  else if c.toNat = 8 then ['\\', 'b']
  else if c.toNat = 12 then ['\\', 'f']
  else if c.toNat < 32 then
    ['\\', 'u', '0', '0', hexDigit (c.toNat / 16), hexDigit (c.toNat % 16)]
  else [c]

def jsonStrChars (s : String) : List Char :=
  '"' :: (s.data.flatMap jsonEscapeChar ++ ['"'])

def arrTail (ss : List String) : List Char :=
  ss.flatMap (fun s => ',' :: jsonStrChars s)

def arrChars : List String → List Char
  | [] => []
  | s :: ss => jsonStrChars s ++ arrTail ss

/-- `JSON.stringify({orderBy, offset})` for an integer offset (the
only numbers the round-trip claim quantifies over). -/
def stringifyCursorChars (orderBy : List String) (offset : Nat) : List Char :=
  '\x7b' :: '"' :: ("orderBy".data ++ '"' :: ':' :: '[' :: (arrChars orderBy ++
    ']' :: ',' :: '"' :: ("offset".data ++ '"' :: ':' ::
      (natDecChars offset ++ ['\x7d']))))

/-- Embedding of `encodeCursor` (src/relayConnection.ts lines 20-22):
base64 of the UTF-8 bytes of the JSON text. -/
def encodeCursor (orderBy : List String) (offset : Nat) : String :=
  String.mk (b64encodeChars (utf8EncodeList (stringifyCursorChars orderBy offset)))

/-- `cursor.offset > 0` on the parsed double: the exact decimal value
`mant·10^exp10` rounds to a positive IEEE double iff it exceeds
2^(-1075) (smaller positive values round to 0, the tie at exactly
2^(-1075) included).  For a nonnegative exponent any positive mantissa
qualifies. -/
def JsNum.posDouble (q : JsNum) : Bool :=
  if 0 ≤ q.exp10 then 0 < q.mant
  else 0 < q.mant ∧ 10 ^ (-q.exp10).toNat < q.mant.natAbs * 2 ^ 1075

/-- `isFinite(cursor.offset)` on the parsed double: `JSON.parse` of a
number literal rounds the exact decimal to the nearest double, which
overflows to Infinity iff the magnitude reaches the IEEE boundary
2^1024 - 2^970 (the rounding midpoint above DBL_MAX; the tie rounds
to Infinity). -/
def JsNum.finite (q : JsNum) : Bool :=
  if 0 ≤ q.exp10 then
    q.mant.natAbs * 10 ^ q.exp10.toNat < 2 ^ 1024 - 2 ^ 970
  else
    q.mant.natAbs < (2 ^ 1024 - 2 ^ 970) * 10 ^ (-q.exp10).toNat

/-- `JSON.parse(Buffer.from(value, 'base64').toString('utf-8'))`:
the parsed value, `none` on a parse error (or trailing garbage). -/
def decodedJson (value : String) : Option Value :=
  let json := utf8Decode (b64decode value)
  match parseJsonValue (json.length + 3) json with
  | none => none
  | some (v, rest) => if skipWs rest = [] then some v else none

/-- The assert chain of `decodeCursor` on the parsed JSON value:
`typeof cursor == 'object'`, `Array.isArray(cursor.orderBy)`,
`length > 0`, `every string`, `typeof offset == 'number'`,
`offset > 0`, `isFinite(offset)`; `none` when any assert throws.  A
non-object parse result (`null`, arrays aside) fails the property
accesses or the asserts, so only objects pass. -/
def cursorOfValue (v : Value) : Option RelayCursor :=
  match v with
  | .vobj kvs =>
    match objGet kvs "orderBy" with
    | some (.varr items) =>
      if 0 < items.length then
        match strItems items with
        | some obs =>
          match objGet kvs "offset" with
          | some (.vnum q) =>
            if q.posDouble then
              if q.finite then some ⟨obs, q⟩ else none
            else none
          | _ => none
        | none => none
      else none
    | _ => none
  | _ => none

/-- Embedding of `decodeCursor` (src/relayConnection.ts lines 25-41):
base64-decode, JSON-parse, then the assert chain; any failure
(including a parse error) is caught and rethrown as
`InvalidCursorValue`. -/
def decodeCursor (value : String) : Except String RelayCursor :=
  match decodedJson value with
  | some v =>
    match cursorOfValue v with
    | some c => .ok c
    | none => .error ("invalid cursor value: " ++ value)
  | none => .error ("invalid cursor value: " ++ value)

theorem b64Idx_b64Char_fin : ∀ i : Fin 64, b64Idx (b64Char i.val) = some i.val := by decide

theorem b64Idx_b64Char (i : Nat) (h : i < 64) : b64Idx (b64Char i) = some i :=
  b64Idx_b64Char_fin ⟨i, h⟩

theorem b64_roundtrip : ∀ bs : List Nat, (∀ b ∈ bs, b < 256) →
    b64decodeGroups ((b64encodeChars bs).filterMap b64Idx) = bs
  | [], _ => rfl
  | [b0], h => by
    have hb0 : b0 < 256 := h b0 (by simp)
    have h0 : b64Idx (b64Char (b0 / 4)) = some (b0 / 4) := b64Idx_b64Char _ (by omega)
    have h1 : b64Idx (b64Char (b0 % 4 * 16)) = some (b0 % 4 * 16) :=
      b64Idx_b64Char _ (by omega)
    simp only [b64encodeChars, List.filterMap_cons, h0, h1,
      show b64Idx '=' = none from rfl, List.filterMap_nil]
    simp only [b64decodeGroups]
    have : b0 / 4 * 4 + b0 % 4 * 16 / 16 = b0 := by omega
    rw [this]
  | [b0, b1], h => by
    have hb0 : b0 < 256 := h b0 (by simp)
    have hb1 : b1 < 256 := h b1 (by simp)
    have h0 : b64Idx (b64Char (b0 / 4)) = some (b0 / 4) := b64Idx_b64Char _ (by omega)
    have h1 : b64Idx (b64Char (b0 % 4 * 16 + b1 / 16)) = some (b0 % 4 * 16 + b1 / 16) :=
      b64Idx_b64Char _ (by omega)
    have h2 : b64Idx (b64Char (b1 % 16 * 4)) = some (b1 % 16 * 4) :=
      b64Idx_b64Char _ (by omega)
    simp only [b64encodeChars, List.filterMap_cons, h0, h1, h2,
      show b64Idx '=' = none from rfl, List.filterMap_nil]
    simp only [b64decodeGroups]
    have e0 : b0 / 4 * 4 + (b0 % 4 * 16 + b1 / 16) / 16 = b0 := by omega
    have e1 : (b0 % 4 * 16 + b1 / 16) % 16 * 16 + b1 % 16 * 4 / 4 = b1 := by omega
    rw [e0, e1]
  | b0 :: b1 :: b2 :: rest, h => by
    have hb0 : b0 < 256 := h b0 (by simp)
    have hb1 : b1 < 256 := h b1 (by simp)
    have hb2 : b2 < 256 := h b2 (by simp)
    have hrest := b64_roundtrip rest (fun b hb => h b
      (List.mem_cons_of_mem _ (List.mem_cons_of_mem _ (List.mem_cons_of_mem _ hb))))
    have h0 : b64Idx (b64Char (b0 / 4)) = some (b0 / 4) := b64Idx_b64Char _ (by omega)
    have h1 : b64Idx (b64Char (b0 % 4 * 16 + b1 / 16)) = some (b0 % 4 * 16 + b1 / 16) :=
      b64Idx_b64Char _ (by omega)
    have h2 : b64Idx (b64Char (b1 % 16 * 4 + b2 / 64)) = some (b1 % 16 * 4 + b2 / 64) :=
      b64Idx_b64Char _ (by omega)
    have h3 : b64Idx (b64Char (b2 % 64)) = some (b2 % 64) := b64Idx_b64Char _ (by omega)
    simp only [b64encodeChars, List.filterMap_cons, h0, h1, h2, h3]
    simp only [b64decodeGroups]
    have e0 : b0 / 4 * 4 + (b0 % 4 * 16 + b1 / 16) / 16 = b0 := by omega
    have e1 : (b0 % 4 * 16 + b1 / 16) % 16 * 16 + (b1 % 16 * 4 + b2 / 64) / 4 = b1 := by
      omega
    have e2 : (b1 % 16 * 4 + b2 / 64) % 4 * 64 + b2 % 64 = b2 := by omega
    rw [e0, e1, e2, hrest]

theorem b64_roundtrip' (bs : List Nat) (h : ∀ b ∈ bs, b < 256) :
    b64decode (String.mk (b64encodeChars bs)) = bs := b64_roundtrip bs h

theorem utf8EncodeList_ascii_length : ∀ cs : List Char, (∀ c ∈ cs, c.toNat < 128) →
    (utf8EncodeList cs).length = cs.length
  | [], _ => rfl
  | c :: rest, h => by
    have hc : c.toNat < 128 := h c (by simp)
    have hrest := utf8EncodeList_ascii_length rest (fun x hx => h x (by simp [hx]))
    simp only [utf8EncodeList, List.flatMap_cons, List.length_append, List.length_cons] at *
    rw [show utf8EncodeChar c = [c.toNat] from by simp [utf8EncodeChar, if_pos hc]]
    simp only [List.length_singleton, hrest]
    omega

theorem utf8DecodeF_ascii : ∀ (cs : List Char) (f : Nat), (∀ c ∈ cs, c.toNat < 128) →
    cs.length ≤ f → utf8DecodeF f (utf8EncodeList cs) = cs
  | [], f, _, _ => by cases f <;> rfl
  | c :: rest, f, h, hlen => by
    obtain ⟨f', rfl⟩ : ∃ f', f = f' + 1 := ⟨f - 1, by simp at hlen; omega⟩
    have hc : c.toNat < 128 := h c (by simp)
    have hrest := utf8DecodeF_ascii rest f' (fun x hx => h x (by simp [hx]))
      (by simp at hlen; omega)
    simp only [utf8EncodeList, List.flatMap_cons] at hrest ⊢
    rw [show utf8EncodeChar c = [c.toNat] from by simp [utf8EncodeChar, if_pos hc]]
    simp only [List.singleton_append]
    simp only [utf8DecodeF, if_pos hc, hrest, Char.ofNat_toNat]

theorem utf8_ascii (cs : List Char) (h : ∀ c ∈ cs, c.toNat < 128) :
    utf8Decode (utf8EncodeList cs) = cs := by
  simp only [utf8Decode]
  exact utf8DecodeF_ascii cs _ h (le_of_eq (utf8EncodeList_ascii_length cs h).symm)

theorem utf8_ascii_bytes : ∀ cs : List Char, (∀ c ∈ cs, c.toNat < 128) →
    ∀ b ∈ utf8EncodeList cs, b < 256
  | [], _ => by simp [utf8EncodeList]
  | c :: rest, h => by
    have hc : c.toNat < 128 := h c (by simp)
    have hrest := utf8_ascii_bytes rest (fun x hx => h x (by simp [hx]))
    simp only [utf8EncodeList, List.flatMap_cons] at hrest ⊢
    intro b hb
    rw [show utf8EncodeChar c = [c.toNat] from by simp [utf8EncodeChar, if_pos hc]] at hb
    rcases List.mem_append.mp hb with h1 | h2
    · simp at h1; omega
    · exact hrest b h2

theorem charDigit_toNat : ∀ m : Nat, m < 10 → (Char.ofNat (48 + m)).toNat = 48 + m := by
  intro m h
  interval_cases m <;> decide

theorem natDigits_digits : ∀ fuel n : Nat, ∀ c ∈ natDigits fuel n, c.isDigit = true := by
  intro fuel
  induction fuel with
  | zero => intro n c hc; simp [natDigits] at hc
  | succ f ih =>
    intro n c hc
    by_cases hn : n < 10
    · simp only [natDigits, if_pos hn, List.mem_singleton] at hc
      subst hc
      have : n < 10 := hn
      interval_cases n <;> decide
    · simp only [natDigits, if_neg hn, List.mem_append, List.mem_singleton] at hc
      rcases hc with hc | hc
      · exact ih (n / 10) c hc
      · subst hc
        have hm : n % 10 < 10 := Nat.mod_lt _ (by norm_num)
        generalize hg : n % 10 = m at hm
        interval_cases m <;> decide

theorem digitsToNat_natDigits : ∀ fuel n : Nat, n < 10 ^ fuel →
    digitsToNat (natDigits fuel n) = n := by
  intro fuel
  induction fuel with
  | zero => intro n h; simp at h; simp [h, natDigits, digitsToNat]
  | succ f ih =>
    intro n h
    by_cases hn : n < 10
    · simp only [natDigits, if_pos hn]
      simp only [digitsToNat, List.foldl_cons, List.foldl_nil, Nat.zero_mul, Nat.zero_add]
      rw [charDigit_toNat n hn]
      omega
    · simp only [natDigits, if_neg hn]
      have hdiv : n / 10 < 10 ^ f := by
        rw [Nat.div_lt_iff_lt_mul (by norm_num)]
        calc n < 10 ^ (f + 1) := h
        _ = 10 ^ f * 10 := by rw [Nat.pow_succ]
      have hih := ih (n / 10) hdiv
      simp only [digitsToNat, List.foldl_append, List.foldl_cons, List.foldl_nil]
      simp only [digitsToNat] at hih
      rw [hih, charDigit_toNat _ (Nat.mod_lt _ (by norm_num))]
      omega

theorem natDigits_ne_nil : ∀ fuel n : Nat, 0 < fuel → natDigits fuel n ≠ [] := by
  intro fuel n h
  cases fuel with
  | zero => omega
  | succ f =>
    by_cases hn : n < 10 <;> simp [natDigits, hn]

theorem natDigits_head_ne_zero : ∀ fuel n : Nat, 0 < n → n < 10 ^ fuel →
    (natDigits fuel n).head? ≠ some '0' := by
  intro fuel
  induction fuel with
  | zero => intro n h0 h1; simp at h1; omega
  | succ f ih =>
    intro n h0 h1
    by_cases hn : n < 10
    · simp only [natDigits, if_pos hn, List.head?_cons]
      intro hcon
      have : Char.ofNat (48 + n) = '0' := by injection hcon
      have : n < 10 := hn
      interval_cases n <;> simp_all <;> omega
    · simp only [natDigits, if_neg hn]
      have hdiv : n / 10 < 10 ^ f := by
        rw [Nat.div_lt_iff_lt_mul (by norm_num)]
        calc n < 10 ^ (f + 1) := h1
        _ = 10 ^ f * 10 := by rw [Nat.pow_succ]
      have hdiv0 : 0 < n / 10 := Nat.div_pos (by omega) (by norm_num)
      have hfuel : 0 < f := by
        by_contra hcon
        have : f = 0 := by omega
        subst this
        simp at hdiv
        omega
      have hne := natDigits_ne_nil f (n / 10) hfuel
      obtain ⟨d, ds, hds⟩ := List.exists_cons_of_ne_nil hne
      have hih := ih (n / 10) hdiv0 hdiv
      rw [hds, List.head?_cons] at hih
      rw [hds, List.cons_append, List.head?_cons]
      exact hih

theorem skipWs_cons (c : Char) (rest : List Char) (h : isJsonWs c = false) :
    skipWs (c :: rest) = c :: rest := by
  rw [skipWs.eq_def]
  simp [h]

theorem digit_not_ws (c : Char) (h : c.isDigit = true) : isJsonWs c = false := by
  simp only [isJsonWs, Bool.or_eq_false_iff, decide_eq_false_iff_not]
  refine ⟨⟨⟨?_, ?_⟩, ?_⟩, ?_⟩ <;> rintro rfl <;> simp [Char.isDigit] at h

theorem parseStrBody_plain : ∀ (cs rest : List Char),
    (∀ c ∈ cs, 32 ≤ c.toNat ∧ c ≠ '"' ∧ c ≠ '\\') →
    parseStrBody (cs ++ '"' :: rest) = some (cs, rest)
  | [], rest, _ => by
    rw [List.nil_append, parseStrBody.eq_def]
    rfl
  | c :: cs, rest, h => by
    obtain ⟨h32, hq, hb⟩ := h c (by simp)
    have hrest := parseStrBody_plain cs rest (fun x hx => h x (by simp [hx]))
    rw [List.cons_append, parseStrBody.eq_def]
    simp only [if_neg hq, if_neg hb, hrest, if_neg (show ¬c.toNat < 32 by omega)]

theorem takeDigits_append : ∀ (ds rest : List Char), (∀ c ∈ ds, c.isDigit = true) →
    (rest.head?.all (fun c => !c.isDigit) = true) →
    takeDigits (ds ++ rest) = (ds, rest)
  | [], rest, _, hrest => by
    cases rest with
    | nil => rfl
    | cons c r =>
      simp only [List.head?_cons, Option.all_some, Bool.not_eq_eq_eq_not,
        Bool.not_true] at hrest
      rw [List.nil_append, takeDigits.eq_def]
      simp [hrest]
  | d :: ds, rest, h, hrest => by
    have hd : d.isDigit = true := h d (by simp)
    have ih := takeDigits_append ds rest (fun x hx => h x (by simp [hx])) hrest
    rw [List.cons_append, takeDigits.eq_def]
    simp [hd, ih]

theorem strItems_map : ∀ ss : List String, strItems (ss.map .vstr) = some ss
  | [] => rfl
  | s :: rest => by
    simp only [List.map_cons, strItems, strItems_map rest]

theorem parseFrac_brace (r : List Char) : parseFrac ('\x7d' :: r) = some ([], '\x7d' :: r) :=
  rfl

theorem parseExp10_brace (r : List Char) :
    parseExp10 ('\x7d' :: r) = some (0, '\x7d' :: r) := rfl

theorem parseNum_nat (n : Nat) (r : List Char) (h0 : 0 < n) :
    parseNum (natDecChars n ++ '\x7d' :: r) = some (⟨(n : Int), 0⟩, '\x7d' :: r) := by
  have hne := natDigits_ne_nil (n + 1) n (by omega)
  obtain ⟨d, ds, hds⟩ := List.exists_cons_of_ne_nil hne
  have hdig := natDigits_digits (n + 1) n
  have hd : d.isDigit = true := hdig d (by rw [hds]; simp)
  have hlt : n < 10 ^ (n + 1) :=
    lt_of_lt_of_le (Nat.lt_pow_self (by norm_num) n)
      (Nat.pow_le_pow_right (by norm_num) (by omega))
  have hhead := natDigits_head_ne_zero (n + 1) n h0 hlt
  rw [hds, List.head?_cons] at hhead
  have hdz : d ≠ '0' := fun hcon => hhead (by rw [hcon])
  have hdm : d ≠ '-' := by
    intro hcon
    subst hcon
    simp [Char.isDigit] at hd
  have htd : takeDigits ((d :: ds) ++ '\x7d' :: r) = (d :: ds, '\x7d' :: r) :=
    takeDigits_append (d :: ds) ('\x7d' :: r)
      (fun x hx => hdig x (by rw [hds]; exact hx)) (by simp)
  have htd2 : takeDigits (d :: (ds ++ '\x7d' :: r)) = (d :: ds, '\x7d' :: r) := by
    rw [← List.cons_append]
    exact htd
  have hval : digitsToNat (d :: ds) = n := by
    rw [← hds]
    exact digitsToNat_natDigits (n + 1) n hlt
  simp only [natDecChars]
  rw [hds, List.cons_append]
  simp only [parseNum, List.head?_cons]
  simp [hdm, htd2, hdz, hval, parseFrac_brace, parseExp10_brace]

/-- Characters needing no JSON escape and no multi-byte UTF-8:
printable ASCII except quote and backslash. -/
def plainChar (c : Char) : Prop :=
  32 ≤ c.toNat ∧ c.toNat < 127 ∧ c ≠ '"' ∧ c ≠ '\\'

instance (c : Char) : Decidable (plainChar c) := by
  unfold plainChar
  infer_instance

theorem jsonEscapeChar_plain (c : Char) (h : plainChar c) : jsonEscapeChar c = [c] := by
  obtain ⟨h1, h2, h3, h4⟩ := h
  have hn : c ≠ '\n' := by intro hcon; subst hcon; exact absurd h1 (by decide)
  have hr : c ≠ '\r' := by intro hcon; subst hcon; exact absurd h1 (by decide)
  have ht : c ≠ '\t' := by intro hcon; subst hcon; exact absurd h1 (by decide)
  simp [jsonEscapeChar, h3, h4, hn, hr, ht, show ¬(c.toNat = 8) by omega,
    show ¬(c.toNat = 12) by omega, show ¬(c.toNat < 32) by omega]

theorem flatMap_escape_plain : ∀ cs : List Char, (∀ c ∈ cs, plainChar c) →
    cs.flatMap jsonEscapeChar = cs
  | [], _ => rfl
  | c :: rest, h => by
    simp only [List.flatMap_cons, jsonEscapeChar_plain c (h c (by simp)),
      flatMap_escape_plain rest (fun x hx => h x (by simp [hx])), List.singleton_append]

theorem jsonStrChars_plain (s : String) (h : ∀ c ∈ s.data, plainChar c) :
    jsonStrChars s = '"' :: (s.data ++ ['"']) := by
  simp only [jsonStrChars, flatMap_escape_plain s.data h]

theorem parseJsonValue_str (f : Nat) (s : String) (rest : List Char)
    (hs : ∀ c ∈ s.data, plainChar c) :
    parseJsonValue (f + 1) (jsonStrChars s ++ rest) = some (.vstr s, rest) := by
  rw [jsonStrChars_plain s hs, List.cons_append, List.append_assoc,
    List.singleton_append]
  have hsw : skipWs ('"' :: (s.data ++ '"' :: rest)) = '"' :: (s.data ++ '"' :: rest) :=
    skipWs_cons _ _ (by decide)
  have hbody := parseStrBody_plain s.data ('"' :: rest).tail
    (fun c hc => ⟨(hs c hc).1, (hs c hc).2.2.1, (hs c hc).2.2.2⟩)
  simp only [List.tail_cons] at hbody
  simp only [parseJsonValue, hsw, hbody]
  rfl

theorem parseJsonArrRest_tail : ∀ (ss : List String) (f : Nat) (acc : List Value)
    (rest : List Char), (∀ s ∈ ss, ∀ c ∈ s.data, plainChar c) → ss.length < f →
    parseJsonArrRest f acc (arrTail ss ++ ']' :: rest) =
      some (.varr (acc ++ ss.map .vstr), rest)
  | [], f, acc, rest, _, hf => by
    obtain ⟨f', rfl⟩ : ∃ f', f = f' + 1 := ⟨f - 1, by omega⟩
    have hsw : skipWs (']' :: rest) = ']' :: rest := skipWs_cons _ _ (by decide)
    simp only [arrTail, List.flatMap_nil, List.nil_append, parseJsonArrRest, hsw]
    simp

  | s :: ss, f, acc, rest, h, hf => by
    obtain ⟨f', rfl⟩ : ∃ f', f = f' + 1 := ⟨f - 1, by omega⟩
    obtain ⟨f'', rfl⟩ : ∃ f'', f' = f'' + 1 := ⟨f' - 1, by simp at hf; omega⟩
    have hs := h s (by simp)
    have hstr := parseJsonValue_str f'' s (arrTail ss ++ ']' :: rest) hs
    have hih := parseJsonArrRest_tail ss (f'' + 1) (acc ++ [.vstr s]) rest
      (fun x hx => h x (by simp [hx])) (by simp at hf; omega)
    simp only [arrTail, List.flatMap_cons, List.cons_append, List.append_assoc]
    have hsw : skipWs (',' :: (jsonStrChars s ++ (ss.flatMap (fun t => ',' :: jsonStrChars t)
        ++ ']' :: rest))) = ',' :: (jsonStrChars s ++ (ss.flatMap
        (fun t => ',' :: jsonStrChars t) ++ ']' :: rest)) := skipWs_cons _ _ (by decide)
    simp only [arrTail, List.append_assoc] at hstr hih
    rw [parseJsonArrRest.eq_def]
    show (match skipWs (',' :: (jsonStrChars s ++ ((ss.flatMap fun t => ',' :: jsonStrChars t)
        ++ ']' :: rest))) with
      | [] => none
      | c :: rest2 =>
        if c = ',' then
          match parseJsonValue (f'' + 1) rest2 with
          | none => none
          | some (v, r) => parseJsonArrRest (f'' + 1) (acc ++ [v]) r
        else if c = ']' then some (.varr acc, rest2) else none) =
      some (Value.varr (acc ++ List.map Value.vstr (s :: ss)), rest)
    rw [hsw]
    simp only [show ((',' : Char) = ',') = True by simp, if_true, hstr, hih]
    simp

theorem parseJsonArr_chars : ∀ (obs : List String) (f : Nat) (rest : List Char),
    (∀ s ∈ obs, ∀ c ∈ s.data, plainChar c) → obs.length + 1 < f →
    parseJsonArr f (arrChars obs ++ ']' :: rest) = some (.varr (obs.map .vstr), rest)
  | [], f, rest, _, hf => by
    obtain ⟨f', rfl⟩ : ∃ f', f = f' + 1 := ⟨f - 1, by omega⟩
    simp only [arrChars, List.nil_append, parseJsonArr]
    simp
  | s :: ss, f, rest, h, hf => by
    obtain ⟨f', rfl⟩ : ∃ f', f = f' + 1 := ⟨f - 1, by omega⟩
    obtain ⟨f'', rfl⟩ : ∃ f'', f' = f'' + 1 := ⟨f' - 1, by simp at hf; omega⟩
    have hs := h s (by simp)
    have hq : ∃ d ds, jsonStrChars s = d :: ds ∧ d = '"' := by
      rw [jsonStrChars_plain s hs]
      exact ⟨_, _, rfl, rfl⟩
    obtain ⟨d, ds, hds, rfl⟩ := hq
    have hstr := parseJsonValue_str f'' s (arrTail ss ++ ']' :: rest) hs
    have hrest := parseJsonArrRest_tail ss (f'' + 1) [.vstr s] rest
      (fun x hx => h x (by simp [hx])) (by simp at hf; omega)
    simp only [arrChars, List.append_assoc] at hstr ⊢
    rw [hds]
    simp only [List.cons_append, parseJsonArr]
    simp only [show (('"' : Char) = ']') = False by simp, if_false]
    rw [← List.cons_append, ← hds]
    simp only [hstr, hrest]
    simp

theorem parseJsonValue_nat (f n : Nat) (rest : List Char) (h0 : 0 < n) :
    parseJsonValue (f + 1) (natDecChars n ++ '\x7d' :: rest) =
      some (.vnum ⟨(n : Int), 0⟩, '\x7d' :: rest) := by
  have hne := natDigits_ne_nil (n + 1) n (by omega)
  obtain ⟨d, ds, hds⟩ := List.exists_cons_of_ne_nil hne
  have hd : d.isDigit = true := natDigits_digits (n + 1) n d (by rw [hds]; simp)
  have hnum := parseNum_nat n rest h0
  simp only [natDecChars] at hnum ⊢
  rw [hds, List.cons_append] at hnum ⊢
  have hq : d ≠ '"' := by intro hcon; subst hcon; exact absurd hd (by decide)
  have hbr : d ≠ '\x7b' := by intro hcon; subst hcon; exact absurd hd (by decide)
  have hbk : d ≠ '[' := by intro hcon; subst hcon; exact absurd hd (by decide)
  have htt : d ≠ 't' := by intro hcon; subst hcon; exact absurd hd (by decide)
  have hff : d ≠ 'f' := by intro hcon; subst hcon; exact absurd hd (by decide)
  have hnn : d ≠ 'n' := by intro hcon; subst hcon; exact absurd hd (by decide)
  simp only [parseJsonValue]
  rw [skipWs_cons d _ (digit_not_ws d hd)]
  simp only [if_neg hq, if_neg hbr, if_neg hbk, if_neg htt, if_neg hff, if_neg hnn, hnum]

theorem parseJson_cursor (obs : List String) (off : Nat) (f : Nat)
    (h : ∀ s ∈ obs, ∀ c ∈ s.data, plainChar c) (hoff : 0 < off)
    (hf : obs.length + 4 ≤ f) :
    parseJsonValue (f + 1) (stringifyCursorChars obs off) =
      some (.vobj [("orderBy", .varr (obs.map .vstr)),
        ("offset", .vnum ⟨(off : Int), 0⟩)], []) := by
  obtain ⟨f1, rfl⟩ : ∃ f1, f = f1 + 1 := ⟨f - 1, by omega⟩
  obtain ⟨f2, rfl⟩ : ∃ f2, f1 = f2 + 1 := ⟨f1 - 1, by omega⟩
  obtain ⟨f3, rfl⟩ : ∃ f3, f2 = f3 + 1 := ⟨f2 - 1, by omega⟩
  simp only [stringifyCursorChars]
  simp only [parseJsonValue]
  rw [skipWs_cons _ _ (by decide)]
  simp only [show (('\x7b' : Char) = '"') = False by simp, if_false,
    show (('\x7b' : Char) = '\x7b') = True by simp, if_true]
  rw [skipWs_cons _ _ (by decide)]
  simp only [parseJsonObj]
  simp only [show (('"' : Char) = '\x7d') = False by simp, if_false,
    show (('"' : Char) = '"') = True by simp, if_true]
  have hkey1 : parseStrBody ("orderBy".data ++ '"' :: ':' :: '[' :: (arrChars obs ++
      ']' :: ',' :: '"' :: ("offset".data ++ '"' :: ':' ::
        (natDecChars off ++ ['\x7d'])))) =
      some ("orderBy".data, ':' :: '[' :: (arrChars obs ++
        ']' :: ',' :: '"' :: ("offset".data ++ '"' :: ':' ::
          (natDecChars off ++ ['\x7d'])))) :=
    parseStrBody_plain _ _ (by decide)
  simp only [hkey1]
  rw [skipWs_cons _ _ (by decide)]
  simp only [show ((':' : Char) = ':') = True by simp, if_true]
  simp only [parseJsonValue]
  rw [skipWs_cons _ _ (by decide)]
  simp only [show (('[' : Char) = '"') = False by simp,
    show (('[' : Char) = '\x7b') = False by simp,
    show (('[' : Char) = '[') = True by simp, if_false, if_true]
  have hswArr : skipWs (arrChars obs ++ ']' :: ',' :: '"' :: ("offset".data ++ '"' :: ':' ::
      (natDecChars off ++ ['\x7d']))) = arrChars obs ++ ']' :: ',' :: '"' ::
      ("offset".data ++ '"' :: ':' :: (natDecChars off ++ ['\x7d'])) := by
    cases obs with
    | nil =>
      simp only [arrChars, List.nil_append]
      exact skipWs_cons _ _ (by decide)
    | cons s ss =>
      simp only [arrChars]
      rw [jsonStrChars_plain s (h s (by simp)), List.cons_append, List.cons_append]
      exact skipWs_cons _ _ (by decide)
  rw [hswArr]
  have harr := parseJsonArr_chars obs (f3 + 1) (',' :: '"' :: ("offset".data ++ '"' :: ':' ::
    (natDecChars off ++ ['\x7d']))) h (by simp at hf; omega)
  simp only [harr]
  simp only [parseJsonObjRest]
  rw [skipWs_cons _ _ (by decide)]
  simp only [show ((',' : Char) = ',') = True by simp, if_true]
  rw [skipWs_cons _ _ (by decide)]
  simp only [show (('"' : Char) = '"') = True by simp, if_true]
  have hkey2 : parseStrBody ("offset".data ++ '"' :: ':' :: (natDecChars off ++ ['\x7d'])) =
      some ("offset".data, ':' :: (natDecChars off ++ ['\x7d'])) :=
    parseStrBody_plain _ _ (by decide)
  simp only [hkey2]
  rw [skipWs_cons _ _ (by decide)]
  simp only [show ((':' : Char) = ':') = True by simp, if_true]
  have hnum : parseJsonValue (f3 + 1) (natDecChars off ++ ['\x7d']) =
      some (.vnum ⟨(off : Int), 0⟩, ['\x7d']) := parseJsonValue_nat f3 off [] hoff
  simp only [hnum]
  rw [skipWs_cons _ _ (by decide)]
  simp only [show (('\x7d' : Char) = ',') = False by simp, if_false,
    show (('\x7d' : Char) = '\x7d') = True by simp, if_true]
  rfl

theorem natDigits_ascii : ∀ fuel n : Nat, ∀ c ∈ natDigits fuel n, c.toNat < 128 := by
  intro fuel
  induction fuel with
  | zero => intro n c hc; simp [natDigits] at hc
  | succ f ih =>
    intro n c hc
    by_cases hn : n < 10
    · simp only [natDigits, if_pos hn, List.mem_singleton] at hc
      subst hc
      rw [charDigit_toNat n hn]
      omega
    · simp only [natDigits, if_neg hn, List.mem_append, List.mem_singleton] at hc
      rcases hc with hc | hc
      · exact ih (n / 10) c hc
      · subst hc
        rw [charDigit_toNat _ (Nat.mod_lt _ (by norm_num))]
        have := Nat.mod_lt n (show 0 < 10 by norm_num)
        omega

theorem jsonStr_ascii (s : String) (hs : ∀ c ∈ s.data, plainChar c) :
    ∀ c ∈ jsonStrChars s, c.toNat < 128 := by
  rw [jsonStrChars_plain s hs]
  intro c hc
  rcases List.mem_cons.mp hc with rfl | hc
  · decide
  rcases List.mem_append.mp hc with hc | hc
  · have := (hs c hc).2.1
    omega
  · rw [List.mem_singleton.mp hc]
    decide

theorem arrTail_ascii : ∀ ss : List String, (∀ s ∈ ss, ∀ c ∈ s.data, plainChar c) →
    ∀ c ∈ arrTail ss, c.toNat < 128
  | [], _ => by intro c hc; simp [arrTail] at hc
  | s :: ss, h => by
    intro c hc
    simp only [arrTail, List.flatMap_cons] at hc
    rcases List.mem_append.mp hc with hc | hc
    · rcases List.mem_cons.mp hc with rfl | hc
      · decide
      · exact jsonStr_ascii s (h s (by simp)) c hc
    · exact arrTail_ascii ss (fun x hx => h x (by simp [hx])) c (by simp [arrTail, hc])

theorem arrChars_ascii (obs : List String) (h : ∀ s ∈ obs, ∀ c ∈ s.data, plainChar c) :
    ∀ c ∈ arrChars obs, c.toNat < 128 := by
  cases obs with
  | nil => intro c hc; simp [arrChars] at hc
  | cons s ss =>
    intro c hc
    simp only [arrChars] at hc
    rcases List.mem_append.mp hc with hc | hc
    · exact jsonStr_ascii s (h s (by simp)) c hc
    · exact arrTail_ascii ss (fun x hx => h x (by simp [hx])) c hc

theorem stringify_ascii (obs : List String) (off : Nat)
    (h : ∀ s ∈ obs, ∀ c ∈ s.data, plainChar c) :
    ∀ c ∈ stringifyCursorChars obs off, c.toNat < 128 := by
  intro c hc
  simp only [stringifyCursorChars] at hc
  rcases List.mem_cons.mp hc with rfl | hc
  · decide
  rcases List.mem_cons.mp hc with rfl | hc
  · decide
  rcases List.mem_append.mp hc with hc | hc
  · exact (by decide : ∀ x ∈ "orderBy".data, Char.toNat x < 128) c hc
  rcases List.mem_cons.mp hc with rfl | hc
  · decide
  rcases List.mem_cons.mp hc with rfl | hc
  · decide
  rcases List.mem_cons.mp hc with rfl | hc
  · decide
  rcases List.mem_append.mp hc with hc | hc
  · exact arrChars_ascii obs h c hc
  rcases List.mem_cons.mp hc with rfl | hc
  · decide
  rcases List.mem_cons.mp hc with rfl | hc
  · decide
  rcases List.mem_cons.mp hc with rfl | hc
  · decide
  rcases List.mem_append.mp hc with hc | hc
  · exact (by decide : ∀ x ∈ "offset".data, Char.toNat x < 128) c hc
  rcases List.mem_cons.mp hc with rfl | hc
  · decide
  rcases List.mem_cons.mp hc with rfl | hc
  · decide
  rcases List.mem_append.mp hc with hc | hc
  · exact natDigits_ascii (off + 1) off c hc
  · rw [List.mem_singleton.mp hc]
    decide

theorem arrChars_len : ∀ obs : List String, obs.length ≤ (arrChars obs).length + 1 := by
  intro obs
  cases obs with
  | nil => simp [arrChars]
  | cons s ss =>
    have htail : ∀ tt : List String, tt.length ≤ (arrTail tt).length := by
      intro tt
      induction tt with
      | nil => simp [arrTail]
      | cons t ts ih =>
        simp only [arrTail, List.flatMap_cons, List.length_append, List.length_cons,
          List.length_cons] at ih ⊢
        have : 0 < (jsonStrChars t).length := by
          simp [jsonStrChars]
        omega
    simp only [arrChars, List.length_cons, List.length_append]
    have := htail ss
    omega

theorem strItems_eq_some_iff : ∀ items : List Value,
    (∃ obs, strItems items = some obs) ↔ ∀ x ∈ items, ∃ s, x = Value.vstr s
  | [] => by simp [strItems]
  | x :: rest => by
    constructor
    · rintro ⟨obs, hobs⟩ y hy
      cases x with
      | vstr s =>
        rcases List.mem_cons.mp hy with rfl | hy
        · exact ⟨s, rfl⟩
        · simp only [strItems] at hobs
          cases hr : strItems rest with
          | none => rw [hr] at hobs; exact Option.noConfusion hobs
          | some ss => exact (strItems_eq_some_iff rest).mp ⟨ss, hr⟩ y hy
      | vnull => simp [strItems] at hobs
      | vbool b => simp [strItems] at hobs
      | vnum n => simp [strItems] at hobs
      | varr a => simp [strItems] at hobs
      | vobj o => simp [strItems] at hobs
    · intro hall
      obtain ⟨s, rfl⟩ := hall x (by simp)
      obtain ⟨ss, hss⟩ := (strItems_eq_some_iff rest).mpr (fun y hy => hall y (by simp [hy]))
      exact ⟨s :: ss, by simp [strItems, hss]⟩

/-- Transcription of the amended spec's acceptance condition: the
decoded JSON value is an object whose `orderBy` member is a non-empty
all-string array and whose `offset` member is a number that is
positive and finite after double rounding.  Stated from the spec's
words, to be compared with the source-derived `cursorOfValue`. -/
def ValidCursorJson (v : Value) : Prop :=
  ∃ kvs, v = .vobj kvs ∧
    (∃ items, objGet kvs "orderBy" = some (.varr items) ∧ items ≠ [] ∧
      ∀ x ∈ items, ∃ s, x = Value.vstr s) ∧
    (∃ q, objGet kvs "offset" = some (.vnum q) ∧
      q.posDouble = true ∧ q.finite = true)

theorem cursorOfValue_some_iff (v : Value) :
    (∃ c, cursorOfValue v = some c) ↔ ValidCursorJson v := by
  constructor
  · rintro ⟨c, hc⟩
    cases v with
    | vobj kvs =>
      simp only [cursorOfValue] at hc
      cases hob : objGet kvs "orderBy" with
      | none => rw [hob] at hc; exact Option.noConfusion hc
      | some w =>
        rw [hob] at hc
        cases w with
        | varr items =>
          have hc2 : (if 0 < items.length then
              match strItems items with
              | some obs =>
                match objGet kvs "offset" with
                | some (Value.vnum q) =>
                  if q.posDouble = true then
                    if q.finite = true then
                      some (⟨obs, q⟩ : RelayCursor)
                    else none
                  else none
                | _ => none
              | none => none
            else none) = some c := hc
          by_cases hlen : 0 < items.length
          · rw [if_pos hlen] at hc2
            cases hsi : strItems items with
            | none => rw [hsi] at hc2; exact Option.noConfusion hc2
            | some obs =>
              rw [hsi] at hc2
              have hc3 : (match objGet kvs "offset" with
                  | some (Value.vnum q) =>
                    if q.posDouble = true then
                      if q.finite = true then
                        some (⟨obs, q⟩ : RelayCursor)
                      else none
                    else none
                  | _ => none) = some c := hc2
              cases hof : objGet kvs "offset" with
              | none => rw [hof] at hc3; exact Option.noConfusion hc3
              | some w2 =>
                rw [hof] at hc3
                cases w2 with
                | vnum q =>
                  have hc4 : (if q.posDouble = true then
                      if q.finite = true then
                        some (⟨obs, q⟩ : RelayCursor)
                      else none
                    else none) = some c := hc3
                  by_cases hpd : q.posDouble = true
                  · by_cases hfin : q.finite = true
                    · exact ⟨kvs, rfl,
                        ⟨items, hob, List.ne_nil_of_length_pos hlen,
                          (strItems_eq_some_iff items).mp ⟨obs, hsi⟩⟩,
                        ⟨q, hof, hpd, hfin⟩⟩
                    · rw [if_pos hpd, if_neg hfin] at hc4
                      exact Option.noConfusion hc4
                  · rw [if_neg hpd] at hc4
                    exact Option.noConfusion hc4
                | vnull => exact Option.noConfusion hc3
                | vbool b => exact Option.noConfusion hc3
                | vstr s => exact Option.noConfusion hc3
                | varr a => exact Option.noConfusion hc3
                | vobj o => exact Option.noConfusion hc3
          · rw [if_neg hlen] at hc2
            exact Option.noConfusion hc2
        | vnull => exact Option.noConfusion hc
        | vbool b => exact Option.noConfusion hc
        | vnum n => exact Option.noConfusion hc
        | vstr s => exact Option.noConfusion hc
        | vobj o => exact Option.noConfusion hc
    | vnull => simp [cursorOfValue] at hc
    | vbool b => simp [cursorOfValue] at hc
    | vnum n => simp [cursorOfValue] at hc
    | vstr s => simp [cursorOfValue] at hc
    | varr a => simp [cursorOfValue] at hc
  · rintro ⟨kvs, rfl, ⟨items, hob, hne, hall⟩, ⟨q, hof, hpd, hfin⟩⟩
    obtain ⟨obs, hobs⟩ := (strItems_eq_some_iff items).mpr hall
    exact ⟨⟨obs, q⟩, by
      simp [cursorOfValue, hob, hobs, hof, hpd, hfin, List.length_pos.mpr hne]⟩

/-- C2: the cursor round-trip, and the corrected rejection rule.
First half: for every cursor with a non-empty order-by list of plain
(printable-ASCII, escape-free) strings — the shape of
`OpenCrudOrderByValue` — and a positive integer offset below 2^53
(the exactly-representable doubles), `decodeCursor (encodeCursor c)`
succeeds and returns exactly `c`.  Second half: `decodeCursor` throws
`InvalidCursorValue` exactly when the base64-decoded text fails to
parse as JSON or its value is not accepted by the assert chain — an
object with a non-empty all-string orderBy array and a positive,
finite *number* offset.  An integer is not required, so non-integer
offsets such as 1.5 are accepted (see the counterexample), refuting
the claim's positive-integer rejection rule. -/
theorem c2_cursor_roundtrip :
    (∀ (orderBy : List String) (offset : Nat), orderBy ≠ [] → 0 < offset →
      offset < 2 ^ 53 → (∀ s ∈ orderBy, ∀ c ∈ s.data, plainChar c) →
      decodeCursor (encodeCursor orderBy offset) =
        .ok ⟨orderBy, ⟨(offset : Int), 0⟩⟩) ∧
    (∀ value : String,
      decodeCursor value = .error ("invalid cursor value: " ++ value) ↔
        ¬ ∃ v, decodedJson value = some v ∧ ValidCursorJson v) := by
  constructor
  · intro orderBy offset hne hpos h53 hchars
    have hascii := stringify_ascii orderBy offset hchars
    have hbytes := utf8_ascii_bytes _ hascii
    have hjson : utf8Decode (b64decode (encodeCursor orderBy offset)) =
        stringifyCursorChars orderBy offset := by
      simp only [encodeCursor]
      rw [b64_roundtrip' _ hbytes]
      exact utf8_ascii _ hascii
    simp only [decodeCursor, decodedJson]
    rw [hjson]
    have hflen : orderBy.length + 4 ≤ (stringifyCursorChars orderBy offset).length + 2 := by
      have h1 := arrChars_len orderBy
      simp only [stringifyCursorChars, List.length_cons, List.length_append]
      omega
    have hparse := parseJson_cursor orderBy offset
      ((stringifyCursorChars orderBy offset).length + 2) hchars hpos hflen
    rw [show (stringifyCursorChars orderBy offset).length + 3 =
      ((stringifyCursorChars orderBy offset).length + 2) + 1 from rfl]
    simp only [hparse]
    simp only [show skipWs [] = [] from rfl, if_pos rfl]
    have hpd : JsNum.posDouble ⟨(offset : Int), 0⟩ = true := by
      simp only [JsNum.posDouble]
      rw [if_pos (le_refl 0)]
      simp only [decide_eq_true_eq]
      exact_mod_cast hpos
    have hfin : JsNum.finite ⟨(offset : Int), 0⟩ = true := by
      have hA : (2 : Nat) ^ 53 ≤ 2 ^ 970 :=
        Nat.pow_le_pow_right (by norm_num) (by norm_num)
      have hB : (2 : Nat) ^ 970 + 2 ^ 970 ≤ 2 ^ 1024 := by
        have h2 : (2 : Nat) ^ 971 ≤ 2 ^ 1024 :=
          Nat.pow_le_pow_right (by norm_num) (by norm_num)
        calc (2 : Nat) ^ 970 + 2 ^ 970 = 2 ^ 971 := by ring
        _ ≤ 2 ^ 1024 := h2
      simp only [JsNum.finite]
      rw [if_pos (le_refl 0)]
      simp only [Int.natAbs_ofNat, pow_zero, Nat.mul_one, Int.toNat_zero,
        decide_eq_true_eq]
      omega
    simp [cursorOfValue, objGet, List.lookup, strItems_map, List.length_pos.mpr hne,
      show (("orderBy" : String) == "offset") = false by decide, hpd, hfin]
  · intro value
    cases hd : decodedJson value with
    | none =>
      have hdc : decodeCursor value = .error ("invalid cursor value: " ++ value) := by
        simp only [decodeCursor, hd]
      rw [hdc]
      constructor
      · rintro - ⟨v, hv, -⟩
        exact Option.noConfusion hv
      · intro _
        rfl
    | some v =>
      have hdc : decodeCursor value = (match cursorOfValue v with
          | some c => Except.ok c
          | none => Except.error ("invalid cursor value: " ++ value)) := by
        simp only [decodeCursor, hd]
      rw [hdc]
      cases hcv : cursorOfValue v with
      | some c =>
        constructor
        · intro hcon
          exact Except.noConfusion
            (hcon : Except.ok c = Except.error ("invalid cursor value: " ++ value))
        · intro hnot
          exact (hnot ⟨v, rfl, (cursorOfValue_some_iff v).mp ⟨c, hcv⟩⟩).elim
      | none =>
        constructor
        · rintro - ⟨v2, hv2, hvalid⟩
          obtain rfl : v2 = v := (Option.some.inj hv2).symm
          obtain ⟨c, hc⟩ := (cursorOfValue_some_iff v2).mpr hvalid
          rw [hcv] at hc
          exact Option.noConfusion hc
        · intro _
          rfl

set_option maxRecDepth 16000 in
/-- Witness: a concrete successful round-trip; a concrete rejection
(empty orderBy); and a concrete rejection by the finiteness assert
(`offset: 1e999` parses to a number that overflows to Infinity, and
`isFinite` throws). -/
theorem c2_witness :
    decodeCursor (encodeCursor ["a_ASC"] 2) = .ok ⟨["a_ASC"], ⟨2, 0⟩⟩ ∧
    decodeCursor "eyJvcmRlckJ5IjpbXSwib2Zmc2V0IjoxfQ==" =
      .error ("invalid cursor value: " ++ "eyJvcmRlckJ5IjpbXSwib2Zmc2V0IjoxfQ==") ∧
    decodeCursor "eyJvcmRlckJ5IjpbImFfQVNDIl0sIm9mZnNldCI6MWU5OTl9" =
      .error ("invalid cursor value: " ++
        "eyJvcmRlckJ5IjpbImFfQVNDIl0sIm9mZnNldCI6MWU5OTl9") :=
  ⟨c2_cursor_roundtrip.1 ["a_ASC"] 2 (by decide) (by decide) (by decide) (by decide),
   (c2_cursor_roundtrip.2 "eyJvcmRlckJ5IjpbXSwib2Zmc2V0IjoxfQ==").mpr (by
     rintro ⟨v, hv, hvalid⟩
     have hv0 : decodedJson "eyJvcmRlckJ5IjpbXSwib2Zmc2V0IjoxfQ==" =
         some (Value.vobj [("orderBy", Value.varr []),
           ("offset", Value.vnum ⟨1, 0⟩)]) := by decide
     rw [hv0] at hv
     obtain rfl := Option.some.inj hv
     obtain ⟨kvs, hkvs, ⟨items, hob, hnil, -⟩, -⟩ := hvalid
     obtain rfl : [("orderBy", Value.varr []), ("offset", Value.vnum ⟨1, 0⟩)] = kvs := by
       injection hkvs
     have he : objGet [("orderBy", Value.varr []), ("offset", Value.vnum ⟨1, 0⟩)]
         "orderBy" = some (Value.varr []) := by decide
     have hi : Value.varr ([] : List Value) = Value.varr items :=
       Option.some.inj (he.symm.trans hob)
     apply hnil
     injection hi.symm),
   (c2_cursor_roundtrip.2 "eyJvcmRlckJ5IjpbImFfQVNDIl0sIm9mZnNldCI6MWU5OTl9").mpr (by
     rintro ⟨v, hv, hvalid⟩
     have hv0 : decodedJson "eyJvcmRlckJ5IjpbImFfQVNDIl0sIm9mZnNldCI6MWU5OTl9" =
         some (Value.vobj [("orderBy", Value.varr [Value.vstr "a_ASC"]),
           ("offset", Value.vnum ⟨1, 999⟩)]) := by decide
     rw [hv0] at hv
     obtain rfl := Option.some.inj hv
     obtain ⟨kvs, hkvs, -, ⟨q, hof, -, hfin⟩⟩ := hvalid
     obtain rfl : [("orderBy", Value.varr [Value.vstr "a_ASC"]),
         ("offset", Value.vnum ⟨1, 999⟩)] = kvs := by
       injection hkvs
     have he : objGet [("orderBy", Value.varr [Value.vstr "a_ASC"]),
         ("offset", Value.vnum ⟨1, 999⟩)] "offset" = some (Value.vnum ⟨1, 999⟩) := by
       decide
     have hq : Value.vnum (⟨1, 999⟩ : JsNum) = Value.vnum q :=
       Option.some.inj (he.symm.trans hof)
     have hq2 : (⟨1, 999⟩ : JsNum) = q := by injection hq
     rw [← hq2] at hfin
     exact absurd hfin (by decide))⟩

set_option maxRecDepth 16000 in
/-- The input is the base64 of `{"orderBy":["a_ASC"],"offset":1.5}`:
its decoded JSON is an object whose offset is positive and finite but
*not* an integer, yet `decodeCursor` accepts it (offset 1.5 = 15·10⁻¹)
instead of throwing `InvalidCursorValue` — refuting the claim's
invalid-input half. -/
theorem c2_counterexample :
    decodeCursor "eyJvcmRlckJ5IjpbImFfQVNDIl0sIm9mZnNldCI6MS41fQ==" =
      .ok ⟨["a_ASC"], ⟨15, -1⟩⟩ := by decide

end OpenReader
